import Mathlib

/-!
Catalog name resolution.

A shallow embedding of the name-resolution layer of `src/catalog/catalog.cpp`:
probe-site enumeration (`GetCatalogEntries`), minimal qualification
(`FindMinimalQualification`), the lookup loop (`LookupEntryInternal`,
`LookupEntry`, `Catalog::GetEntry`), the extension registry search
(`FindExtensionGeneric`), the suggestions of the missing-entry exception
(`SimilarEntryInSchemas`, `CreateMissingEntryException`), the schema listing
(`GetAllSchemas`) and the mutating operations `DropEntry`, `Alter` and
`CreateTable` with the catalog version.

C++ `string` is embedded as `String`, `vector<T>` as `List T`, `optional_ptr<T>`
as `Option T`, and a function that may `throw` returns `Except`.
-/

namespace duckdb

/-! ## Constants and sentinels -/

/-- Modelled from the spec: the sentinel for an unspecified catalog (declared in a header that is
not among the sources); the empty string. -/
def INVALID_CATALOG : String := ""

/-- Modelled from the spec: the sentinel for an unspecified schema (declared in a header that is
not among the sources); the empty string. -/
def INVALID_SCHEMA : String := ""

/-- Modelled from the spec: `DEFAULT_SCHEMA` is `"main"`. -/
def DEFAULT_SCHEMA : String := "main"

/-- Modelled from the spec: the reserved name of the session-local temporary catalog. -/
def TEMP_CATALOG : String := "temp"

/-- Modelled from the spec: the reserved name of the system catalog. -/
def SYSTEM_CATALOG : String := "system"

/-- Modelled from the spec: `is_invalid_catalog(s)` recognises exactly the sentinel. -/
def IsInvalidCatalog (str : String) : Bool := decide (str = INVALID_CATALOG)

/-- Modelled from the spec: `is_invalid_schema(s)` recognises exactly the sentinel. -/
def IsInvalidSchema (str : String) : Bool := decide (str = INVALID_SCHEMA)

/-! ## Search path -/

/-- One `(catalog, schema)` probe site. -/
structure CatalogSearchEntry where
  catalog : String
  schema : String
  deriving DecidableEq, Repr

/-- Modelled from the spec: the session search path (its class is not among the sources).
`catalog.cpp` uses it only through the three queries `Get`, `GetCatalogsForSchema` and
`GetSchemasForCatalog`, whose answers are the fields of this structure. -/
structure CatalogSearchPath where
  Get : List CatalogSearchEntry
  GetCatalogsForSchema : String → List String
  GetSchemasForCatalog : String → List String

/-- Modelled from the spec: a search path given by its ordered list of `(catalog, schema)` entries;
`catalogs_for_schema` and `schemas_for_catalog` select from that list, in order. -/
def CatalogSearchPath.ofPaths (paths : List CatalogSearchEntry) : CatalogSearchPath where
  Get := paths
  GetCatalogsForSchema := fun schema =>
    (paths.filter (fun p => decide (p.schema = schema))).map (fun p => p.catalog)
  GetSchemasForCatalog := fun catalog =>
    (paths.filter (fun p => decide (p.catalog = catalog))).map (fun p => p.schema)

/-! ## Catalog objects -/

/-- Modelled from the spec: the closed set of entry kinds (`CatalogType`, declared in a header that
is not among the sources). -/
inductive CatalogType where
  | SCHEMA_ENTRY
  | TABLE_ENTRY
  | VIEW_ENTRY
  | SEQUENCE_ENTRY
  | TYPE_ENTRY
  | SCALAR_FUNCTION_ENTRY
  | AGGREGATE_FUNCTION_ENTRY
  | TABLE_FUNCTION_ENTRY
  | PRAGMA_FUNCTION_ENTRY
  | COPY_FUNCTION_ENTRY
  | MACRO_ENTRY
  | COLLATION_ENTRY
  | INDEX_ENTRY
  deriving DecidableEq, Repr

/-- A catalog entry: its kind, its case-sensitive name and its oid (which stands for the identity
of the object). -/
structure CatalogEntry where
  type : CatalogType
  name : String
  oid : Nat
  deriving DecidableEq, Repr

/-- A schema: the name of its owning catalog (the back-reference `schema.catalog`), its own name
and the entries of its registries, in insertion order. -/
structure SchemaCatalogEntry where
  catalog : String
  name : String
  entries : List CatalogEntry
  deriving DecidableEq, Repr

/-- Modelled from the spec: `SchemaCatalogEntry::GetEntry(transaction, type, name)`, the registry
query `get(tx, name)` of the registry of kind `type`: the entry of that kind with exactly that
name, if any. The transaction is the single snapshot the embedding looks at. -/
def SchemaCatalogEntry.GetEntry (schema : SchemaCatalogEntry) (type : CatalogType)
    (name : String) : Option CatalogEntry :=
  schema.entries.find? (fun e => decide (e.type = type ∧ e.name = name))

/-- The catalog of one attached database: its name (`GetName()`) and its schema registry. -/
structure Catalog where
  name : String
  schemas : List SchemaCatalogEntry
  deriving DecidableEq, Repr

/-- Modelled from the spec: `Catalog::GetSchema(transaction, schema_name, if_exists = true)`, a
pure virtual of `Catalog` whose implementation is not among the sources: the schema registered
under that name, or absence (never an error, since `if_exists` is set). -/
def Catalog.GetSchema (catalog : Catalog) (schema_name : String) : Option SchemaCatalogEntry :=
  catalog.schemas.find? (fun s => decide (s.name = schema_name))

/-- The part of `ClientContext` that name resolution reads: the session search path, the default
database name (`DatabaseManager::GetDefaultDatabase`), the attached databases of the database
manager, and the temporary and system catalogs. -/
structure ClientContext where
  catalog_search_path : CatalogSearchPath
  default_database : String
  databases : List Catalog
  temporary_objects : Catalog
  system : Catalog

/-- Modelled from the spec: `DatabaseManager::GetDefaultDatabase(context)`. -/
def DatabaseManager.GetDefaultDatabase (context : ClientContext) : String :=
  context.default_database

/-- Modelled from the spec: `DatabaseManager::GetDatabase(context, name)`, the case-sensitive
query `get(name)` on the attached databases. -/
def DatabaseManager.GetDatabase (context : ClientContext) (name : String) : Option Catalog :=
  context.databases.find? (fun c => decide (c.name = name))

/-! ## Probe-site enumeration -/

/-- Embeds `GetCatalogEntries(context, catalog, schema)`: the ordered probe sites of a partially
qualified name. -/
def GetCatalogEntries (context : ClientContext) (catalog schema : String) :
    List CatalogSearchEntry :=
  let search_path := context.catalog_search_path
  if IsInvalidCatalog catalog && IsInvalidSchema schema then
    search_path.Get
  else if IsInvalidCatalog catalog then
    let catalogs := search_path.GetCatalogsForSchema schema
    let entries := catalogs.map (fun catalog_name => CatalogSearchEntry.mk catalog_name schema)
    if entries.isEmpty then
      [CatalogSearchEntry.mk (DatabaseManager.GetDefaultDatabase context) schema]
    else entries
  else if IsInvalidSchema schema then
    let schemas := search_path.GetSchemasForCatalog catalog
    let entries := schemas.map (fun schema_name => CatalogSearchEntry.mk catalog schema_name)
    if entries.isEmpty then
      [CatalogSearchEntry.mk catalog DEFAULT_SCHEMA]
    else entries
  else
    [CatalogSearchEntry.mk catalog schema]

/-- The `for (auto &entry : entries) { if (...) { found = true; break; } }` loop of
`FindMinimalQualification`. -/
def FindMinimalQualification.found (catalog_name schema_name : String) :
    List CatalogSearchEntry → Bool
  | [] => false
  | entry :: rest =>
    if entry.catalog = catalog_name ∧ entry.schema = schema_name then true
    else FindMinimalQualification.found catalog_name schema_name rest

/-- Embeds `FindMinimalQualification`: the pair `(qualify_database, qualify_schema)` written to the two
output references. -/
def FindMinimalQualification (context : ClientContext) (catalog_name schema_name : String) :
    Bool × Bool :=
  if FindMinimalQualification.found catalog_name schema_name
      (GetCatalogEntries context INVALID_CATALOG schema_name) then
    (false, true)
  else if FindMinimalQualification.found catalog_name schema_name
      (GetCatalogEntries context catalog_name INVALID_SCHEMA) then
    (true, false)
  else
    (true, true)

/-! ## Catalog resolution -/

/-- The exceptions the embedded code can raise. `BinderException` carries its formatted message.
`MissingEntry entry_name type schemas` is the `CatalogException` built by the call
`CreateMissingEntryException(context, entry_name, type, schemas, error_context)`, recorded by the
arguments of that call; `schemas` is the `reference_set_t<SchemaCatalogEntry>` handed over, listed
in order of first insertion. `CatalogException` is any other catalog exception, with its message,
and `PermissionDenied` the error kind of the spec for a write to the system catalog.
`ConversionException` and `NotImplementedException` are raised by the date part functions and
carry their formatted message. -/
inductive Exception where
  | BinderException (message : String)
  | MissingEntry (entry_name : String) (type : CatalogType) (schemas : List SchemaCatalogEntry)
  | CatalogException (message : String)
  | PermissionDenied
  | ConversionException (message : String)
  | NotImplementedException (message : String)
  deriving DecidableEq, Repr

/-- Embeds `Catalog::GetCatalogEntry(context, catalog_name)`. -/
def Catalog.GetCatalogEntry (context : ClientContext) (catalog_name : String) : Option Catalog :=
  if catalog_name = TEMP_CATALOG then
    some context.temporary_objects
  else if catalog_name = SYSTEM_CATALOG then
    some context.system
  else
    DatabaseManager.GetDatabase context
      (if IsInvalidCatalog catalog_name then DatabaseManager.GetDefaultDatabase context
       else catalog_name)

/-- Embeds `Catalog::GetCatalog(context, catalog_name)`: raises when the catalog does not exist. -/
def Catalog.GetCatalog (context : ClientContext) (catalog_name : String) :
    Except Exception Catalog :=
  match Catalog.GetCatalogEntry context catalog_name with
  | none => .error (.BinderException ("Catalog \"" ++ catalog_name ++ "\" does not exist!"))
  | some catalog => .ok catalog

/-- Embeds `struct CatalogLookup`: a resolved catalog and the schema name to probe in it. -/
structure CatalogLookup where
  catalog : Catalog
  schema : String
  deriving DecidableEq, Repr

/-- Embeds `struct CatalogEntryLookup`, the return value of `Catalog::LookupEntry`. -/
structure CatalogEntryLookup where
  schema : Option SchemaCatalogEntry
  entry : Option CatalogEntry
  deriving DecidableEq, Repr

/-- Embeds `CatalogEntryLookup::Found()`. -/
def CatalogEntryLookup.Found (lookup : CatalogEntryLookup) : Bool := lookup.entry.isSome

/-- Embeds `reference_set_t<SchemaCatalogEntry>::insert`: a set, kept as the list of its members in order
of first insertion. -/
def reference_set_insert (schemas : List SchemaCatalogEntry) (schema : SchemaCatalogEntry) :
    List SchemaCatalogEntry :=
  if schema ∈ schemas then schemas else schemas ++ [schema]

/-- Embeds `Catalog::LookupEntryInternal(transaction, type, schema, name)`. -/
def Catalog.LookupEntryInternal (catalog : Catalog) (type : CatalogType) (schema name : String) :
    CatalogEntryLookup :=
  match catalog.GetSchema schema with
  | none => ⟨none, none⟩
  | some schema_entry =>
    match schema_entry.GetEntry type name with
    | none => ⟨some schema_entry, none⟩
    | some entry => ⟨some schema_entry, some entry⟩

/-- The probing loop shared by both overloads of `Catalog::LookupEntry`, together with the code
that follows it: each lookup is probed with `LookupEntryInternal`; a found entry is returned at
once, otherwise the schema (when it exists) is inserted into `schemas`; after the last lookup the
result is absence when `if_exists` is set and the missing-entry exception otherwise. -/
def Catalog.LookupEntry.probe (type : CatalogType) (name : String) (if_exists : Bool) :
    List CatalogLookup → List SchemaCatalogEntry → Except Exception CatalogEntryLookup
  | [], schemas =>
    if if_exists then .ok ⟨none, none⟩ else .error (.MissingEntry name type schemas)
  | lookup :: rest, schemas =>
    let result := lookup.catalog.LookupEntryInternal type lookup.schema name
    if result.Found then .ok result
    else
      match result.schema with
      | some schema => Catalog.LookupEntry.probe type name if_exists rest
          (reference_set_insert schemas schema)
      | none => Catalog.LookupEntry.probe type name if_exists rest schemas

/-- Embeds `Catalog::LookupEntry(context, lookups, type, name, if_exists, error_context)`. -/
def Catalog.LookupEntry (lookups : List CatalogLookup) (type : CatalogType) (name : String)
    (if_exists : Bool) : Except Exception CatalogEntryLookup :=
  Catalog.LookupEntry.probe type name if_exists lookups []

/-- Embeds `Catalog::LookupEntry(context, type, schema, name, if_exists, error_context)`, the overload
that stays inside one catalog: with an unspecified schema it probes, in this catalog, the schema
of every site of `GetCatalogEntries(context, GetName(), INVALID_SCHEMA)`; otherwise the one schema
given. (The local `catalog_name` of the source is assigned and never read.) -/
def Catalog.LookupEntryInCatalog (catalog : Catalog) (context : ClientContext) (type : CatalogType)
    (schema name : String) (if_exists : Bool) : Except Exception CatalogEntryLookup :=
  if IsInvalidSchema schema then
    let entries := GetCatalogEntries context catalog.name INVALID_SCHEMA
    Catalog.LookupEntry.probe type name if_exists
      (entries.map (fun entry => CatalogLookup.mk catalog entry.schema)) []
  else
    Catalog.LookupEntry.probe type name if_exists [CatalogLookup.mk catalog schema] []

/-- The first loop of the five-argument `Catalog::GetEntry`: every probe site is resolved to its
catalog before any lookup happens. `.ok none` is the early `return nullptr` taken, when
`if_exists_p` is set, at the first site whose catalog does not exist; without `if_exists_p` that
site raises through `Catalog::GetCatalog`. -/
def Catalog.GetEntry.lookups (context : ClientContext) (if_exists_p : Bool) :
    List CatalogSearchEntry → Except Exception (Option (List CatalogLookup))
  | [] => .ok (some [])
  | entry :: rest =>
    if if_exists_p then
      match Catalog.GetCatalogEntry context entry.catalog with
      | none => .ok none
      | some catalog_entry =>
        match Catalog.GetEntry.lookups context if_exists_p rest with
        | .ok (some lookups) => .ok (some (CatalogLookup.mk catalog_entry entry.schema :: lookups))
        | other => other
    else
      match Catalog.GetCatalog context entry.catalog with
      | .error e => .error e
      | .ok catalog =>
        match Catalog.GetEntry.lookups context if_exists_p rest with
        | .ok (some lookups) => .ok (some (CatalogLookup.mk catalog entry.schema :: lookups))
        | other => other

/-- Embeds `Catalog::GetEntry(context, type, catalog, schema, name, if_exists_p, error_context)`:
`.ok none` is the null pointer, `.error` a raised exception. -/
def Catalog.GetEntry (context : ClientContext) (type : CatalogType) (catalog schema name : String)
    (if_exists_p : Bool) : Except Exception (Option CatalogEntry) :=
  let entries := GetCatalogEntries context catalog schema
  match Catalog.GetEntry.lookups context if_exists_p entries with
  | .error e => .error e
  | .ok none => .ok none
  | .ok (some lookups) =>
    match Catalog.LookupEntry lookups type name if_exists_p with
    | .error e => .error e
    | .ok result => if result.Found then .ok result.entry else .ok none

/-! ## Extension registry -/

/-- Embeds `struct ExtensionEntry`: a registered name and the extension that provides it. -/
structure ExtensionEntry where
  name : String
  extension : String
  deriving DecidableEq, Repr

/-- Modelled from the spec: `StringUtil::Lower`, the lowercase form of a string (the function is
not among the sources). -/
def StringUtil.Lower (str : String) : String := String.mk (str.data.map Char.toLower)

/-- The loop of `std::lower_bound(first, last, value, comp)` over the range `[first, first + len)`
of `entries`: halve the range until it is empty. `fuel` bounds the number of iterations. -/
def std.lower_bound.loop {α β : Type} (entries : List α) (value : β) (comp : α → β → Bool) :
    Nat → Nat → Nat → Nat
  | 0, first, _ => first
  | fuel + 1, first, len =>
    if 0 < len then
      let half := len / 2
      let middle := first + half
      match entries[middle]? with
      | some element =>
        if comp element value then
          std.lower_bound.loop entries value comp fuel (middle + 1) (len - half - 1)
        else
          std.lower_bound.loop entries value comp fuel first half
      | none => first
    else first

/-- Embeds `std::lower_bound(entries, entries + size, value, comp)`, as the index of the iterator it
returns. The range length strictly decreases, so `size` iterations always suffice. -/
def std.lower_bound {α β : Type} (entries : List α) (value : β) (comp : α → β → Bool) : Nat :=
  std.lower_bound.loop entries value comp entries.length 0 entries.length

/-- Embeds `FindExtensionGeneric(name, entries, size)`; the list carries its own `size`. The comparison
`element.name < value` of two C++ strings is the lexicographic comparison of their character
sequences. -/
def FindExtensionGeneric (name : String) (entries : List ExtensionEntry) : String :=
  let lcase := StringUtil.Lower name
  let it := std.lower_bound entries lcase
    (fun element value => decide (element.name.data < value.data))
  match entries[it]? with
  | some element => if element.name = lcase then element.extension else ""
  | none => ""

/-- Embeds `FindExtensionForFunction(name)`, with the compiled-in table `EXTENSION_FUNCTIONS` (declared
in a header that is not among the sources) as a parameter. -/
def FindExtensionForFunction (EXTENSION_FUNCTIONS : List ExtensionEntry) (name : String) : String :=
  FindExtensionGeneric name EXTENSION_FUNCTIONS

/-- Embeds `FindExtensionForSetting(name)`, with the compiled-in table `EXTENSION_SETTINGS` as a
parameter. -/
def FindExtensionForSetting (EXTENSION_SETTINGS : List ExtensionEntry) (name : String) : String :=
  FindExtensionGeneric name EXTENSION_SETTINGS

/-! ## Suggestions -/

/-- Modelled from the spec: `struct SimilarCatalogEntry` (declared in a header that is not among
the sources), the `SimilarMatch { name, distance }` of the spec together with the schema the match
was found in. `distance` is an `idx_t`. -/
structure SimilarCatalogEntry where
  name : String
  distance : Nat
  schema : Option SchemaCatalogEntry
  deriving DecidableEq, Repr

/-- Modelled from the spec: "no match", the default-constructed `SimilarCatalogEntry`: the empty
name, the distance `idx_t(-1)` and no schema. -/
def SimilarCatalogEntry.empty : SimilarCatalogEntry := ⟨"", 18446744073709551615, none⟩

/-- Modelled from the spec: `SimilarCatalogEntry::Found()`, whether the value is a match: its name
is not empty. -/
def SimilarCatalogEntry.Found (entry : SimilarCatalogEntry) : Bool := decide (entry.name ≠ "")

/-- Modelled from the spec: `SimilarCatalogEntry::GetQualifiedName(qualify_catalog,
qualify_schema)`, the formatter of §4.1: the name of the match, prefixed by the name of its catalog
and of its schema as the two flags ask, the parts joined by dots. Without a schema nothing is
prefixed. -/
def SimilarCatalogEntry.GetQualifiedName (entry : SimilarCatalogEntry)
    (qualify_catalog qualify_schema : Bool) : String :=
  let catalog_name := match entry.schema with
    | some schema => schema.catalog
    | none => ""
  let schema_name := match entry.schema with
    | some schema => schema.name
    | none => ""
  let result := if qualify_catalog then catalog_name else ""
  let result := if qualify_schema then
      (if result ≠ "" then result ++ "." else result) ++ schema_name
    else result
  let result := if result ≠ "" then result ++ "." else result
  result ++ entry.name

/-- Modelled from the spec: the registry query `similar(tx, name)` behind
`SchemaCatalogEntry::GetSimilarEntry(transaction, type, name)`, which is not among the sources:
the entry of kind `type` at the lowest case-insensitive Levenshtein distance from `name`, the
earliest inserted one among several at that distance; no cap is applied. The functions of
`catalog.cpp` take the query as a parameter; this is the instance the examples use. -/
def SchemaCatalogEntry.GetSimilarEntry (schema : SchemaCatalogEntry) (type : CatalogType)
    (name : String) : SimilarCatalogEntry :=
  (schema.entries.filter (fun e => decide (e.type = type))).foldl
    (fun result e =>
      let ldist := levenshtein Levenshtein.defaultCost
        (StringUtil.Lower e.name).data (StringUtil.Lower name).data
      if ldist < result.distance then ⟨e.name, ldist, none⟩ else result)
    SimilarCatalogEntry.empty

/-- The loop of `Catalog::SimilarEntryInSchemas`: `schemas` lists the reference set in the order
the loop visits it, `result` is the best match so far. -/
def Catalog.SimilarEntryInSchemas.loop
    (GetSimilarEntry : SchemaCatalogEntry → CatalogType → String → SimilarCatalogEntry)
    (entry_name : String) (type : CatalogType) :
    List SchemaCatalogEntry → SimilarCatalogEntry → SimilarCatalogEntry
  | [], result => result
  | schema :: rest, result =>
    let entry := GetSimilarEntry schema type entry_name
    if !entry.Found then
      Catalog.SimilarEntryInSchemas.loop GetSimilarEntry entry_name type rest result
    else if !result.Found || decide (result.distance > entry.distance) then
      Catalog.SimilarEntryInSchemas.loop GetSimilarEntry entry_name type rest
        { entry with schema := some schema }
    else
      Catalog.SimilarEntryInSchemas.loop GetSimilarEntry entry_name type rest result

/-- Embeds `Catalog::SimilarEntryInSchemas(context, entry_name, type, schemas)`, with the query
`schema.GetSimilarEntry(transaction, type, entry_name)` as the parameter `GetSimilarEntry`. -/
def Catalog.SimilarEntryInSchemas
    (GetSimilarEntry : SchemaCatalogEntry → CatalogType → String → SimilarCatalogEntry)
    (entry_name : String) (type : CatalogType) (schemas : List SchemaCatalogEntry) :
    SimilarCatalogEntry :=
  Catalog.SimilarEntryInSchemas.loop GetSimilarEntry entry_name type schemas
    SimilarCatalogEntry.empty

/-- Modelled from the spec: `CatalogTypeToString(type)`, the display name of an entry kind (the
function is not among the sources); the spec quotes `Table`. -/
def CatalogTypeToString : CatalogType → String
  | .SCHEMA_ENTRY => "Schema"
  | .TABLE_ENTRY => "Table"
  | .VIEW_ENTRY => "View"
  | .SEQUENCE_ENTRY => "Sequence"
  | .TYPE_ENTRY => "Type"
  | .SCALAR_FUNCTION_ENTRY => "Scalar Function"
  | .AGGREGATE_FUNCTION_ENTRY => "Aggregate Function"
  | .TABLE_FUNCTION_ENTRY => "Table Function"
  | .PRAGMA_FUNCTION_ENTRY => "Pragma Function"
  | .COPY_FUNCTION_ENTRY => "Copy Function"
  | .MACRO_ENTRY => "Macro Function"
  | .COLLATION_ENTRY => "Collation"
  | .INDEX_ENTRY => "Index"

/-! ## Schema listings -/

/-- Modelled from the spec: `DatabaseManager::GetDatabases(context)`, the query `list()`: the
attached databases, in order. -/
def DatabaseManager.GetDatabases (context : ClientContext) : List Catalog :=
  context.databases

/-- Embeds `Catalog::GetSchemas(context)`: the schemas `ScanSchemas` (a pure virtual, modelled from
the spec as the scan of the schema registry) hands to the callback, in order. -/
def Catalog.GetSchemas (catalog : Catalog) : List SchemaCatalogEntry :=
  catalog.schemas

/-- The comparison lambda of `Catalog::GetAllSchemas`: by catalog name, then by schema name. The
comparison `<` of two C++ strings is the lexicographic comparison of their character sequences. -/
def Catalog.GetAllSchemas.less (left right : SchemaCatalogEntry) : Bool :=
  if left.catalog.data < right.catalog.data then true
  else if left.catalog = right.catalog then decide (left.name.data < right.name.data)
  else false

/-- The library function `std::sort(first, last, comp)`, embedded as an insertion sort by `comp`.
The standard leaves the relative order of equivalent elements open; this sort keeps it. -/
def std.sort {α : Type} (comp : α → α → Bool) (range : List α) : List α :=
  List.insertionSort (fun a b => comp b a = false) range

/-- The first loop of `Catalog::GetAllSchemas`: the schemas of every database appended in turn. -/
def Catalog.GetAllSchemas.collect : List Catalog → List SchemaCatalogEntry
  | [] => []
  | database :: rest => database.GetSchemas ++ Catalog.GetAllSchemas.collect rest

/-- Embeds `Catalog::GetAllSchemas(context)`. -/
def Catalog.GetAllSchemas (context : ClientContext) : List SchemaCatalogEntry :=
  std.sort Catalog.GetAllSchemas.less
    (Catalog.GetAllSchemas.collect (DatabaseManager.GetDatabases context))

/-! ## The missing-entry exception -/

/-- The first loop of `Catalog::CreateMissingEntryException`: for every database the schemas of
`GetAllSchemas(context)` are inserted into the reference set `unseen_schemas`. -/
def Catalog.CreateMissingEntryException.unseen_schemas (context : ClientContext) :
    List SchemaCatalogEntry :=
  (DatabaseManager.GetDatabases context).foldl
    (fun unseen _database => (Catalog.GetAllSchemas context).foldl reference_set_insert unseen) []

/-- The test `type == TABLE_FUNCTION_ENTRY || type == SCALAR_FUNCTION_ENTRY ||
type == AGGREGATE_FUNCTION_ENTRY` of `Catalog::CreateMissingEntryException`. -/
def Catalog.CreateMissingEntryException.is_function (type : CatalogType) : Bool :=
  decide (type = .TABLE_FUNCTION_ENTRY) || decide (type = .SCALAR_FUNCTION_ENTRY)
    || decide (type = .AGGREGATE_FUNCTION_ENTRY)

/-- The part of `Catalog::CreateMissingEntryException` that follows the extension check and builds
the string `did_you_mean` from the local match `entry` (the closest match among the schemas that
were visited): the closest match among `unseen_schemas` is preferred when it is strictly closer,
and is then qualified as `FindMinimalQualification` says. -/
def Catalog.CreateMissingEntryException.did_you_mean
    (GetSimilarEntry : SchemaCatalogEntry → CatalogType → String → SimilarCatalogEntry)
    (context : ClientContext) (entry_name : String) (type : CatalogType)
    (entry : SimilarCatalogEntry) : String :=
  let unseen_entry := Catalog.SimilarEntryInSchemas GetSimilarEntry entry_name type
    (Catalog.CreateMissingEntryException.unseen_schemas context)
  if unseen_entry.Found && decide (unseen_entry.distance < entry.distance) then
    let catalog_name := match unseen_entry.schema with
      | some schema => schema.catalog
      | none => ""
    let schema_name := match unseen_entry.schema with
      | some schema => schema.name
      | none => ""
    let qualify := FindMinimalQualification context catalog_name schema_name
    "\nDid you mean \"" ++ unseen_entry.GetQualifiedName qualify.1 qualify.2 ++ "\"?"
  else if entry.Found then
    "\nDid you mean \"" ++ entry.name ++ "\"?"
  else ""

/-- Embeds `Catalog::CreateMissingEntryException(context, entry_name, type, schemas,
error_context)`: the message of the `CatalogException` it returns. The query
`GetSimilarEntry` and the table `EXTENSION_FUNCTIONS` are parameters; `error_context` is the
default one, whose `FormatError` adds nothing to the formatted message. -/
def Catalog.CreateMissingEntryException
    (GetSimilarEntry : SchemaCatalogEntry → CatalogType → String → SimilarCatalogEntry)
    (EXTENSION_FUNCTIONS : List ExtensionEntry)
    (context : ClientContext) (entry_name : String) (type : CatalogType)
    (schemas : List SchemaCatalogEntry) : String :=
  let entry := Catalog.SimilarEntryInSchemas GetSimilarEntry entry_name type schemas
  let extension_name :=
    if Catalog.CreateMissingEntryException.is_function type then
      FindExtensionForFunction EXTENSION_FUNCTIONS entry_name
    else ""
  if extension_name ≠ "" then
    "Function with name \"" ++ entry_name ++ "\" is not in the catalog, but it exists in the "
      ++ extension_name ++ " extension.\n\nTo install and load the extension, run:\nINSTALL "
      ++ extension_name ++ ";\nLOAD " ++ extension_name ++ ";"
  else
    CatalogTypeToString type ++ " with name " ++ entry_name ++ " does not exist!"
      ++ Catalog.CreateMissingEntryException.did_you_mean GetSimilarEntry context entry_name type
          entry

/-! ## Mutating operations -/

/-- The state a mutating catalog operation acts on: the session context with its catalogs, and the
catalog version counter of the database manager (`catalog_version`). -/
structure CatalogState where
  context : ClientContext
  catalog_version : Nat

/-- Embeds `Catalog::GetCatalogVersion()`. -/
def Catalog.GetCatalogVersion (state : CatalogState) : Nat :=
  state.catalog_version

/-- Modelled from the spec: `DatabaseManager::ModifyCatalog()`, which `Catalog::ModifyCatalog()`
returns and which is not among the sources: `modify()` increments the version and returns the new
value. The counter is taken as unbounded. -/
def DatabaseManager.ModifyCatalog (state : CatalogState) : Nat × CatalogState :=
  (state.catalog_version + 1, { state with catalog_version := state.catalog_version + 1 })

/-- Embeds `Catalog::ModifyCatalog()`. -/
def Catalog.ModifyCatalog (state : CatalogState) : Nat × CatalogState :=
  DatabaseManager.ModifyCatalog state

/-- The fields of `DropInfo` that `catalog.cpp` reads. -/
structure DropInfo where
  type : CatalogType
  schema : String
  name : String
  if_exists : Bool
  cascade : Bool

/-- The fields of `AlterInfo` that `catalog.cpp` reads; `type` is `GetCatalogType()`. -/
structure AlterInfo where
  type : CatalogType
  schema : String
  name : String
  if_exists : Bool

/-- The fields of `CreateTableInfo` that `catalog.cpp` reads, and the name of the table. -/
structure CreateTableInfo where
  schema : String
  table : String

/-- The bound form of a `CreateTableInfo`: `base` is the parsed info. -/
structure BoundCreateTableInfo where
  base : CreateTableInfo

/-- Modelled from the spec: the operations of the catalog and schema implementations that
`catalog.cpp` delegates to and that are not among the sources: `Catalog::DropSchema`,
`SchemaCatalogEntry::DropEntry`, `SchemaCatalogEntry::Alter` and
`SchemaCatalogEntry::CreateTable`. Each is given by the exception it raises, if any, or the
value it returns, and the state it leaves. -/
structure CatalogOperations where
  DropSchema : Catalog → CatalogState → DropInfo → Option Exception × CatalogState
  DropEntry : SchemaCatalogEntry → CatalogState → DropInfo → Option Exception × CatalogState
  Alter : SchemaCatalogEntry → CatalogState → AlterInfo → Option Exception × CatalogState
  CreateTable : SchemaCatalogEntry → CatalogState → BoundCreateTableInfo →
    Except Exception (Option CatalogEntry) × CatalogState

/-- Embeds `Catalog::DropEntry(context, info)`: the exception raised, if any, and the state left.
The version is bumped first; a schema is dropped through `DropSchema`; any other entry is looked
up in this catalog and dropped through its schema. -/
def Catalog.DropEntry (operations : CatalogOperations) (catalog : Catalog) (state : CatalogState)
    (info : DropInfo) : Option Exception × CatalogState :=
  let state := (Catalog.ModifyCatalog state).2
  if info.type = .SCHEMA_ENTRY then
    operations.DropSchema catalog state info
  else
    match catalog.LookupEntryInCatalog state.context info.type info.schema info.name
        info.if_exists with
    | .error e => (some e, state)
    | .ok lookup =>
      if !lookup.Found then (none, state)
      else
        match lookup.schema with
        | some schema => operations.DropEntry schema state info
        | none => (none, state)

/-- Embeds `Catalog::Alter(context, info)`: the exception raised, if any, and the state left. -/
def Catalog.Alter (operations : CatalogOperations) (catalog : Catalog) (state : CatalogState)
    (info : AlterInfo) : Option Exception × CatalogState :=
  let state := (Catalog.ModifyCatalog state).2
  match catalog.LookupEntryInCatalog state.context info.type info.schema info.name
      info.if_exists with
  | .error e => (some e, state)
  | .ok lookup =>
    if !lookup.Found then (none, state)
    else
      match lookup.schema with
      | some schema => operations.Alter schema state info
      | none => (none, state)

/-- Modelled from the spec: `Catalog::GetSchema(transaction, schema_name)` with `if_exists` left at
its default `false` (a pure virtual whose implementation is not among the sources): the schema
registered under that name, or a `NotFound` error with the message of §6. -/
def Catalog.GetSchemaOrThrow (catalog : Catalog) (schema_name : String) :
    Except Exception SchemaCatalogEntry :=
  match catalog.GetSchema schema_name with
  | some schema => .ok schema
  | none => .error (.CatalogException ("Schema with name " ++ schema_name ++ " does not exist!"))

/-- The virtual `SchemaCatalogEntry::CreateTable(transaction, info)`, which is not among the
sources and is taken as given, like the other create operations of a schema: it is the operation
`CreateTable` of the record `operations`, at the schema it is called on. The second argument is
the owner of the schema (`schema.catalog`); nothing is decided by it here. -/
def SchemaCatalogEntry.CreateTable (operations : CatalogOperations) (_ : Catalog)
    (schema : SchemaCatalogEntry) (state : CatalogState) (info : BoundCreateTableInfo) :
    Except Exception (Option CatalogEntry) × CatalogState :=
  operations.CreateTable schema state info

/-- Embeds `Catalog::CreateTable(transaction, info)` with
`Catalog::CreateTable(transaction, schema, info)` inlined: the schema named by `info.base->schema`
is fetched, then the table is created through it. The overloads that take a `ClientContext` end in
this one. -/
def Catalog.CreateTable (operations : CatalogOperations) (catalog : Catalog)
    (state : CatalogState) (info : BoundCreateTableInfo) :
    Except Exception (Option CatalogEntry) × CatalogState :=
  match catalog.GetSchemaOrThrow info.base.schema with
  | .error e => (.error e, state)
  | .ok schema => schema.CreateTable operations catalog state info

/-! ## Typed create operations -/

/-- Embeds the transaction handle `CatalogTransaction(catalog, context)`: the acting catalog and
the session context, here with the state the operation acts on. -/
structure CatalogTransaction where
  catalog : Catalog
  context : CatalogState

/-- Embeds `Catalog::GetCatalogTransaction(context)`. -/
def Catalog.GetCatalogTransaction (catalog : Catalog) (context : CatalogState) :
    CatalogTransaction :=
  ⟨catalog, context⟩

/-- Modelled from the spec: `OnCreateConflict`, what a create operation does when the name is
taken (declared in a header that is not among the sources). -/
inductive OnCreateConflict where
  | ERROR_ON_CONFLICT
  | IGNORE_ON_CONFLICT
  | REPLACE_ON_CONFLICT
  | ALTER_ON_CONFLICT
  deriving DecidableEq, Repr

/-- The fields of the parsed-data classes derived from `CreateInfo` (`CreateViewInfo`,
`CreateSequenceInfo`, `CreateTypeInfo`, the function infos, `CreateCollationInfo`) that
`catalog.cpp` reads or writes, the schema and `on_conflict`, and the name of the entry to
create. -/
structure CreateInfo where
  schema : String
  name : String
  on_conflict : OnCreateConflict

/-- Modelled from the spec: the typed create operations of `SchemaCatalogEntry`, which are not
among the sources and are taken as given: each is the value it returns or the exception it raises,
and the state it leaves. -/
structure SchemaCreateOperations where
  CreateView : SchemaCatalogEntry → CatalogTransaction → CreateInfo →
    Except Exception (Option CatalogEntry) × CatalogState
  CreateSequence : SchemaCatalogEntry → CatalogTransaction → CreateInfo →
    Except Exception (Option CatalogEntry) × CatalogState
  CreateType : SchemaCatalogEntry → CatalogTransaction → CreateInfo →
    Except Exception (Option CatalogEntry) × CatalogState
  CreateTableFunction : SchemaCatalogEntry → CatalogTransaction → CreateInfo →
    Except Exception (Option CatalogEntry) × CatalogState
  CreateCopyFunction : SchemaCatalogEntry → CatalogTransaction → CreateInfo →
    Except Exception (Option CatalogEntry) × CatalogState
  CreatePragmaFunction : SchemaCatalogEntry → CatalogTransaction → CreateInfo →
    Except Exception (Option CatalogEntry) × CatalogState
  CreateFunction : SchemaCatalogEntry → CatalogTransaction → CreateInfo →
    Except Exception (Option CatalogEntry) × CatalogState
  CreateCollation : SchemaCatalogEntry → CatalogTransaction → CreateInfo →
    Except Exception (Option CatalogEntry) × CatalogState

/-- Embeds `Catalog::CreateTable(transaction, info)` with the transaction handle explicit; the
schema operation is `SchemaCatalogEntry.CreateTable`, acting on the context of the
transaction. -/
def Catalog.CreateTable.withTransaction (operations : CatalogOperations) (catalog : Catalog)
    (transaction : CatalogTransaction) (info : BoundCreateTableInfo) :
    Except Exception (Option CatalogEntry) × CatalogState :=
  match catalog.GetSchemaOrThrow info.base.schema with
  | .error e => (.error e, transaction.context)
  | .ok schema => schema.CreateTable operations catalog transaction.context info

/-- Embeds `Catalog::CreateView(transaction, info)` with
`Catalog::CreateView(transaction, schema, info)` inlined. -/
def Catalog.CreateView.withTransaction (operations : SchemaCreateOperations) (catalog : Catalog)
    (transaction : CatalogTransaction) (info : CreateInfo) :
    Except Exception (Option CatalogEntry) × CatalogState :=
  match catalog.GetSchemaOrThrow info.schema with
  | .error e => (.error e, transaction.context)
  | .ok schema => operations.CreateView schema transaction info

/-- Embeds `Catalog::CreateView(context, info)`. -/
def Catalog.CreateView (operations : SchemaCreateOperations) (catalog : Catalog)
    (context : CatalogState) (info : CreateInfo) :
    Except Exception (Option CatalogEntry) × CatalogState :=
  Catalog.CreateView.withTransaction operations catalog (catalog.GetCatalogTransaction context)
    info

/-- Embeds `Catalog::CreateSequence(transaction, info)` with
`Catalog::CreateSequence(transaction, schema, info)` inlined. -/
def Catalog.CreateSequence.withTransaction (operations : SchemaCreateOperations) (catalog : Catalog)
    (transaction : CatalogTransaction) (info : CreateInfo) :
    Except Exception (Option CatalogEntry) × CatalogState :=
  match catalog.GetSchemaOrThrow info.schema with
  | .error e => (.error e, transaction.context)
  | .ok schema => operations.CreateSequence schema transaction info

/-- Embeds `Catalog::CreateSequence(context, info)`. -/
def Catalog.CreateSequence (operations : SchemaCreateOperations) (catalog : Catalog)
    (context : CatalogState) (info : CreateInfo) :
    Except Exception (Option CatalogEntry) × CatalogState :=
  Catalog.CreateSequence.withTransaction operations catalog (catalog.GetCatalogTransaction context)
    info

/-- Embeds `Catalog::CreateType(transaction, info)` with
`Catalog::CreateType(transaction, schema, info)` inlined. -/
def Catalog.CreateType.withTransaction (operations : SchemaCreateOperations) (catalog : Catalog)
    (transaction : CatalogTransaction) (info : CreateInfo) :
    Except Exception (Option CatalogEntry) × CatalogState :=
  match catalog.GetSchemaOrThrow info.schema with
  | .error e => (.error e, transaction.context)
  | .ok schema => operations.CreateType schema transaction info

/-- Embeds `Catalog::CreateType(context, info)`. -/
def Catalog.CreateType (operations : SchemaCreateOperations) (catalog : Catalog)
    (context : CatalogState) (info : CreateInfo) :
    Except Exception (Option CatalogEntry) × CatalogState :=
  Catalog.CreateType.withTransaction operations catalog (catalog.GetCatalogTransaction context)
    info

/-- Embeds `Catalog::CreateTableFunction(transaction, info)` with
`Catalog::CreateTableFunction(transaction, schema, info)` inlined. -/
def Catalog.CreateTableFunction.withTransaction (operations : SchemaCreateOperations) (catalog : Catalog)
    (transaction : CatalogTransaction) (info : CreateInfo) :
    Except Exception (Option CatalogEntry) × CatalogState :=
  match catalog.GetSchemaOrThrow info.schema with
  | .error e => (.error e, transaction.context)
  | .ok schema => operations.CreateTableFunction schema transaction info

/-- Embeds `Catalog::CreateTableFunction(context, info)`. -/
def Catalog.CreateTableFunction (operations : SchemaCreateOperations) (catalog : Catalog)
    (context : CatalogState) (info : CreateInfo) :
    Except Exception (Option CatalogEntry) × CatalogState :=
  Catalog.CreateTableFunction.withTransaction operations catalog (catalog.GetCatalogTransaction context)
    info

/-- Embeds `Catalog::CreateCopyFunction(transaction, info)` with
`Catalog::CreateCopyFunction(transaction, schema, info)` inlined. -/
def Catalog.CreateCopyFunction.withTransaction (operations : SchemaCreateOperations) (catalog : Catalog)
    (transaction : CatalogTransaction) (info : CreateInfo) :
    Except Exception (Option CatalogEntry) × CatalogState :=
  match catalog.GetSchemaOrThrow info.schema with
  | .error e => (.error e, transaction.context)
  | .ok schema => operations.CreateCopyFunction schema transaction info

/-- Embeds `Catalog::CreateCopyFunction(context, info)`. -/
def Catalog.CreateCopyFunction (operations : SchemaCreateOperations) (catalog : Catalog)
    (context : CatalogState) (info : CreateInfo) :
    Except Exception (Option CatalogEntry) × CatalogState :=
  Catalog.CreateCopyFunction.withTransaction operations catalog (catalog.GetCatalogTransaction context)
    info

/-- Embeds `Catalog::CreatePragmaFunction(transaction, info)` with
`Catalog::CreatePragmaFunction(transaction, schema, info)` inlined. -/
def Catalog.CreatePragmaFunction.withTransaction (operations : SchemaCreateOperations) (catalog : Catalog)
    (transaction : CatalogTransaction) (info : CreateInfo) :
    Except Exception (Option CatalogEntry) × CatalogState :=
  match catalog.GetSchemaOrThrow info.schema with
  | .error e => (.error e, transaction.context)
  | .ok schema => operations.CreatePragmaFunction schema transaction info

/-- Embeds `Catalog::CreatePragmaFunction(context, info)`. -/
def Catalog.CreatePragmaFunction (operations : SchemaCreateOperations) (catalog : Catalog)
    (context : CatalogState) (info : CreateInfo) :
    Except Exception (Option CatalogEntry) × CatalogState :=
  Catalog.CreatePragmaFunction.withTransaction operations catalog (catalog.GetCatalogTransaction context)
    info

/-- Embeds `Catalog::CreateFunction(transaction, info)` with
`Catalog::CreateFunction(transaction, schema, info)` inlined. -/
def Catalog.CreateFunction.withTransaction (operations : SchemaCreateOperations) (catalog : Catalog)
    (transaction : CatalogTransaction) (info : CreateInfo) :
    Except Exception (Option CatalogEntry) × CatalogState :=
  match catalog.GetSchemaOrThrow info.schema with
  | .error e => (.error e, transaction.context)
  | .ok schema => operations.CreateFunction schema transaction info

/-- Embeds `Catalog::CreateFunction(context, info)`. -/
def Catalog.CreateFunction (operations : SchemaCreateOperations) (catalog : Catalog)
    (context : CatalogState) (info : CreateInfo) :
    Except Exception (Option CatalogEntry) × CatalogState :=
  Catalog.CreateFunction.withTransaction operations catalog (catalog.GetCatalogTransaction context)
    info

/-- Embeds `Catalog::CreateCollation(transaction, info)` with
`Catalog::CreateCollation(transaction, schema, info)` inlined. -/
def Catalog.CreateCollation.withTransaction (operations : SchemaCreateOperations) (catalog : Catalog)
    (transaction : CatalogTransaction) (info : CreateInfo) :
    Except Exception (Option CatalogEntry) × CatalogState :=
  match catalog.GetSchemaOrThrow info.schema with
  | .error e => (.error e, transaction.context)
  | .ok schema => operations.CreateCollation schema transaction info

/-- Embeds `Catalog::CreateCollation(context, info)`. -/
def Catalog.CreateCollation (operations : SchemaCreateOperations) (catalog : Catalog)
    (context : CatalogState) (info : CreateInfo) :
    Except Exception (Option CatalogEntry) × CatalogState :=
  Catalog.CreateCollation.withTransaction operations catalog (catalog.GetCatalogTransaction context)
    info

/-- The typed create operation in the words of the spec: the result of the same-named create
operation `schema_create` of the schema `GetSchema(transaction, schema_name)`, with the same
transaction and info; when that schema does not exist, the exception of the schema lookup, with
nothing changed. -/
def create_through_schema {Info : Type}
    (schema_create : SchemaCatalogEntry → CatalogTransaction → Info →
      Except Exception (Option CatalogEntry) × CatalogState)
    (catalog : Catalog) (transaction : CatalogTransaction) (schema_name : String) (info : Info) :
    Except Exception (Option CatalogEntry) × CatalogState :=
  match catalog.GetSchemaOrThrow schema_name with
  | .ok schema => schema_create schema transaction info
  | .error e => (.error e, transaction.context)

/-! ## Further catalog queries -/

/-- Embeds `Catalog::GetEntry(context, type, schema_name, name, if_exists, error_context)`, the
overload that stays inside one catalog: the entry of the lookup, null when nothing was found. -/
def Catalog.GetEntryInCatalog (catalog : Catalog) (context : ClientContext) (type : CatalogType)
    (schema_name name : String) (if_exists : Bool) : Except Exception (Option CatalogEntry) :=
  match catalog.LookupEntryInCatalog context type schema_name name if_exists with
  | .error e => .error e
  | .ok lookup => .ok lookup.entry

/-- Modelled from the spec: `LogicalType` (declared in a header that is not among the sources), a
type descriptor: what the type is, and the back-reference to the catalog entry that defines it. -/
structure LogicalType where
  id : String
  catalog_entry : Option CatalogEntry
  deriving DecidableEq, Repr

/-- Modelled from the spec: `LogicalType::INVALID`. -/
def LogicalType.INVALID : LogicalType := ⟨"INVALID", none⟩

/-- Modelled from the spec: `LogicalType::SetCatalog(type, catalog_entry)`, which attaches the
back-reference to the defining entry. -/
def LogicalType.SetCatalog (type : LogicalType) (catalog_entry : CatalogEntry) : LogicalType :=
  { type with catalog_entry := some catalog_entry }

/-- Embeds `Catalog::GetType(context, schema, name, if_exists)`. `user_type` reads the payload
`user_type` of a type entry; `GetEntry<TypeCatalogEntry>` is the lookup of kind `TYPE_ENTRY` in
this catalog. -/
def Catalog.GetType (user_type : CatalogEntry → LogicalType) (catalog : Catalog)
    (context : ClientContext) (schema name : String) (if_exists : Bool) :
    Except Exception LogicalType :=
  match catalog.GetEntryInCatalog context .TYPE_ENTRY schema name if_exists with
  | .error e => .error e
  | .ok none => .ok LogicalType.INVALID
  | .ok (some type_entry) => .ok (LogicalType.SetCatalog (user_type type_entry) type_entry)

/-- Modelled from the spec: `Catalog::GetSchema(context, schema_name, if_exists, error_context)`
on one catalog, with `if_exists` explicit: the schema registered under that name; when there is
none, absence if `if_exists` is set and the `NotFound` error otherwise. -/
def Catalog.GetSchemaChecked (catalog : Catalog) (schema_name : String) (if_exists : Bool) :
    Except Exception (Option SchemaCatalogEntry) :=
  match catalog.GetSchema schema_name with
  | some schema => .ok (some schema)
  | none =>
    if if_exists then .ok none
    else .error (.CatalogException ("Schema with name " ++ schema_name ++ " does not exist!"))

/-- The loop of the static `Catalog::GetSchema`, over the entries from index `i` on: `rest` is
empty exactly when `i + 1 == entries.size()`. -/
def Catalog.GetSchemaFromContext.loop (context : ClientContext) (schema_name : String)
    (if_exists_p : Bool) : List CatalogSearchEntry → Except Exception (Option SchemaCatalogEntry)
  | [] => .ok none
  | entry :: rest =>
    let if_exists := if rest.isEmpty then if_exists_p else true
    match Catalog.GetCatalog context entry.catalog with
    | .error e => .error e
    | .ok catalog =>
      match catalog.GetSchemaChecked schema_name if_exists with
      | .error e => .error e
      | .ok (some result) => .ok (some result)
      | .ok none => Catalog.GetSchemaFromContext.loop context schema_name if_exists_p rest

/-- Embeds the static `Catalog::GetSchema(context, catalog_name, schema_name, if_exists_p,
error_context)`. -/
def Catalog.GetSchemaFromContext (context : ClientContext) (catalog_name schema_name : String)
    (if_exists_p : Bool) : Except Exception (Option SchemaCatalogEntry) :=
  Catalog.GetSchemaFromContext.loop context schema_name if_exists_p
    (GetCatalogEntries context catalog_name schema_name)

/-- The first loop of the static `Catalog::GetSchemas` for an unspecified catalog: `name` is the
set of catalog names seen so far; the catalog of every new name is fetched with `GetCatalog`. -/
def Catalog.GetSchemasFromContext.catalogs (context : ClientContext) :
    List CatalogSearchEntry → List String → Except Exception (List Catalog)
  | [], _ => .ok []
  | entry :: rest, name =>
    if entry.catalog ∈ name then Catalog.GetSchemasFromContext.catalogs context rest name
    else
      match Catalog.GetCatalog context entry.catalog with
      | .error e => .error e
      | .ok catalog =>
        match Catalog.GetSchemasFromContext.catalogs context rest (entry.catalog :: name) with
        | .error e => .error e
        | .ok catalogs => .ok (catalog :: catalogs)

/-- The second loop of the static `Catalog::GetSchemas`: the schemas of every catalog appended
in turn. -/
def Catalog.GetSchemasFromContext.collect : List Catalog → List SchemaCatalogEntry
  | [] => []
  | catalog :: rest => catalog.GetSchemas ++ Catalog.GetSchemasFromContext.collect rest

/-- Embeds the static `Catalog::GetSchemas(context, catalog_name)`. -/
def Catalog.GetSchemasFromContext (context : ClientContext) (catalog_name : String) :
    Except Exception (List SchemaCatalogEntry) :=
  let catalogs :=
    if IsInvalidCatalog catalog_name then
      Catalog.GetSchemasFromContext.catalogs context context.catalog_search_path.Get []
    else
      match Catalog.GetCatalog context catalog_name with
      | .error e => .error e
      | .ok catalog => .ok [catalog]
  match catalogs with
  | .error e => .error e
  | .ok catalogs => .ok (Catalog.GetSchemasFromContext.collect catalogs)

/-- Embeds `Catalog::TypeExists(context, catalog_name, schema, name)`. -/
def Catalog.TypeExists (context : ClientContext) (catalog_name schema name : String) :
    Except Exception Bool :=
  match Catalog.GetEntry context .TYPE_ENTRY catalog_name schema name true with
  | .error e => .error e
  | .ok (some _) => .ok true
  | .ok none =>
    match Catalog.GetEntry context .TYPE_ENTRY SYSTEM_CATALOG schema name true with
    | .error e => .error e
    | .ok (some _) => .ok true
    | .ok none => .ok false

/-! ## Further create operations -/

/-- The field of `CreateSchemaInfo` that names the schema to create. -/
structure CreateSchemaInfo where
  schema : String

/-- The fields of `CreateIndexInfo` that `catalog.cpp` reads, the schema and the name of the
table (`info.table->table_name`), and the name of the index. -/
structure CreateIndexInfo where
  schema : String
  table_name : String
  index_name : String

/-- Modelled from the spec: further operations that `catalog.cpp` delegates to and that are not
among the sources: the virtual `Catalog::CreateSchema(transaction, info)`,
`SchemaCatalogEntry::CreateIndex(context, info, table)` and `Binder::BindCreateTableInfo(info)`.
Each is given by the value it returns or the exception it raises, and the state it leaves. -/
structure FurtherCreateOperations where
  CreateSchema : Catalog → CatalogTransaction → CreateSchemaInfo →
    Except Exception (Option CatalogEntry) × CatalogState
  CreateIndex : SchemaCatalogEntry → CatalogState → CreateIndexInfo → CatalogEntry →
    Except Exception (Option CatalogEntry) × CatalogState
  BindCreateTableInfo : CatalogState → CreateTableInfo →
    Except Exception BoundCreateTableInfo × CatalogState

/-- Embeds `Catalog::CreateSchema(context, info)`. -/
def Catalog.CreateSchema (further : FurtherCreateOperations) (catalog : Catalog)
    (context : CatalogState) (info : CreateSchemaInfo) :
    Except Exception (Option CatalogEntry) × CatalogState :=
  further.CreateSchema catalog (catalog.GetCatalogTransaction context) info

/-- Embeds `Catalog::CreateTable(context, unique_ptr<CreateTableInfo> info)`: the info is bound,
then the table is created from the bound info. -/
def Catalog.CreateTable.unbound (operations : CatalogOperations)
    (further : FurtherCreateOperations) (catalog : Catalog) (context : CatalogState)
    (info : CreateTableInfo) : Except Exception (Option CatalogEntry) × CatalogState :=
  match further.BindCreateTableInfo context info with
  | (.error e, context) => (.error e, context)
  | (.ok bound_info, context) => Catalog.CreateTable operations catalog context bound_info

/-- Embeds `Catalog::AddFunction(context, info)`. -/
def Catalog.AddFunction (operations : SchemaCreateOperations) (catalog : Catalog)
    (context : CatalogState) (info : CreateInfo) :
    Except Exception (Option CatalogEntry) × CatalogState :=
  Catalog.CreateFunction operations catalog context
    { info with on_conflict := .ALTER_ON_CONFLICT }

/-- Embeds `Catalog::CreateIndex(context, info)`: the schema and then the table are looked up in
this catalog, both with `if_exists` at its default `false`, and the index is created through the
schema. With `if_exists` false the lookup of the table raises on a miss, so the branch of an
absent table is not reached. -/
def Catalog.CreateIndex (further : FurtherCreateOperations) (catalog : Catalog)
    (context : CatalogState) (info : CreateIndexInfo) :
    Except Exception (Option CatalogEntry) × CatalogState :=
  match catalog.GetSchemaOrThrow info.schema with
  | .error e => (.error e, context)
  | .ok schema =>
    match catalog.GetEntryInCatalog context.context .TABLE_ENTRY schema.name info.table_name
        false with
    | .error e => (.error e, context)
    | .ok none => (.ok none, context)
    | .ok (some table) => further.CreateIndex schema context info table

/-- Embeds `Catalog::CreateIndex(transaction, info)`. -/
def Catalog.CreateIndex.withTransaction (further : FurtherCreateOperations) (catalog : Catalog)
    (transaction : CatalogTransaction) (info : CreateIndexInfo) :
    Except Exception (Option CatalogEntry) × CatalogState :=
  Catalog.CreateIndex further catalog transaction.context info

/-- The operations of `CatalogOperations` do not lower the catalog version. -/
def CatalogOperations.keeps_version (operations : CatalogOperations) : Prop :=
  (∀ c st info, st.catalog_version ≤ (operations.DropSchema c st info).2.catalog_version)
  ∧ (∀ s st info, st.catalog_version ≤ (operations.DropEntry s st info).2.catalog_version)
  ∧ (∀ s st info, st.catalog_version ≤ (operations.Alter s st info).2.catalog_version)
  ∧ (∀ s st info, st.catalog_version ≤ (operations.CreateTable s st info).2.catalog_version)

/-- The create operations of a schema do not lower the catalog version. -/
def SchemaCreateOperations.keeps_version (operations : SchemaCreateOperations) : Prop :=
  (∀ s tr info,
    tr.context.catalog_version ≤ (operations.CreateView s tr info).2.catalog_version)
  ∧ (∀ s tr info,
    tr.context.catalog_version ≤ (operations.CreateSequence s tr info).2.catalog_version)
  ∧ (∀ s tr info,
    tr.context.catalog_version ≤ (operations.CreateType s tr info).2.catalog_version)
  ∧ (∀ s tr info,
    tr.context.catalog_version ≤ (operations.CreateTableFunction s tr info).2.catalog_version)
  ∧ (∀ s tr info,
    tr.context.catalog_version ≤ (operations.CreateCopyFunction s tr info).2.catalog_version)
  ∧ (∀ s tr info,
    tr.context.catalog_version
      ≤ (operations.CreatePragmaFunction s tr info).2.catalog_version)
  ∧ (∀ s tr info,
    tr.context.catalog_version ≤ (operations.CreateFunction s tr info).2.catalog_version)
  ∧ (∀ s tr info,
    tr.context.catalog_version ≤ (operations.CreateCollation s tr info).2.catalog_version)

/-- The operations of `FurtherCreateOperations` do not lower the catalog version. -/
def FurtherCreateOperations.keeps_version (further : FurtherCreateOperations) : Prop :=
  (∀ c tr info, tr.context.catalog_version ≤ (further.CreateSchema c tr info).2.catalog_version)
  ∧ (∀ s st info table,
    st.catalog_version ≤ (further.CreateIndex s st info table).2.catalog_version)
  ∧ (∀ st info, st.catalog_version ≤ (further.BindCreateTableInfo st info).2.catalog_version)

/-! ## Date parts -/

/-- Modelled from the spec: `enum class DatePartSpecifier` (declared in a header that is not among
the sources), with the specifiers `TryGetDatePartSpecifier` assigns. -/
inductive DatePartSpecifier where
  | YEAR
  | MONTH
  | DAY
  | DECADE
  | CENTURY
  | MILLENNIUM
  | MICROSECONDS
  | MILLISECONDS
  | SECOND
  | MINUTE
  | HOUR
  | EPOCH
  | DOW
  | ISODOW
  | WEEK
  | DOY
  | QUARTER
  | YEARWEEK
  | ERA
  | OFFSET
  deriving DecidableEq, Repr

/-- Modelled from the spec: `Interval::MICROS_PER_MSEC` (declared in a header that is not among
the sources). -/
def Interval.MICROS_PER_MSEC : Int := 1000

/-- Modelled from the spec: `Interval::MICROS_PER_SEC`. -/
def Interval.MICROS_PER_SEC : Int := 1000000

/-- Modelled from the spec: `Interval::MICROS_PER_MINUTE`. -/
def Interval.MICROS_PER_MINUTE : Int := 60000000

/-- Modelled from the spec: `Interval::MICROS_PER_HOUR`. -/
def Interval.MICROS_PER_HOUR : Int := 3600000000

/-- Modelled from the spec: `Interval::MONTHS_PER_QUARTER`. -/
def Interval.MONTHS_PER_QUARTER : Int := 3

/-- A date, `date_t`: the number of days since 1970-01-01. -/
structure date_t where
  days : Int
  deriving DecidableEq, Repr

/-- A time of day, `dtime_t`: the number of microseconds since midnight, a 64-bit integer. -/
structure dtime_t where
  micros : Int
  deriving DecidableEq, Repr

/-- The functions of `Date` that `date_part.cpp` calls on a date. They are not among the sources
and are taken as given; `Convert` gives the year, the month and the day. -/
structure DateFunctions where
  ExtractYear : date_t → Int
  ExtractMonth : date_t → Int
  ExtractDay : date_t → Int
  ExtractISODayOfTheWeek : date_t → Int
  ExtractISOWeekNumber : date_t → Int
  ExtractDayOfTheYear : date_t → Int
  Epoch : date_t → Int
  Convert : date_t → Int × Int × Int

/-- Embeds `DatePart::YearOperator::Operation` on a date. -/
def DatePart.YearOperator.Operation (Date : DateFunctions) (input : date_t) : Int :=
  Date.ExtractYear input

/-- Embeds `DatePart::WeekOperator::Operation` on a date. -/
def DatePart.WeekOperator.Operation (Date : DateFunctions) (input : date_t) : Int :=
  Date.ExtractISOWeekNumber input

/-- Embeds `DatePart::YearWeekOperator::Operation` on a date. -/
def DatePart.YearWeekOperator.Operation (Date : DateFunctions) (input : date_t) : Int :=
  DatePart.YearOperator.Operation Date input * 100 + DatePart.WeekOperator.Operation Date input

/-- Embeds `DatePart::StructOperator::Operation` on a date: the array `part_values` after the
assignments, as a function of the specifier. Integer division and remainder truncate. -/
def DatePart.StructOperator.Operation (Date : DateFunctions)
    (part_values : DatePartSpecifier → Int) (input : date_t) : DatePartSpecifier → Int :=
  let yyyy := (Date.Convert input).1
  let mm := (Date.Convert input).2.1
  let dd := (Date.Convert input).2.2
  let isodow := Date.ExtractISODayOfTheWeek input
  let ww := Int.tmod isodow 7
  fun specifier =>
    match specifier with
    | .YEAR => yyyy
    | .MONTH => mm
    | .DAY => dd
    | .DECADE => Int.tdiv yyyy 10
    | .CENTURY => Int.tdiv (yyyy - 1) 100 + 1
    | .MILLENNIUM => Int.tdiv (yyyy - 1) 1000 + 1
    | .EPOCH => Date.Epoch input
    | .DOW => ww
    | .ISODOW => isodow
    | .WEEK => Date.ExtractISOWeekNumber input
    | .QUARTER => Int.tdiv (mm - 1) Interval.MONTHS_PER_QUARTER + 1
    | .DOY => Date.ExtractDayOfTheYear input
    | .YEARWEEK => yyyy * 100 + ww
    | .ERA => if yyyy > 0 then 1 else 0
    | .OFFSET => 0
    | other => part_values other

/-- Embeds `DatePart::MicrosecondsOperator::Operation(dtime_t)`. -/
def DatePart.MicrosecondsOperator.Operation_dtime_t (input : dtime_t) : Int :=
  Int.tmod input.micros Interval.MICROS_PER_MINUTE

/-- Embeds `DatePart::MillisecondsOperator::Operation(dtime_t)`. -/
def DatePart.MillisecondsOperator.Operation_dtime_t (input : dtime_t) : Int :=
  Int.tdiv (DatePart.MicrosecondsOperator.Operation_dtime_t input) Interval.MICROS_PER_MSEC

/-- Embeds `DatePart::SecondsOperator::Operation(dtime_t)`. -/
def DatePart.SecondsOperator.Operation_dtime_t (input : dtime_t) : Int :=
  Int.tdiv (DatePart.MicrosecondsOperator.Operation_dtime_t input) Interval.MICROS_PER_SEC

/-- Embeds `DatePart::MinutesOperator::Operation(dtime_t)`. -/
def DatePart.MinutesOperator.Operation_dtime_t (input : dtime_t) : Int :=
  Int.tdiv (Int.tmod input.micros Interval.MICROS_PER_HOUR) Interval.MICROS_PER_MINUTE

/-- Embeds `DatePart::HoursOperator::Operation(dtime_t)`. -/
def DatePart.HoursOperator.Operation_dtime_t (input : dtime_t) : Int :=
  Int.tdiv input.micros Interval.MICROS_PER_HOUR

/-- Embeds `DatePart::EpochOperator::Operation(dtime_t)`. -/
def DatePart.EpochOperator.Operation_dtime_t (input : dtime_t) : Int :=
  Int.tdiv input.micros Interval.MICROS_PER_SEC

/-- The validity part of the statistics of a column: whether it may hold NULL. -/
structure ValidityStatistics where
  has_null : Bool
  deriving DecidableEq, Repr

/-- The part of the statistics of the child that the propagation reads. -/
structure BaseStatistics where
  validity_stats : Option ValidityStatistics
  deriving DecidableEq, Repr

/-- The statistics of a `BIGINT` result: the bounds `min` and `max`, and the validity. -/
structure NumericStatistics where
  min : Int
  max : Int
  validity_stats : Option ValidityStatistics
  deriving DecidableEq, Repr

/-- Embeds `PropagateSimpleDatePartStatistics<MIN, MAX>(child_stats)`; `child_stats` is
`child_stats[0]`, which may be null. -/
def PropagateSimpleDatePartStatistics (MIN MAX : Int) (child_stats : Option BaseStatistics) :
    NumericStatistics :=
  { min := MIN
    max := MAX
    validity_stats :=
      match child_stats with
      | none => some ⟨true⟩
      | some child => child.validity_stats }

/-- Embeds `DatePart::MicrosecondsOperator::PropagateStatistics`. -/
def DatePart.MicrosecondsOperator.PropagateStatistics (child_stats : Option BaseStatistics) :
    NumericStatistics :=
  PropagateSimpleDatePartStatistics 0 60000000 child_stats

/-- Embeds `DatePart::MillisecondsOperator::PropagateStatistics`. -/
def DatePart.MillisecondsOperator.PropagateStatistics (child_stats : Option BaseStatistics) :
    NumericStatistics :=
  PropagateSimpleDatePartStatistics 0 60000 child_stats

/-- Embeds `DatePart::SecondsOperator::PropagateStatistics`. -/
def DatePart.SecondsOperator.PropagateStatistics (child_stats : Option BaseStatistics) :
    NumericStatistics :=
  PropagateSimpleDatePartStatistics 0 60 child_stats

/-- Embeds `DatePart::MinutesOperator::PropagateStatistics`. -/
def DatePart.MinutesOperator.PropagateStatistics (child_stats : Option BaseStatistics) :
    NumericStatistics :=
  PropagateSimpleDatePartStatistics 0 60 child_stats

/-- Embeds `DatePart::HoursOperator::PropagateStatistics`. -/
def DatePart.HoursOperator.PropagateStatistics (child_stats : Option BaseStatistics) :
    NumericStatistics :=
  PropagateSimpleDatePartStatistics 0 24 child_stats

/-- Embeds `DatePart::EpochOperator::PropagateStatistics<dtime_t>`. -/
def DatePart.EpochOperator.PropagateStatistics_dtime_t (child_stats : Option BaseStatistics) :
    NumericStatistics :=
  PropagateSimpleDatePartStatistics 0 86400 child_stats

/-- Modelled from the spec: `Interval::MONTHS_PER_YEAR`. -/
def Interval.MONTHS_PER_YEAR : Int := 12

/-- Modelled from the spec: `Interval::MONTHS_PER_DECADE`. -/
def Interval.MONTHS_PER_DECADE : Int := 120

/-- Modelled from the spec: `Interval::MONTHS_PER_CENTURY`. -/
def Interval.MONTHS_PER_CENTURY : Int := 1200

/-- Modelled from the spec: `Interval::MONTHS_PER_MILLENIUM`. -/
def Interval.MONTHS_PER_MILLENIUM : Int := 12000

/-- Modelled from the spec: `Interval::DAYS_PER_MONTH`. -/
def Interval.DAYS_PER_MONTH : Int := 30

/-- Modelled from the spec: `Interval::DAYS_PER_YEAR`. -/
def Interval.DAYS_PER_YEAR : Int := 365

/-- Modelled from the spec: `Interval::SECS_PER_DAY`. -/
def Interval.SECS_PER_DAY : Int := 86400

/-- An interval, `interval_t`: the 32-bit counts `months` and `days` and the 64-bit count
`micros`. -/
structure interval_t where
  months : Int
  days : Int
  micros : Int
  deriving DecidableEq, Repr

/-- Embeds `DatePart::MonthOperator::Operation` on a date. -/
def DatePart.MonthOperator.Operation (Date : DateFunctions) (input : date_t) : Int :=
  Date.ExtractMonth input

/-- Embeds `DatePart::DecadeOperator::Operation` on a date; the division truncates. -/
def DatePart.DecadeOperator.Operation (Date : DateFunctions) (input : date_t) : Int :=
  Int.tdiv (DatePart.YearOperator.Operation Date input) 10

/-- Embeds `DatePart::CenturyOperator::Operation` on a date. -/
def DatePart.CenturyOperator.Operation (Date : DateFunctions) (input : date_t) : Int :=
  Int.tdiv (DatePart.YearOperator.Operation Date input - 1) 100 + 1

/-- Embeds `DatePart::MilleniumOperator::Operation` on a date. -/
def DatePart.MilleniumOperator.Operation (Date : DateFunctions) (input : date_t) : Int :=
  Int.tdiv (DatePart.YearOperator.Operation Date input - 1) 1000 + 1

/-- Embeds `DatePart::QuarterOperator::Operation` on a date. -/
def DatePart.QuarterOperator.Operation (Date : DateFunctions) (input : date_t) : Int :=
  Int.tdiv (Date.ExtractMonth input - 1) Interval.MONTHS_PER_QUARTER + 1

/-- Embeds `DatePart::QuarterOperator::PropagateStatistics`. -/
def DatePart.QuarterOperator.PropagateStatistics (child_stats : Option BaseStatistics) :
    NumericStatistics :=
  PropagateSimpleDatePartStatistics 1 4 child_stats

/-- Embeds `DatePart::YearOperator::Operation(interval_t)`. -/
def DatePart.YearOperator.Operation_interval_t (input : interval_t) : Int :=
  Int.tdiv input.months Interval.MONTHS_PER_YEAR

/-- Embeds `DatePart::MonthOperator::Operation(interval_t)`; the remainder has the sign of
`months`. -/
def DatePart.MonthOperator.Operation_interval_t (input : interval_t) : Int :=
  Int.tmod input.months Interval.MONTHS_PER_YEAR

/-- Embeds `DatePart::DayOperator::Operation(interval_t)`. -/
def DatePart.DayOperator.Operation_interval_t (input : interval_t) : Int :=
  input.days

/-- Embeds `DatePart::DecadeOperator::Operation(interval_t)`. -/
def DatePart.DecadeOperator.Operation_interval_t (input : interval_t) : Int :=
  Int.tdiv input.months Interval.MONTHS_PER_DECADE

/-- Embeds `DatePart::CenturyOperator::Operation(interval_t)`. -/
def DatePart.CenturyOperator.Operation_interval_t (input : interval_t) : Int :=
  Int.tdiv input.months Interval.MONTHS_PER_CENTURY

/-- Embeds `DatePart::MilleniumOperator::Operation(interval_t)`. -/
def DatePart.MilleniumOperator.Operation_interval_t (input : interval_t) : Int :=
  Int.tdiv input.months Interval.MONTHS_PER_MILLENIUM

/-- Embeds `DatePart::QuarterOperator::Operation(interval_t)`. -/
def DatePart.QuarterOperator.Operation_interval_t (input : interval_t) : Int :=
  Int.tdiv (DatePart.MonthOperator.Operation_interval_t input) Interval.MONTHS_PER_QUARTER + 1

/-- Embeds `DatePart::MicrosecondsOperator::Operation(interval_t)`. -/
def DatePart.MicrosecondsOperator.Operation_interval_t (input : interval_t) : Int :=
  Int.tmod input.micros Interval.MICROS_PER_MINUTE

/-- Embeds `DatePart::MillisecondsOperator::Operation(interval_t)`. -/
def DatePart.MillisecondsOperator.Operation_interval_t (input : interval_t) : Int :=
  Int.tdiv (DatePart.MicrosecondsOperator.Operation_interval_t input) Interval.MICROS_PER_MSEC

/-- Embeds `DatePart::SecondsOperator::Operation(interval_t)`. -/
def DatePart.SecondsOperator.Operation_interval_t (input : interval_t) : Int :=
  Int.tdiv (DatePart.MicrosecondsOperator.Operation_interval_t input) Interval.MICROS_PER_SEC

/-- Embeds `DatePart::MinutesOperator::Operation(interval_t)`. -/
def DatePart.MinutesOperator.Operation_interval_t (input : interval_t) : Int :=
  Int.tdiv (Int.tmod input.micros Interval.MICROS_PER_HOUR) Interval.MICROS_PER_MINUTE

/-- Embeds `DatePart::HoursOperator::Operation(interval_t)`. -/
def DatePart.HoursOperator.Operation_interval_t (input : interval_t) : Int :=
  Int.tdiv input.micros Interval.MICROS_PER_HOUR

/-- Embeds `DatePart::EpochOperator::Operation(interval_t)`, all in 64-bit arithmetic. -/
def DatePart.EpochOperator.Operation_interval_t (input : interval_t) : Int :=
  let interval_years := Int.tdiv input.months Interval.MONTHS_PER_YEAR
  let interval_days := Interval.DAYS_PER_YEAR * interval_years
  let interval_days :=
    interval_days + Interval.DAYS_PER_MONTH * Int.tmod input.months Interval.MONTHS_PER_YEAR
  let interval_days := interval_days + input.days
  let interval_epoch := interval_days * Interval.SECS_PER_DAY
  let interval_epoch := interval_epoch + interval_years * Int.tdiv Interval.SECS_PER_DAY 4
  let interval_epoch := interval_epoch + Int.tdiv input.micros Interval.MICROS_PER_SEC
  interval_epoch

/-- Embeds `DatePart::StructOperator::Operation(part_values, interval_t)`: the array after the
assignments, as a function of the specifier. -/
def DatePart.StructOperator.Operation_interval_t (part_values : DatePartSpecifier → Int)
    (input : interval_t) : DatePartSpecifier → Int :=
  let mm := Int.tmod input.months Interval.MONTHS_PER_YEAR
  let micros := DatePart.MicrosecondsOperator.Operation_interval_t input
  fun specifier =>
    match specifier with
    | .YEAR => Int.tdiv input.months Interval.MONTHS_PER_YEAR
    | .MONTH => mm
    | .DAY => input.days
    | .DECADE => Int.tdiv input.months Interval.MONTHS_PER_DECADE
    | .CENTURY => Int.tdiv input.months Interval.MONTHS_PER_CENTURY
    | .MILLENNIUM => Int.tdiv input.months Interval.MONTHS_PER_MILLENIUM
    | .QUARTER => Int.tdiv mm Interval.MONTHS_PER_QUARTER + 1
    | .MICROSECONDS => micros
    | .MILLISECONDS => Int.tdiv micros Interval.MICROS_PER_MSEC
    | .SECOND => Int.tdiv micros Interval.MICROS_PER_SEC
    | .MINUTE => DatePart.MinutesOperator.Operation_interval_t input
    | .HOUR => DatePart.HoursOperator.Operation_interval_t input
    | .EPOCH => DatePart.EpochOperator.Operation_interval_t input
    | other => part_values other

/-- Embeds `DatePart::StructOperator::Operation(part_values, dtime_t)`. -/
def DatePart.StructOperator.Operation_dtime_t (part_values : DatePartSpecifier → Int)
    (input : dtime_t) : DatePartSpecifier → Int :=
  let micros := DatePart.MicrosecondsOperator.Operation_dtime_t input
  fun specifier =>
    match specifier with
    | .MICROSECONDS => micros
    | .MILLISECONDS => Int.tdiv micros Interval.MICROS_PER_MSEC
    | .SECOND => Int.tdiv micros Interval.MICROS_PER_SEC
    | .MINUTE => DatePart.MinutesOperator.Operation_dtime_t input
    | .HOUR => DatePart.HoursOperator.Operation_dtime_t input
    | other => part_values other

/-- Embeds `ExtractElement<interval_t>(type, element)`: the operator of the specifier at its
`interval_t` specialisation; the specialisations for `dow`, `isodow`, `doy`, `week`, `era` and
`offset` raise, and `yearweek`, which has none, raises from the week operator it calls. -/
def ExtractElement_interval_t (type : DatePartSpecifier) (element : interval_t) :
    Except Exception Int :=
  match type with
  | .YEAR => .ok (DatePart.YearOperator.Operation_interval_t element)
  | .MONTH => .ok (DatePart.MonthOperator.Operation_interval_t element)
  | .DAY => .ok (DatePart.DayOperator.Operation_interval_t element)
  | .DECADE => .ok (DatePart.DecadeOperator.Operation_interval_t element)
  | .CENTURY => .ok (DatePart.CenturyOperator.Operation_interval_t element)
  | .MILLENNIUM => .ok (DatePart.MilleniumOperator.Operation_interval_t element)
  | .QUARTER => .ok (DatePart.QuarterOperator.Operation_interval_t element)
  | .DOW => .error (.NotImplementedException "interval units \"dow\" not recognized")
  | .ISODOW => .error (.NotImplementedException "interval units \"isodow\" not recognized")
  | .DOY => .error (.NotImplementedException "interval units \"doy\" not recognized")
  | .WEEK => .error (.NotImplementedException "interval units \"week\" not recognized")
  | .YEARWEEK => .error (.NotImplementedException "interval units \"week\" not recognized")
  | .EPOCH => .ok (DatePart.EpochOperator.Operation_interval_t element)
  | .MICROSECONDS => .ok (DatePart.MicrosecondsOperator.Operation_interval_t element)
  | .MILLISECONDS => .ok (DatePart.MillisecondsOperator.Operation_interval_t element)
  | .SECOND => .ok (DatePart.SecondsOperator.Operation_interval_t element)
  | .MINUTE => .ok (DatePart.MinutesOperator.Operation_interval_t element)
  | .HOUR => .ok (DatePart.HoursOperator.Operation_interval_t element)
  | .ERA => .error (.NotImplementedException "interval units \"era\" not recognized")
  | .OFFSET => .error (.NotImplementedException "\"interval\" units \"offset\" not recognized")

/-- Embeds `ExtractElement<dtime_t>(type, element)`: only the time parts and `epoch` have a
`dtime_t` specialisation that returns, the others raise. -/
def ExtractElement_dtime_t (type : DatePartSpecifier) (element : dtime_t) :
    Except Exception Int :=
  match type with
  | .YEAR => .error (.NotImplementedException "\"time\" units \"year\" not recognized")
  | .MONTH => .error (.NotImplementedException "\"time\" units \"month\" not recognized")
  | .DAY => .error (.NotImplementedException "\"time\" units \"day\" not recognized")
  | .DECADE => .error (.NotImplementedException "\"time\" units \"decade\" not recognized")
  | .CENTURY => .error (.NotImplementedException "\"time\" units \"century\" not recognized")
  | .MILLENNIUM =>
    .error (.NotImplementedException "\"time\" units \"millennium\" not recognized")
  | .QUARTER => .error (.NotImplementedException "\"time\" units \"quarter\" not recognized")
  | .DOW => .error (.NotImplementedException "\"time\" units \"dow\" not recognized")
  | .ISODOW => .error (.NotImplementedException "\"time\" units \"isodow\" not recognized")
  | .DOY => .error (.NotImplementedException "\"time\" units \"doy\" not recognized")
  | .WEEK => .error (.NotImplementedException "\"time\" units \"week\" not recognized")
  | .YEARWEEK => .error (.NotImplementedException "\"time\" units \"yearweek\" not recognized")
  | .EPOCH => .ok (DatePart.EpochOperator.Operation_dtime_t element)
  | .MICROSECONDS => .ok (DatePart.MicrosecondsOperator.Operation_dtime_t element)
  | .MILLISECONDS => .ok (DatePart.MillisecondsOperator.Operation_dtime_t element)
  | .SECOND => .ok (DatePart.SecondsOperator.Operation_dtime_t element)
  | .MINUTE => .ok (DatePart.MinutesOperator.Operation_dtime_t element)
  | .HOUR => .ok (DatePart.HoursOperator.Operation_dtime_t element)
  | .ERA => .error (.NotImplementedException "\"time\" units \"era\" not recognized")
  | .OFFSET => .error (.NotImplementedException "\"time\" units \"offset\" not recognized")

/-- The statistics of a child column of type `T` as `PropagateDatePartStatistics` reads them:
the `min` and the `max`, `none` when the value `is_null`, and the validity. -/
structure ChildNumericStatistics (T : Type) where
  min : Option T
  max : Option T
  validity_stats : Option ValidityStatistics

/-- Embeds `PropagateDatePartStatistics<date_t, OP>(child_stats)`; `child_stats` is
`child_stats[0]`, which may be null, and `OP` is `OP::Operation<date_t, int64_t>`. -/
def PropagateDatePartStatistics (OP : date_t → Int)
    (child_stats : Option (ChildNumericStatistics date_t)) : Option NumericStatistics :=
  match child_stats with
  | none => none
  | some nstats =>
    match nstats.min, nstats.max with
    | some min, some max =>
      if min.days > max.days then none
      else
        some { min := OP min, max := OP max, validity_stats := nstats.validity_stats }
    | _, _ => none

/-- Embeds `DatePart::DecadeOperator::PropagateStatistics<date_t>`. -/
def DatePart.DecadeOperator.PropagateStatistics (Date : DateFunctions)
    (child_stats : Option (ChildNumericStatistics date_t)) : Option NumericStatistics :=
  PropagateDatePartStatistics (DatePart.DecadeOperator.Operation Date) child_stats

/-- Embeds `DatePart::CenturyOperator::PropagateStatistics<date_t>`. -/
def DatePart.CenturyOperator.PropagateStatistics (Date : DateFunctions)
    (child_stats : Option (ChildNumericStatistics date_t)) : Option NumericStatistics :=
  PropagateDatePartStatistics (DatePart.CenturyOperator.Operation Date) child_stats

/-- Embeds `DatePart::MilleniumOperator::PropagateStatistics<date_t>`. -/
def DatePart.MilleniumOperator.PropagateStatistics (Date : DateFunctions)
    (child_stats : Option (ChildNumericStatistics date_t)) : Option NumericStatistics :=
  PropagateDatePartStatistics (DatePart.MilleniumOperator.Operation Date) child_stats

/-- Embeds `TryGetDatePartSpecifier(specifier_p, result)`: `some` specifier when the function
returns true and stores it in `result`, `none` when it returns false. -/
def TryGetDatePartSpecifier (specifier_p : String) : Option DatePartSpecifier :=
  let specifier := StringUtil.Lower specifier_p
  if specifier = "year" ∨ specifier = "y" ∨ specifier = "years" then
    some .YEAR
  else if specifier = "month" ∨ specifier = "mon" ∨ specifier = "months"
      ∨ specifier = "mons" then
    some .MONTH
  else if specifier = "day" ∨ specifier = "days" ∨ specifier = "d"
      ∨ specifier = "dayofmonth" then
    some .DAY
  else if specifier = "decade" ∨ specifier = "decades" then
    some .DECADE
  else if specifier = "century" ∨ specifier = "centuries" then
    some .CENTURY
  else if specifier = "millennium" ∨ specifier = "millennia" then
    some .MILLENNIUM
  else if specifier = "microseconds" ∨ specifier = "microsecond" then
    some .MICROSECONDS
  else if specifier = "milliseconds" ∨ specifier = "millisecond" ∨ specifier = "ms"
      ∨ specifier = "msec" ∨ specifier = "msecs" then
    some .MILLISECONDS
  else if specifier = "second" ∨ specifier = "seconds" ∨ specifier = "s" then
    some .SECOND
  else if specifier = "minute" ∨ specifier = "minutes" ∨ specifier = "m" then
    some .MINUTE
  else if specifier = "hour" ∨ specifier = "hours" ∨ specifier = "h" then
    some .HOUR
  else if specifier = "epoch" then
    some .EPOCH
  else if specifier = "dow" ∨ specifier = "dayofweek" ∨ specifier = "weekday" then
    some .DOW
  else if specifier = "isodow" then
    some .ISODOW
  else if specifier = "week" ∨ specifier = "weeks" ∨ specifier = "w"
      ∨ specifier = "weekofyear" then
    some .WEEK
  else if specifier = "doy" ∨ specifier = "dayofyear" then
    some .DOY
  else if specifier = "quarter" ∨ specifier = "quarters" then
    some .QUARTER
  else if specifier = "yearweek" then
    some .YEARWEEK
  else if specifier = "era" then
    some .ERA
  else if specifier = "offset" then
    some .OFFSET
  else
    none

/-- Embeds `GetDatePartSpecifier(specifier)`. -/
def GetDatePartSpecifier (specifier : String) : Except Exception DatePartSpecifier :=
  match TryGetDatePartSpecifier specifier with
  | none =>
    .error (.ConversionException ("extract specifier \"" ++ specifier ++ "\" not recognized"))
  | some result => .ok result

/-- The names and aliases of the date parts, as the claim lists them: each specifier with the
lowercase names that stand for it. -/
def date_part_names : List (DatePartSpecifier × List String) :=
  [(.YEAR, ["year", "y", "years"]),
   (.MONTH, ["month", "mon", "months", "mons"]),
   (.DAY, ["day", "days", "d", "dayofmonth"]),
   (.DECADE, ["decade", "decades"]),
   (.CENTURY, ["century", "centuries"]),
   (.MILLENNIUM, ["millennium", "millennia"]),
   (.MICROSECONDS, ["microseconds", "microsecond"]),
   (.MILLISECONDS, ["milliseconds", "millisecond", "ms", "msec", "msecs"]),
   (.SECOND, ["second", "seconds", "s"]),
   (.MINUTE, ["minute", "minutes", "m"]),
   (.HOUR, ["hour", "hours", "h"]),
   (.EPOCH, ["epoch"]),
   (.DOW, ["dow", "dayofweek", "weekday"]),
   (.ISODOW, ["isodow"]),
   (.WEEK, ["week", "weeks", "w", "weekofyear"]),
   (.DOY, ["doy", "dayofyear"]),
   (.QUARTER, ["quarter", "quarters"]),
   (.YEARWEEK, ["yearweek"]),
   (.ERA, ["era"]),
   (.OFFSET, ["offset"])]

/-- The specifier that the list of names gives for a name: that of the group that holds the
name, if there is one. -/
def date_part_of_name (name : String) : Option DatePartSpecifier :=
  (date_part_names.find? (fun group => decide (name ∈ group.2))).map (fun group => group.1)

/-! ## Expressions, and the binding of the struct variant of `date_part` -/

/-- Modelled from the spec: `LogicalType::BIGINT`. -/
def LogicalType.BIGINT : LogicalType := ⟨"BIGINT", none⟩

/-- Modelled from the spec: `LogicalTypeId`, the kinds of type that the binding tells apart. -/
inductive LogicalTypeId where
  | SQLNULL
  | VARCHAR
  | BIGINT
  | LIST
  deriving DecidableEq, Repr

/-- Modelled from the spec: a constant `Value` (declared in a header that is not among the
sources), as far as the binding reads it: the id of its type, whether it `is_null`, the text that
`ToString` gives, and the `list_value` of a list. -/
inductive Value where
  | mk (type_id : LogicalTypeId) (is_null : Bool) (str_value : String)
      (list_value : List Value)

/-- The id of the type of a value, `type().id()`. -/
def Value.type_id : Value → LogicalTypeId
  | .mk type_id _ _ _ => type_id

/-- The flag `is_null` of a value. -/
def Value.is_null : Value → Bool
  | .mk _ is_null _ _ => is_null

/-- The text of a value, `ToString()`. -/
def Value.ToString : Value → String
  | .mk _ _ str_value _ => str_value

/-- The elements of a list value, `list_value`. -/
def Value.list_value : Value → List Value
  | .mk _ _ _ list_value => list_value

/-- A column binding, `ColumnBinding`: the index of the table and of the column in it. -/
structure ColumnBinding where
  table_index : Nat
  column_index : Nat
  deriving DecidableEq, Repr

/-- The fields of a `BoundColumnRefExpression` that the replacer reads and writes. -/
structure BoundColumnRefExpression where
  binding : ColumnBinding
  return_type : LogicalType
  deriving DecidableEq, Repr

/-- Modelled from the spec: `ExpressionClass`, the classes of bound expressions. -/
inductive ExpressionClass where
  | BOUND_AGGREGATE
  | BOUND_CASE
  | BOUND_CAST
  | BOUND_COLUMN_REF
  | BOUND_COMPARISON
  | BOUND_CONJUNCTION
  | BOUND_CONSTANT
  | BOUND_FUNCTION
  | BOUND_OPERATOR
  deriving DecidableEq, Repr

/-- Modelled from the spec: a bound `Expression` (declared in headers that are not among the
sources): a column reference, a constant with its value, or an expression of another class with
its return type and its child expressions. -/
inductive Expression where
  | BOUND_COLUMN_REF (bound_column_ref : BoundColumnRefExpression)
  | BOUND_CONSTANT (value : Value)
  | other (expression_class : ExpressionClass) (return_type : LogicalType)
      (children : List Expression)

/-- The field `expression_class` of an expression. -/
def Expression.expression_class : Expression → ExpressionClass
  | .BOUND_COLUMN_REF _ => .BOUND_COLUMN_REF
  | .BOUND_CONSTANT _ => .BOUND_CONSTANT
  | .other expression_class _ _ => expression_class

/-- Modelled from the spec: the return type of a function: a type without children, or the struct
type `LogicalType::STRUCT(child_types)` with the names and types of its children. -/
inductive ReturnType where
  | of (type : LogicalType)
  | STRUCT (child_types : List (String × LogicalType))
  deriving DecidableEq, Repr

/-- The fields of a `ScalarFunction` that the binding reads and writes. -/
structure ScalarFunction where
  name : String
  arguments : List LogicalType
  return_type : ReturnType
  deriving DecidableEq, Repr

/-- Embeds `StructDatePart::BindData`: the struct type `stype` and the `part_codes`. -/
structure StructDatePart.BindData where
  stype : ReturnType
  part_codes : List DatePartSpecifier
  deriving DecidableEq, Repr

/-- Modelled from the spec: `case_insensitive_set_t::find(name) != end()` on a set given by the
list of the names inserted: whether a name of the set equals `name` ignoring case. -/
def case_insensitive_set_t.contains (set : List String) (name : String) : Bool :=
  set.any (fun member => decide (StringUtil.Lower member = StringUtil.Lower name))

/-- The loop of `StructDatePart::Bind` over `parts_list.list_value`, with the collision set, the
part codes and the struct children collected so far. -/
def StructDatePart.Bind.loop (function_name : String) :
    List Value → List String → List DatePartSpecifier → List (String × LogicalType) →
    Except Exception (List DatePartSpecifier × List (String × LogicalType))
  | [], _, part_codes, struct_children => .ok (part_codes, struct_children)
  | part_value :: rest, name_collision_set, part_codes, struct_children =>
    if part_value.is_null then
      .error (.BinderException ("NULL struct entry name in " ++ function_name))
    else
      let part_name := part_value.ToString
      match GetDatePartSpecifier part_name with
      | .error e => .error e
      | .ok part_code =>
        if case_insensitive_set_t.contains name_collision_set part_name then
          .error (.BinderException
            ("Duplicate struct entry name \"" ++ part_name ++ "\" in " ++ function_name))
        else
          StructDatePart.Bind.loop function_name rest (part_name :: name_collision_set)
            (part_codes ++ [part_code]) (struct_children ++ [(part_name, LogicalType.BIGINT)])

/-- Embeds `StructDatePart::Bind(context, bound_function, arguments)`, where `arguments` is
`argument :: rest` (the function is registered with two arguments). The result is the outcome
with the `bound_function` and the `arguments` after the call. `IsFoldable` and `EvaluateScalar`
are not among the sources and are taken as given. -/
def StructDatePart.Bind (IsFoldable : Expression → Bool) (EvaluateScalar : Expression → Value)
    (bound_function : ScalarFunction) (argument : Expression) (rest : List Expression) :
    Except Exception StructDatePart.BindData × ScalarFunction × List Expression :=
  if IsFoldable argument = false then
    (.error (.BinderException
      (bound_function.name ++ " can only take constant lists of part names")),
      bound_function, argument :: rest)
  else
    let parts_list := EvaluateScalar argument
    if parts_list.type_id = .LIST then
      if parts_list.list_value.isEmpty then
        (.error (.BinderException
          (bound_function.name ++ " requires non-empty lists of part names")),
          bound_function, argument :: rest)
      else
        match StructDatePart.Bind.loop bound_function.name parts_list.list_value [] [] [] with
        | .error e => (.error e, bound_function, argument :: rest)
        | .ok (part_codes, struct_children) =>
          let bound_function : ScalarFunction :=
            { bound_function with
              arguments := bound_function.arguments.tail
              return_type := .STRUCT struct_children }
          (.ok ⟨bound_function.return_type, part_codes⟩, bound_function, rest)
    else
      (.error (.BinderException
        (bound_function.name ++ " can only take constant lists of part names")),
        bound_function, argument :: rest)

/-- The condition of the claim on a list of part names: the list is not empty, holds no NULL,
every name is a recognised specifier, and no two names are equal ignoring case. -/
def acceptable_part_names (parts : List Value) : Prop :=
  parts ≠ []
  ∧ (∀ part ∈ parts, part.is_null = false)
  ∧ (∀ part ∈ parts, (TryGetDatePartSpecifier part.ToString).isSome = true)
  ∧ (parts.map (fun part => StringUtil.Lower part.ToString)).Nodup

/-! ## Column binding replacer -/

/-- A rule of the replacer, `ReplaceBinding`. -/
structure ReplaceBinding where
  old_binding : ColumnBinding
  new_binding : ColumnBinding
  replace_type : Bool
  new_type : LogicalType
  deriving DecidableEq, Repr

/-- Embeds the constructor `ReplaceBinding(old_binding, new_binding)`, which leaves the type. -/
def ReplaceBinding.ofBindings (old_binding new_binding : ColumnBinding) : ReplaceBinding :=
  { old_binding := old_binding, new_binding := new_binding, replace_type := false,
    new_type := LogicalType.INVALID }

/-- Embeds the constructor `ReplaceBinding(old_binding, new_binding, new_type)`. -/
def ReplaceBinding.ofBindingsAndType (old_binding new_binding : ColumnBinding)
    (new_type : LogicalType) : ReplaceBinding :=
  { old_binding := old_binding, new_binding := new_binding, replace_type := true,
    new_type := new_type }

/-- Modelled from the spec: a `LogicalOperator` (declared in headers that are not among the
sources), as far as the replacer visits it: its address, by which `stop_operator` is compared,
the expressions that `VisitOperatorExpressions` enumerates, and its children. -/
inductive LogicalOperator where
  | mk (address : Nat) (expressions : List Expression) (children : List LogicalOperator)

/-- The address of an operator. -/
def LogicalOperator.address : LogicalOperator → Nat
  | .mk address _ _ => address

/-- The state of a `ColumnBindingReplacer`: the rules, the operator at which to stop (absent, or
given by its address) and the callback, which is handed the column reference and the rule and
may change the reference. -/
structure ColumnBindingReplacer where
  replace_bindings : List ReplaceBinding
  stop_operator : Option Nat
  column_binding_callback :
    Option (BoundColumnRefExpression → ReplaceBinding → BoundColumnRefExpression)

/-- The loop of `ColumnBindingReplacer::VisitExpression` over `replace_bindings`, on a bound
column reference. -/
def ColumnBindingReplacer.VisitExpression.loop
    (column_binding_callback :
      Option (BoundColumnRefExpression → ReplaceBinding → BoundColumnRefExpression)) :
    List ReplaceBinding → BoundColumnRefExpression → BoundColumnRefExpression
  | [], bound_column_ref => bound_column_ref
  | replace_binding :: rest, bound_column_ref =>
    let bound_column_ref :=
      if bound_column_ref.binding = replace_binding.old_binding then
        { binding := replace_binding.new_binding
          return_type :=
            if replace_binding.replace_type then replace_binding.new_type
            else bound_column_ref.return_type }
      else bound_column_ref
    let bound_column_ref :=
      match column_binding_callback with
      | some callback => callback bound_column_ref replace_binding
      | none => bound_column_ref
    ColumnBindingReplacer.VisitExpression.loop column_binding_callback rest bound_column_ref

mutual
/-- Embeds `ColumnBindingReplacer::VisitExpression(expression)`: a bound column reference goes
through the loop over the rules; then `VisitExpressionChildren`, which is not among the sources,
visits the children of the expression, of which column references and constants have none. -/
def ColumnBindingReplacer.VisitExpression (replacer : ColumnBindingReplacer) :
    Expression → Expression
  | .BOUND_COLUMN_REF bound_column_ref =>
    .BOUND_COLUMN_REF (ColumnBindingReplacer.VisitExpression.loop
      replacer.column_binding_callback replacer.replace_bindings bound_column_ref)
  | .BOUND_CONSTANT value => .BOUND_CONSTANT value
  | .other expression_class return_type children =>
    .other expression_class return_type
      (ColumnBindingReplacer.VisitExpressions replacer children)
/-- The visit of each expression of a list, in order. -/
def ColumnBindingReplacer.VisitExpressions (replacer : ColumnBindingReplacer) :
    List Expression → List Expression
  | [] => []
  | expression :: rest =>
    ColumnBindingReplacer.VisitExpression replacer expression
      :: ColumnBindingReplacer.VisitExpressions replacer rest
end

mutual
/-- Embeds `ColumnBindingReplacer::VisitOperator(op)`: nothing at the operator `stop_operator`;
otherwise `VisitOperatorChildren` visits the children and `VisitOperatorExpressions` the
expressions (both are not among the sources). -/
def ColumnBindingReplacer.VisitOperator (replacer : ColumnBindingReplacer) :
    LogicalOperator → LogicalOperator
  | .mk address expressions children =>
    if replacer.stop_operator = some address then
      .mk address expressions children
    else
      .mk address (ColumnBindingReplacer.VisitExpressions replacer expressions)
        (ColumnBindingReplacer.VisitOperators replacer children)
/-- The visit of each operator of a list, in order. -/
def ColumnBindingReplacer.VisitOperators (replacer : ColumnBindingReplacer) :
    List LogicalOperator → List LogicalOperator
  | [] => []
  | op :: rest =>
    ColumnBindingReplacer.VisitOperator replacer op
      :: ColumnBindingReplacer.VisitOperators replacer rest
end

/-- One rule applied to a column reference, as the claim words it: when the current binding is
the old binding of the rule, the binding becomes its new binding, and the return type its new
type if the rule replaces the type. -/
def replace_rule (bound_column_ref : BoundColumnRefExpression) (rule : ReplaceBinding) :
    BoundColumnRefExpression :=
  if bound_column_ref.binding = rule.old_binding then
    ⟨rule.new_binding,
      if rule.replace_type then rule.new_type else bound_column_ref.return_type⟩
  else bound_column_ref

/-- The rules that fire, in order, when the rules are run from the binding `binding`. -/
def fired_rules : List ReplaceBinding → ColumnBinding → List ReplaceBinding
  | [], _ => []
  | rule :: rest, binding =>
    if binding = rule.old_binding then rule :: fired_rules rest rule.new_binding
    else fired_rules rest binding

/-- The replacer leaves the reference to its own rewriting: no callback is set, or the callback
hands every reference back as it got it. -/
def ColumnBindingReplacer.callback_observes (replacer : ColumnBindingReplacer) : Prop :=
  ∀ callback, replacer.column_binding_callback = some callback →
    ∀ bound_column_ref replace_binding,
      callback bound_column_ref replace_binding = bound_column_ref

/-! ## Example sessions -/

/-- The schema `db1.main`, holding the table `t` and the sequence `seq`. -/
def example_db1_main : SchemaCatalogEntry :=
  ⟨"db1", "main", [⟨.TABLE_ENTRY, "t", 1⟩, ⟨.SEQUENCE_ENTRY, "seq", 2⟩]⟩

/-- The schema `db1.s1`, holding another table `t`. -/
def example_db1_s1 : SchemaCatalogEntry :=
  ⟨"db1", "s1", [⟨.TABLE_ENTRY, "t", 3⟩]⟩

/-- The schema `db2.main`, holding the table `orders`. -/
def example_db2_main : SchemaCatalogEntry :=
  ⟨"db2", "main", [⟨.TABLE_ENTRY, "orders", 4⟩]⟩

/-- The catalog of the attached database `db1`. -/
def example_db1 : Catalog := ⟨"db1", [example_db1_main, example_db1_s1]⟩

/-- The catalog of the attached database `db2`. -/
def example_db2 : Catalog := ⟨"db2", [example_db2_main]⟩

/-- A session with `db1` and `db2` attached, default database `db1`, and the search path
`db1.main, db2.main, db1.s1`. -/
def example_context : ClientContext where
  catalog_search_path := CatalogSearchPath.ofPaths
    [⟨"db1", "main"⟩, ⟨"db2", "main"⟩, ⟨"db1", "s1"⟩]
  default_database := "db1"
  databases := [example_db1, example_db2]
  temporary_objects := ⟨"temp", [⟨"temp", "main", []⟩]⟩
  system := ⟨"system", [⟨"system", "main", []⟩]⟩

/-- The same session after `db2` was detached: the search path still names `db2.main`. -/
def example_context_detached : ClientContext where
  catalog_search_path := CatalogSearchPath.ofPaths
    [⟨"db1", "main"⟩, ⟨"db2", "main"⟩, ⟨"db1", "s1"⟩]
  default_database := "db1"
  databases := [example_db1]
  temporary_objects := ⟨"temp", [⟨"temp", "main", []⟩]⟩
  system := ⟨"system", [⟨"system", "main", []⟩]⟩

/-- A small extension table, sorted ascending by name. -/
def example_extension_entries : List ExtensionEntry :=
  [⟨"a_fn", "exta"⟩, ⟨"h3_latlng", "h3"⟩, ⟨"st_area", "spatial"⟩, ⟨"zz", "z"⟩]

/-- A session for the first suggestion scenario of the spec: the one catalog `db1` holds only the
table `customers` in its schema `main`, which is the search path. -/
def scenario_customers : ClientContext where
  catalog_search_path := CatalogSearchPath.ofPaths [⟨"db1", "main"⟩]
  default_database := "db1"
  databases := [⟨"db1", [⟨"db1", "main", [⟨.TABLE_ENTRY, "customers", 10⟩]⟩]⟩]
  temporary_objects := ⟨"temp", [⟨"temp", "main", []⟩]⟩
  system := ⟨"system", [⟨"system", "main", []⟩]⟩

/-- A session for the second suggestion scenario of the spec: `db1` and `db2` both hold
`main.orders`; the default database is `db1` and the search path is `db1.main`. -/
def scenario_orders : ClientContext where
  catalog_search_path := CatalogSearchPath.ofPaths [⟨"db1", "main"⟩]
  default_database := "db1"
  databases := [⟨"db1", [⟨"db1", "main", [⟨.TABLE_ENTRY, "orders", 11⟩]⟩]⟩,
    ⟨"db2", [⟨"db2", "main", [⟨.TABLE_ENTRY, "orders", 12⟩]⟩]⟩]
  temporary_objects := ⟨"temp", [⟨"temp", "main", []⟩]⟩
  system := ⟨"system", [⟨"system", "main", []⟩]⟩

/-- The schema `db2.s2` of the third suggestion scenario, holding the table `widgets`. -/
def scenario_db2_s2 : SchemaCatalogEntry :=
  ⟨"db2", "s2", [⟨.TABLE_ENTRY, "widgets", 13⟩]⟩

/-- A session for the third suggestion scenario of the spec: the default database is `db1`, the
search path is `db1.main`, which is empty, and `db2` holds `s2.widgets`. -/
def scenario_widgets : ClientContext where
  catalog_search_path := CatalogSearchPath.ofPaths [⟨"db1", "main"⟩]
  default_database := "db1"
  databases := [⟨"db1", [⟨"db1", "main", []⟩]⟩, ⟨"db2", [scenario_db2_s2]⟩]
  temporary_objects := ⟨"temp", [⟨"temp", "main", []⟩]⟩
  system := ⟨"system", [⟨"system", "main", []⟩]⟩

/-- An instance of the operations that lie outside the sources: dropping a schema or an entry
removes it from the attached database that owns it, altering changes nothing, and creating a table
appends it to its schema. None of them touches the version counter. -/
def example_operations : CatalogOperations where
  DropSchema := fun catalog state info =>
    (none, { state with context := { state.context with
      databases := state.context.databases.map (fun c =>
        if c.name = catalog.name then
          { c with schemas := c.schemas.filter (fun s => decide (s.name ≠ info.name)) }
        else c) } })
  DropEntry := fun schema state info =>
    (none, { state with context := { state.context with
      databases := state.context.databases.map (fun c =>
        if c.name = schema.catalog then
          { c with schemas := c.schemas.map (fun s =>
              if s.name = schema.name then
                { s with
                  entries := s.entries.filter (fun e =>
                    decide (¬ (e.type = info.type ∧ e.name = info.name))) }
              else s) }
        else c) } })
  Alter := fun _ state _ => (none, state)
  CreateTable := fun schema state info =>
    (.ok (some ⟨.TABLE_ENTRY, info.base.table, 100⟩), { state with context := { state.context with
      databases := state.context.databases.map (fun c =>
        if c.name = schema.catalog then
          { c with schemas := c.schemas.map (fun s =>
              if s.name = schema.name then
                { s with entries := s.entries ++ [⟨.TABLE_ENTRY, info.base.table, 100⟩] }
              else s) }
        else c) } })

/-- The example session at catalog version 7. -/
def example_state : CatalogState := ⟨example_context, 7⟩

/-- The catalog version left by altering the table `nowhere` of `db1.main`, which does not
exist, in the example session at version 7. -/
def catalog_version_after_alter_example : Nat :=
  Catalog.GetCatalogVersion (Catalog.Alter example_operations example_db1 example_state
    ⟨.TABLE_ENTRY, "main", "nowhere", false⟩).2

/-- A catalog `types` whose schema `main` holds the type entry `mood`. -/
def example_types : Catalog :=
  ⟨"types", [⟨"types", "main", [⟨.TYPE_ENTRY, "mood", 20⟩]⟩]⟩

/-- The payload `user_type` of the type entries of the example: an enumeration. -/
def example_user_type : CatalogEntry → LogicalType :=
  fun _ => ⟨"ENUM", none⟩

/-- The year, month and day of a date in the proleptic Gregorian calendar. -/
def example_civil (input : date_t) : Int × Int × Int :=
  let z := input.days + 719468
  let era := z / 146097
  let doe := z - era * 146097
  let yoe := (doe - doe / 1460 + doe / 36524 - doe / 146096) / 365
  let doy := doe - (365 * yoe + yoe / 4 - yoe / 100)
  let mp := (5 * doy + 2) / 153
  let d := doy - (153 * mp + 2) / 5 + 1
  let m := if mp < 10 then mp + 3 else mp - 9
  let y := yoe + era * 400
  (if m ≤ 2 then y + 1 else y, m, d)

/-- The number of days from 1970-01-01 to the first of January of a year. -/
def example_year_start (year : Int) : Int :=
  let y := year - 1
  let era := y / 400
  let yoe := y - era * 400
  era * 146097 + (yoe * 365 + yoe / 4 - yoe / 100 + 306) - 719468

/-- The number of ISO weeks of a year, 52 or 53. -/
def example_iso_weeks (year : Int) : Int :=
  let p := fun y : Int => (y + y / 4 - y / 100 + y / 400) % 7
  if p year = 4 ∨ p (year - 1) = 3 then 53 else 52

/-- An instance of the `Date` functions for the examples: the proleptic Gregorian calendar on days
since 1970-01-01 (a Thursday), with ISO-8601 week numbers. -/
def example_Date : DateFunctions where
  ExtractYear := fun input => (example_civil input).1
  ExtractMonth := fun input => (example_civil input).2.1
  ExtractDay := fun input => (example_civil input).2.2
  ExtractISODayOfTheWeek := fun input => (input.days + 3) % 7 + 1
  ExtractISOWeekNumber := fun input =>
    let year := (example_civil input).1
    let doy := input.days - example_year_start year + 1
    let isodow := (input.days + 3) % 7 + 1
    let week := (doy - isodow + 10) / 7
    if week < 1 then example_iso_weeks (year - 1)
    else if week > example_iso_weeks year then 1
    else week
  ExtractDayOfTheYear := fun input =>
    input.days - example_year_start (example_civil input).1 + 1
  Epoch := fun input => input.days * 86400
  Convert := example_civil

/-- An evaluator for the examples: only constants are foldable. -/
def example_IsFoldable : Expression → Bool
  | .BOUND_CONSTANT _ => true
  | _ => false

/-- An evaluator for the examples: a constant evaluates to its value, anything else to NULL. -/
def example_EvaluateScalar : Expression → Value
  | .BOUND_CONSTANT value => value
  | _ => .mk .SQLNULL true "NULL" []

/-- A part name as a value. -/
def example_part (name : String) : Value := .mk .VARCHAR false name []

/-- The struct variant of `date_part` before binding: a list of names and a date. -/
def example_date_part : ScalarFunction :=
  ⟨"date_part", [⟨"VARCHAR[]", none⟩, ⟨"DATE", none⟩], .STRUCT []⟩

/-- A replacer for the examples with the chained rules `0.0 to 1.0` and `1.0 to 2.0`, the second
with the new type `VARCHAR`, which stops at the operator at address 7. -/
def example_replacer : ColumnBindingReplacer :=
  { replace_bindings :=
      [ReplaceBinding.ofBindings ⟨0, 0⟩ ⟨1, 0⟩,
        ReplaceBinding.ofBindingsAndType ⟨1, 0⟩ ⟨2, 0⟩ ⟨"VARCHAR", none⟩]
    stop_operator := some 7
    column_binding_callback := none }

/-- A replacer for the examples whose rules do not chain: `0.0 to 5.0` and `0.1 to 5.1`, the
second with the new type `VARCHAR`; it stops at the operator at address 7. -/
def example_simultaneous_replacer : ColumnBindingReplacer :=
  { replace_bindings :=
      [ReplaceBinding.ofBindings ⟨0, 0⟩ ⟨5, 0⟩,
        ReplaceBinding.ofBindingsAndType ⟨0, 1⟩ ⟨5, 1⟩ ⟨"VARCHAR", none⟩]
    stop_operator := some 7
    column_binding_callback := none }

/-- A plan for the examples: a projection at address 1 over a filter at address 7. -/
def example_plan : LogicalOperator :=
  .mk 1
    [.other .BOUND_FUNCTION ⟨"BIGINT", none⟩
      [.BOUND_COLUMN_REF ⟨⟨0, 0⟩, ⟨"INTEGER", none⟩⟩,
        .BOUND_COLUMN_REF ⟨⟨0, 1⟩, ⟨"INTEGER", none⟩⟩,
        .BOUND_COLUMN_REF ⟨⟨3, 0⟩, ⟨"INTEGER", none⟩⟩]]
    [.mk 7 [.BOUND_COLUMN_REF ⟨⟨0, 0⟩, ⟨"INTEGER", none⟩⟩] []]

/-- An instance of the create operations of a schema for the examples: each returns an entry of
its kind under the requested name and leaves the state as it is. -/
def example_schema_operations : SchemaCreateOperations where
  CreateView := fun _ transaction info =>
    (.ok (some ⟨.VIEW_ENTRY, info.name, 101⟩), transaction.context)
  CreateSequence := fun _ transaction info =>
    (.ok (some ⟨.SEQUENCE_ENTRY, info.name, 102⟩), transaction.context)
  CreateType := fun _ transaction info =>
    (.ok (some ⟨.TYPE_ENTRY, info.name, 103⟩), transaction.context)
  CreateTableFunction := fun _ transaction info =>
    (.ok (some ⟨.TABLE_FUNCTION_ENTRY, info.name, 104⟩), transaction.context)
  CreateCopyFunction := fun _ transaction info =>
    (.ok (some ⟨.COPY_FUNCTION_ENTRY, info.name, 105⟩), transaction.context)
  CreatePragmaFunction := fun _ transaction info =>
    (.ok (some ⟨.PRAGMA_FUNCTION_ENTRY, info.name, 106⟩), transaction.context)
  CreateFunction := fun _ transaction info =>
    (.ok (some ⟨.SCALAR_FUNCTION_ENTRY, info.name, 107⟩), transaction.context)
  CreateCollation := fun _ transaction info =>
    (.ok (some ⟨.COLLATION_ENTRY, info.name, 108⟩), transaction.context)

/-- An instance of the further operations for the examples: a schema or an index is returned
under the requested name, binding wraps the info, and the state is left as it is. -/
def example_further_operations : FurtherCreateOperations where
  CreateSchema := fun _ transaction info =>
    (.ok (some ⟨.SCHEMA_ENTRY, info.schema, 109⟩), transaction.context)
  CreateIndex := fun _ state info _ => (.ok (some ⟨.INDEX_ENTRY, info.index_name, 110⟩), state)
  BindCreateTableInfo := fun state info => (.ok ⟨info⟩, state)

/-- A replacer for the examples with the single rule `0.0 to 1.0` and a callback that writes to
the reference it is handed: it adds 10 to the table index of its binding. -/
def example_writing_replacer : ColumnBindingReplacer :=
  { replace_bindings := [ReplaceBinding.ofBindings ⟨0, 0⟩ ⟨1, 0⟩]
    stop_operator := none
    column_binding_callback :=
      some (fun ref _ =>
        { ref with binding := ⟨ref.binding.table_index + 10, ref.binding.column_index⟩ }) }

/-- A replacer for the examples with the single rule `0.0 to 1.0` and a callback that writes the
binding `9.9` to the reference it is handed. -/
def example_rebinding_replacer : ColumnBindingReplacer :=
  { replace_bindings := [ReplaceBinding.ofBindings ⟨0, 0⟩ ⟨1, 0⟩]
    stop_operator := none
    column_binding_callback := some (fun ref _ => { ref with binding := ⟨9, 9⟩ }) }

/-! ## Probe-site enumeration: theorems -/

/-- C1: with both the catalog and the schema unspecified, `GetCatalogEntries` returns exactly
`search_path.Get()`, same elements in the same order; hence every pair of the session search path
is contained in the result. -/
theorem GetCatalogEntries_unqualified (context : ClientContext) :
    GetCatalogEntries context INVALID_CATALOG INVALID_SCHEMA = context.catalog_search_path.Get
    ∧ ∀ p, p ∈ context.catalog_search_path.Get ↔
        p ∈ GetCatalogEntries context INVALID_CATALOG INVALID_SCHEMA := by
  have h : GetCatalogEntries context INVALID_CATALOG INVALID_SCHEMA
      = context.catalog_search_path.Get := by
    simp [GetCatalogEntries, IsInvalidCatalog, IsInvalidSchema]
  exact ⟨h, fun p => by rw [h]⟩

/-- C2: for a specified schema `S` and an unspecified catalog, `GetCatalogEntries` returns
`(c, S)` for each `c` of `search_path.GetCatalogsForSchema(S)`, in that order, when that list is
non-empty, and the single site `(default database, S)` when it is empty; every returned site has
schema `S` and the result is never empty. -/
theorem GetCatalogEntries_schema_only (context : ClientContext) (S : String)
    (hS : IsInvalidSchema S = false) :
    GetCatalogEntries context INVALID_CATALOG S
      = (if context.catalog_search_path.GetCatalogsForSchema S = []
          then [CatalogSearchEntry.mk (DatabaseManager.GetDefaultDatabase context) S]
          else (context.catalog_search_path.GetCatalogsForSchema S).map
            (fun c => CatalogSearchEntry.mk c S))
    ∧ (∀ e ∈ GetCatalogEntries context INVALID_CATALOG S, e.schema = S)
    ∧ GetCatalogEntries context INVALID_CATALOG S ≠ [] := by
  have h : GetCatalogEntries context INVALID_CATALOG S
      = (if context.catalog_search_path.GetCatalogsForSchema S = []
          then [CatalogSearchEntry.mk (DatabaseManager.GetDefaultDatabase context) S]
          else (context.catalog_search_path.GetCatalogsForSchema S).map
            (fun c => CatalogSearchEntry.mk c S)) := by
    simp [GetCatalogEntries, IsInvalidCatalog, hS, INVALID_CATALOG]
  refine ⟨h, ?_, ?_⟩
  · intro e he
    rw [h] at he
    split at he
    · simp at he; simp [he]
    · simp at he; obtain ⟨c, _, rfl⟩ := he; rfl
  · rw [h]
    split
    · simp
    · simpa using ‹_›

/-- C2, at the schema `main` of the example session. -/
theorem GetCatalogEntries_schema_only_witness :
    IsInvalidSchema "main" = false
    ∧ (GetCatalogEntries example_context INVALID_CATALOG "main"
      = (if example_context.catalog_search_path.GetCatalogsForSchema "main" = []
          then [CatalogSearchEntry.mk (DatabaseManager.GetDefaultDatabase example_context) "main"]
          else (example_context.catalog_search_path.GetCatalogsForSchema "main").map
            (fun c => CatalogSearchEntry.mk c "main"))
    ∧ (∀ e ∈ GetCatalogEntries example_context INVALID_CATALOG "main", e.schema = "main")
    ∧ GetCatalogEntries example_context INVALID_CATALOG "main" ≠ []) :=
  ⟨by decide, GetCatalogEntries_schema_only example_context "main" (by decide)⟩

/-- C3: for a specified catalog `C` and an unspecified schema, `GetCatalogEntries` returns
`(C, s)` for each `s` of `search_path.GetSchemasForCatalog(C)`, in that order, when that list is
non-empty, and the single site `(C, DEFAULT_SCHEMA)` when it is empty; every returned site has
catalog `C` and the result is never empty. -/
theorem GetCatalogEntries_catalog_only (context : ClientContext) (C : String)
    (hC : IsInvalidCatalog C = false) :
    GetCatalogEntries context C INVALID_SCHEMA
      = (if context.catalog_search_path.GetSchemasForCatalog C = []
          then [CatalogSearchEntry.mk C DEFAULT_SCHEMA]
          else (context.catalog_search_path.GetSchemasForCatalog C).map
            (fun s => CatalogSearchEntry.mk C s))
    ∧ (∀ e ∈ GetCatalogEntries context C INVALID_SCHEMA, e.catalog = C)
    ∧ GetCatalogEntries context C INVALID_SCHEMA ≠ [] := by
  have h : GetCatalogEntries context C INVALID_SCHEMA
      = (if context.catalog_search_path.GetSchemasForCatalog C = []
          then [CatalogSearchEntry.mk C DEFAULT_SCHEMA]
          else (context.catalog_search_path.GetSchemasForCatalog C).map
            (fun s => CatalogSearchEntry.mk C s)) := by
    simp [GetCatalogEntries, IsInvalidSchema, hC, INVALID_SCHEMA]
  refine ⟨h, ?_, ?_⟩
  · intro e he
    rw [h] at he
    split at he
    · simp at he; simp [he]
    · simp at he; obtain ⟨s, _, rfl⟩ := he; rfl
  · rw [h]
    split
    · simp
    · simpa using ‹_›

/-- C3, at the catalog `db1` of the example session. -/
theorem GetCatalogEntries_catalog_only_witness :
    IsInvalidCatalog "db1" = false
    ∧ (GetCatalogEntries example_context "db1" INVALID_SCHEMA
      = (if example_context.catalog_search_path.GetSchemasForCatalog "db1" = []
          then [CatalogSearchEntry.mk "db1" DEFAULT_SCHEMA]
          else (example_context.catalog_search_path.GetSchemasForCatalog "db1").map
            (fun s => CatalogSearchEntry.mk "db1" s))
    ∧ (∀ e ∈ GetCatalogEntries example_context "db1" INVALID_SCHEMA, e.catalog = "db1")
    ∧ GetCatalogEntries example_context "db1" INVALID_SCHEMA ≠ []) :=
  ⟨by decide, GetCatalogEntries_catalog_only example_context "db1" (by decide)⟩

/-- C4: for a specified catalog `C` and a specified schema `S`, `GetCatalogEntries` returns the
one-element list `[(C, S)]`, whatever the search path and the default database are. -/
theorem GetCatalogEntries_fully_qualified (context : ClientContext) (C S : String)
    (hC : IsInvalidCatalog C = false) (hS : IsInvalidSchema S = false) :
    GetCatalogEntries context C S = [CatalogSearchEntry.mk C S] := by
  simp [GetCatalogEntries, hC, hS]

/-- C4, at `db2.main` in the example session. -/
theorem GetCatalogEntries_fully_qualified_witness :
    IsInvalidCatalog "db2" = false ∧ IsInvalidSchema "main" = false
    ∧ GetCatalogEntries example_context "db2" "main" = [CatalogSearchEntry.mk "db2" "main"] :=
  ⟨by decide, by decide,
    GetCatalogEntries_fully_qualified example_context "db2" "main" (by decide) (by decide)⟩

/-! ## Minimal qualification: theorems -/

/-- The search loop of `FindMinimalQualification` answers membership of the site. -/
theorem FindMinimalQualification.found_iff (catalog_name schema_name : String)
    (entries : List CatalogSearchEntry) :
    FindMinimalQualification.found catalog_name schema_name entries = true
      ↔ CatalogSearchEntry.mk catalog_name schema_name ∈ entries := by
  induction entries with
  | nil => simp [FindMinimalQualification.found]
  | cons entry rest ih =>
    obtain ⟨c, s⟩ := entry
    by_cases h : c = catalog_name ∧ s = schema_name
    · obtain ⟨rfl, rfl⟩ := h
      simp [FindMinimalQualification.found]
    · have h2 : ¬ (catalog_name = c ∧ schema_name = s) := fun h3 => h ⟨h3.1.symm, h3.2.symm⟩
      simp [FindMinimalQualification.found, h, h2, ih]

/-- C9: `FindMinimalQualification` sets `(qualify_database, qualify_schema)` to `(false, true)`
if `GetCatalogEntries(INVALID_CATALOG, S)` contains `(C, S)`; otherwise to `(true, false)` if
`GetCatalogEntries(C, INVALID_SCHEMA)` contains `(C, S)`; otherwise to `(true, true)`. -/
theorem FindMinimalQualification_spec (context : ClientContext) (C S : String) :
    FindMinimalQualification context C S
      = (if CatalogSearchEntry.mk C S ∈ GetCatalogEntries context INVALID_CATALOG S then
          (false, true)
        else if CatalogSearchEntry.mk C S ∈ GetCatalogEntries context C INVALID_SCHEMA then
          (true, false)
        else (true, true)) := by
  unfold FindMinimalQualification
  by_cases h1 : CatalogSearchEntry.mk C S ∈ GetCatalogEntries context INVALID_CATALOG S
  · rw [if_pos ((FindMinimalQualification.found_iff C S _).mpr h1), if_pos h1]
  · have h1b : ¬ FindMinimalQualification.found C S
        (GetCatalogEntries context INVALID_CATALOG S) = true :=
      fun h => h1 ((FindMinimalQualification.found_iff C S _).mp h)
    rw [if_neg h1b, if_neg h1]
    by_cases h2 : CatalogSearchEntry.mk C S ∈ GetCatalogEntries context C INVALID_SCHEMA
    · rw [if_pos ((FindMinimalQualification.found_iff C S _).mpr h2), if_pos h2]
    · have h2b : ¬ FindMinimalQualification.found C S
          (GetCatalogEntries context C INVALID_SCHEMA) = true :=
        fun h => h2 ((FindMinimalQualification.found_iff C S _).mp h)
      rw [if_neg h2b, if_neg h2]

/-! ## Lookup loop: auxiliary facts -/

/-- The schema reported by `LookupEntryInternal` is the schema `GetSchema` finds. -/
theorem Catalog.LookupEntryInternal_schema (catalog : Catalog) (type : CatalogType)
    (schema name : String) :
    (catalog.LookupEntryInternal type schema name).schema = catalog.GetSchema schema := by
  unfold Catalog.LookupEntryInternal
  cases catalog.GetSchema schema with
  | none => rfl
  | some schema_entry => cases h : schema_entry.GetEntry type name <;> simp [h]

/-- The entry reported by `LookupEntryInternal` is the one the schema, when it exists, holds. -/
theorem Catalog.LookupEntryInternal_entry (catalog : Catalog) (type : CatalogType)
    (schema name : String) :
    (catalog.LookupEntryInternal type schema name).entry
      = (catalog.GetSchema schema).bind (fun s => s.GetEntry type name) := by
  unfold Catalog.LookupEntryInternal
  cases catalog.GetSchema schema with
  | none => rfl
  | some schema_entry => cases h : schema_entry.GetEntry type name <;> simp [h]

/-- A lookup is `Found` exactly when the schema exists and holds the entry. -/
theorem Catalog.LookupEntryInternal_found_iff (catalog : Catalog) (type : CatalogType)
    (schema name : String) :
    (catalog.LookupEntryInternal type schema name).Found = true
      ↔ ∃ s e, catalog.GetSchema schema = some s ∧ s.GetEntry type name = some e := by
  rw [CatalogEntryLookup.Found, Catalog.LookupEntryInternal_entry]
  cases catalog.GetSchema schema with
  | none => simp
  | some s => cases h : s.GetEntry type name <;> simp [h]

/-- Membership in a reference set after an insertion. -/
theorem mem_reference_set_insert (schemas : List SchemaCatalogEntry)
    (schema s : SchemaCatalogEntry) :
    s ∈ reference_set_insert schemas schema ↔ s ∈ schemas ∨ s = schema := by
  unfold reference_set_insert
  split
  · constructor
    · exact Or.inl
    · rintro (h | rfl)
      · exact h
      · assumption
  · simp

/-- When no lookup finds the entry, the loop visits every lookup: it ends in absence when
`if_exists` is set, and otherwise raises the missing-entry exception with the schemas that were
there before plus the schemas that exist at the lookups. -/
theorem Catalog.LookupEntry.probe_miss (type : CatalogType) (name : String) (if_exists : Bool)
    (lookups : List CatalogLookup) (schemas : List SchemaCatalogEntry)
    (hmiss : ∀ l ∈ lookups, (l.catalog.LookupEntryInternal type l.schema name).Found = false) :
    ∃ visited : List SchemaCatalogEntry,
      (∀ s, s ∈ visited ↔
        s ∈ schemas ∨ ∃ l ∈ lookups, l.catalog.GetSchema l.schema = some s)
      ∧ Catalog.LookupEntry.probe type name if_exists lookups schemas
          = (if if_exists then .ok ⟨none, none⟩ else .error (.MissingEntry name type visited)) := by
  induction lookups generalizing schemas with
  | nil => exact ⟨schemas, by simp, by simp [Catalog.LookupEntry.probe]⟩
  | cons l rest ih =>
    have hl := hmiss l (List.mem_cons_self _ _)
    have hrest : ∀ x ∈ rest,
        (x.catalog.LookupEntryInternal type x.schema name).Found = false :=
      fun x hx => hmiss x (List.mem_cons_of_mem _ hx)
    have hsch := Catalog.LookupEntryInternal_schema l.catalog type l.schema name
    cases hg : l.catalog.GetSchema l.schema with
    | none =>
      obtain ⟨visited, hv, hp⟩ := ih schemas hrest
      refine ⟨visited, ?_, ?_⟩
      · intro s
        rw [hv s]
        simp [hg]
      · rw [hg] at hsch
        simp only [Catalog.LookupEntry.probe, hl, hsch]
        simpa using hp
    | some sch =>
      obtain ⟨visited, hv, hp⟩ := ih (reference_set_insert schemas sch) hrest
      refine ⟨visited, ?_, ?_⟩
      · intro s
        rw [hv s, mem_reference_set_insert]
        simp only [List.mem_cons, exists_eq_or_imp, hg, Option.some.injEq]
        constructor
        · rintro ((h | h) | h)
          · exact Or.inl h
          · exact Or.inr (Or.inl h.symm)
          · exact Or.inr (Or.inr h)
        · rintro (h | h | h)
          · exact Or.inl (Or.inl h)
          · exact Or.inl (Or.inr h.symm)
          · exact Or.inr h
      · rw [hg] at hsch
        simp only [Catalog.LookupEntry.probe, hl, hsch]
        simpa using hp

/-- The first lookup that finds the entry decides the loop: its result is returned, whatever
follows it. -/
theorem Catalog.LookupEntry.probe_hit (type : CatalogType) (name : String) (if_exists : Bool)
    (pre post : List CatalogLookup) (l : CatalogLookup) (schemas : List SchemaCatalogEntry)
    (hpre : ∀ x ∈ pre, (x.catalog.LookupEntryInternal type x.schema name).Found = false)
    (hl : (l.catalog.LookupEntryInternal type l.schema name).Found = true) :
    Catalog.LookupEntry.probe type name if_exists (pre ++ l :: post) schemas
      = .ok (l.catalog.LookupEntryInternal type l.schema name) := by
  induction pre generalizing schemas with
  | nil => simp [Catalog.LookupEntry.probe, hl]
  | cons x rest ih =>
    have hx := hpre x (List.mem_cons_self _ _)
    have hrest : ∀ y ∈ rest,
        (y.catalog.LookupEntryInternal type y.schema name).Found = false :=
      fun y hy => hpre y (List.mem_cons_of_mem _ hy)
    simp only [List.cons_append, Catalog.LookupEntry.probe, hx]
    cases (x.catalog.LookupEntryInternal type x.schema name).schema with
    | none => simpa using ih schemas hrest
    | some sch => simpa using ih (reference_set_insert schemas sch) hrest

/-- Whatever the loop returns without raising is either a found entry of one of the lookups or,
with `if_exists` set, the empty result. -/
theorem Catalog.LookupEntry.probe_ok (type : CatalogType) (name : String) (if_exists : Bool)
    (lookups : List CatalogLookup) (schemas : List SchemaCatalogEntry) (r : CatalogEntryLookup)
    (hr : Catalog.LookupEntry.probe type name if_exists lookups schemas = .ok r) :
    (r.Found = true ∧ ∃ l ∈ lookups, r = l.catalog.LookupEntryInternal type l.schema name)
      ∨ (if_exists = true ∧ r = ⟨none, none⟩) := by
  induction lookups generalizing schemas with
  | nil =>
    cases if_exists <;> simp [Catalog.LookupEntry.probe] at hr
    exact Or.inr ⟨rfl, hr.symm⟩
  | cons l rest ih =>
    cases hl : (l.catalog.LookupEntryInternal type l.schema name).Found with
    | true =>
      simp only [Catalog.LookupEntry.probe, hl, if_true, Except.ok.injEq] at hr
      subst hr
      exact Or.inl ⟨hl, l, List.mem_cons_self _ _, rfl⟩
    | false =>
      simp only [Catalog.LookupEntry.probe, hl] at hr
      have key : ∀ sch, Catalog.LookupEntry.probe type name if_exists rest sch = .ok r →
          (r.Found = true ∧
            ∃ l0 ∈ l :: rest, r = l0.catalog.LookupEntryInternal type l0.schema name)
          ∨ (if_exists = true ∧ r = ⟨none, none⟩) := by
        intro sch h
        rcases ih sch h with ⟨hf, l0, hl0, he⟩ | h2
        · exact Or.inl ⟨hf, l0, List.mem_cons_of_mem _ hl0, he⟩
        · exact Or.inr h2
      cases hs : (l.catalog.LookupEntryInternal type l.schema name).schema with
      | none => rw [hs] at hr; exact key _ (by simpa using hr)
      | some sch => rw [hs] at hr; exact key _ (by simpa using hr)

/-- With `if_exists` set the loop never raises. -/
theorem Catalog.LookupEntry.probe_if_exists (type : CatalogType) (name : String)
    (lookups : List CatalogLookup) (schemas : List SchemaCatalogEntry) :
    ∃ r, Catalog.LookupEntry.probe type name true lookups schemas = .ok r := by
  induction lookups generalizing schemas with
  | nil => exact ⟨⟨none, none⟩, by simp [Catalog.LookupEntry.probe]⟩
  | cons l rest ih =>
    cases hl : (l.catalog.LookupEntryInternal type l.schema name).Found with
    | true =>
      exact ⟨l.catalog.LookupEntryInternal type l.schema name,
        by simp [Catalog.LookupEntry.probe, hl]⟩
    | false =>
      cases hs : (l.catalog.LookupEntryInternal type l.schema name).schema with
      | none =>
        obtain ⟨r, hr⟩ := ih schemas
        exact ⟨r, by simp [Catalog.LookupEntry.probe, hl, hs, hr]⟩
      | some sch =>
        obtain ⟨r, hr⟩ := ih (reference_set_insert schemas sch)
        exact ⟨r, by simp [Catalog.LookupEntry.probe, hl, hs, hr]⟩

/-- When the catalog of every probe site exists, the first loop of `Catalog::GetEntry` builds one
lookup per site, in order. -/
theorem Catalog.GetEntry.lookups_resolved (context : ClientContext) (if_exists_p : Bool)
    (entries : List CatalogSearchEntry)
    (hall : ∀ p ∈ entries, (Catalog.GetCatalogEntry context p.catalog).isSome = true) :
    Catalog.GetEntry.lookups context if_exists_p entries
      = .ok (some (entries.filterMap (fun p =>
          (Catalog.GetCatalogEntry context p.catalog).map
            (fun c => CatalogLookup.mk c p.schema)))) := by
  induction entries with
  | nil => rfl
  | cons entry rest ih =>
    have hentry := hall entry (List.mem_cons_self _ _)
    have hrest := ih (fun p hp => hall p (List.mem_cons_of_mem _ hp))
    obtain ⟨c, hc⟩ := Option.isSome_iff_exists.mp hentry
    cases if_exists_p <;>
      simp [Catalog.GetEntry.lookups, Catalog.GetCatalog, hc, hrest]

/-- When the catalog of some probe site does not exist, the first loop of `Catalog::GetEntry`
ends the call: with absence when `if_exists_p` is set, with a binder exception otherwise. -/
theorem Catalog.GetEntry.lookups_unresolved (context : ClientContext) (if_exists_p : Bool)
    (entries : List CatalogSearchEntry)
    (hsome : ∃ p ∈ entries, Catalog.GetCatalogEntry context p.catalog = none) :
    ∃ message, Catalog.GetEntry.lookups context if_exists_p entries
      = (if if_exists_p then .ok none else .error (.BinderException message)) := by
  induction entries with
  | nil => simp at hsome
  | cons entry rest ih =>
    cases hc : Catalog.GetCatalogEntry context entry.catalog with
    | none =>
      cases if_exists_p
      · exact ⟨_, by simp [Catalog.GetEntry.lookups, Catalog.GetCatalog, hc]; rfl⟩
      · exact ⟨"", by simp [Catalog.GetEntry.lookups, hc]⟩
    | some c =>
      have hrest : ∃ p ∈ rest, Catalog.GetCatalogEntry context p.catalog = none := by
        obtain ⟨p, hp, hpn⟩ := hsome
        rcases List.mem_cons.mp hp with rfl | hp
        · rw [hc] at hpn; cases hpn
        · exact ⟨p, hp, hpn⟩
      obtain ⟨message, hm⟩ := ih hrest
      refine ⟨message, ?_⟩
      cases if_exists_p <;>
        simp [Catalog.GetEntry.lookups, Catalog.GetCatalog, hc, hm]

/-- The lookups built from a list of probe sites miss the entry when the sites do. -/
theorem Catalog.GetEntry.resolved_miss (context : ClientContext) (type : CatalogType)
    (name : String) (entries : List CatalogSearchEntry)
    (hmiss : ∀ p ∈ entries, ∀ c s, Catalog.GetCatalogEntry context p.catalog = some c →
      c.GetSchema p.schema = some s → s.GetEntry type name = none) :
    ∀ l ∈ entries.filterMap (fun p =>
        (Catalog.GetCatalogEntry context p.catalog).map (fun c => CatalogLookup.mk c p.schema)),
      (l.catalog.LookupEntryInternal type l.schema name).Found = false := by
  intro l hl
  obtain ⟨p, hp, hpl⟩ := List.mem_filterMap.mp hl
  cases hc : Catalog.GetCatalogEntry context p.catalog with
  | none => simp [hc] at hpl
  | some c =>
    simp only [hc, Option.map_some', Option.some.injEq] at hpl
    subst hpl
    cases hf : (c.LookupEntryInternal type p.schema name).Found with
    | false => rfl
    | true =>
      obtain ⟨s, e, hs, he⟩ := (Catalog.LookupEntryInternal_found_iff c type p.schema name).mp hf
      rw [hmiss p hp c s hc hs] at he
      cases he

/-- A catalog that `GetCatalogEntry` resolves is an attached database, the temporary catalog or
the system catalog. -/
theorem Catalog.GetCatalogEntry_mem (context : ClientContext) (catalog_name : String) (c : Catalog)
    (h : Catalog.GetCatalogEntry context catalog_name = some c) :
    c ∈ context.databases ∨ c = context.temporary_objects ∨ c = context.system := by
  unfold Catalog.GetCatalogEntry at h
  split at h
  · exact Or.inr (Or.inl (Option.some.inj h).symm)
  · split at h
    · exact Or.inr (Or.inr (Option.some.inj h).symm)
    · exact Or.inl (List.mem_of_find?_eq_some h)

/-- With `if_exists` set, a request that no probe site can satisfy returns absence. -/
theorem Catalog.GetEntry.if_exists_miss (context : ClientContext) (type : CatalogType)
    (catalog schema name : String)
    (hmiss : ∀ p ∈ GetCatalogEntries context catalog schema, ∀ c s,
      Catalog.GetCatalogEntry context p.catalog = some c →
      c.GetSchema p.schema = some s → s.GetEntry type name = none) :
    Catalog.GetEntry context type catalog schema name true = .ok none := by
  unfold Catalog.GetEntry
  by_cases hall : ∀ p ∈ GetCatalogEntries context catalog schema,
      (Catalog.GetCatalogEntry context p.catalog).isSome = true
  · simp only [Catalog.GetEntry.lookups_resolved context true _ hall]
    obtain ⟨visited, -, hp⟩ := Catalog.LookupEntry.probe_miss type name true _ []
      (Catalog.GetEntry.resolved_miss context type name _ hmiss)
    simp only [Catalog.LookupEntry, hp]
    rfl
  · have hsome : ∃ p ∈ GetCatalogEntries context catalog schema,
        Catalog.GetCatalogEntry context p.catalog = none := by
      by_contra hcon
      apply hall
      intro p hp
      cases hc : Catalog.GetCatalogEntry context p.catalog with
      | none => exact absurd ⟨p, hp, hc⟩ hcon
      | some c => rfl
    obtain ⟨message, hm⟩ := Catalog.GetEntry.lookups_unresolved context true _ hsome
    simp [hm]

/-! ## Lookup loop: theorems -/

/-- C5, as stated, fails: in the session whose search path still names the detached `db2`, the
first probe site `db1.main` exists and holds the table `t`, yet `Catalog::GetEntry` returns
absence with `if_exists` set and raises a binder exception without it, because the later site
`db2.main` names a catalog that does not exist. -/
theorem GetEntry_first_hit_counterexample :
    GetCatalogEntries example_context_detached INVALID_CATALOG INVALID_SCHEMA
      = [⟨"db1", "main"⟩, ⟨"db2", "main"⟩, ⟨"db1", "s1"⟩]
    ∧ Catalog.GetCatalogEntry example_context_detached "db1" = some example_db1
    ∧ example_db1.GetSchema "main" = some example_db1_main
    ∧ example_db1_main.GetEntry .TABLE_ENTRY "t" = some ⟨.TABLE_ENTRY, "t", 1⟩
    ∧ Catalog.GetEntry example_context_detached .TABLE_ENTRY INVALID_CATALOG INVALID_SCHEMA "t"
        true = .ok none
    ∧ Catalog.GetEntry example_context_detached .TABLE_ENTRY INVALID_CATALOG INVALID_SCHEMA "t"
        false = .error (.BinderException "Catalog \"db2\" does not exist!") :=
  ⟨rfl, rfl, rfl, rfl, rfl, rfl⟩

/-- C5, amended: when the catalog of every probe site of `GetCatalogEntries(catalog, schema)`
exists, and some probe site has an existing schema that holds an entry of the requested name and
kind, `Catalog::GetEntry` returns the entry of the earliest such site in probe order, whatever the
sites after it hold. -/
theorem GetEntry_first_hit (context : ClientContext) (type : CatalogType)
    (catalog schema name : String) (if_exists_p : Bool)
    (pre post : List CatalogSearchEntry) (site : CatalogSearchEntry)
    (c : Catalog) (s : SchemaCatalogEntry) (e : CatalogEntry)
    (hsites : GetCatalogEntries context catalog schema = pre ++ site :: post)
    (hattached : ∀ p ∈ GetCatalogEntries context catalog schema,
      (Catalog.GetCatalogEntry context p.catalog).isSome = true)
    (hpre : ∀ p ∈ pre, ∀ cp sp, Catalog.GetCatalogEntry context p.catalog = some cp →
      cp.GetSchema p.schema = some sp → sp.GetEntry type name = none)
    (hc : Catalog.GetCatalogEntry context site.catalog = some c)
    (hs : c.GetSchema site.schema = some s)
    (he : s.GetEntry type name = some e) :
    Catalog.GetEntry context type catalog schema name if_exists_p = .ok (some e) := by
  have hfound : ((CatalogLookup.mk c site.schema).catalog.LookupEntryInternal type
      (CatalogLookup.mk c site.schema).schema name).Found = true :=
    (Catalog.LookupEntryInternal_found_iff c type site.schema name).mpr ⟨s, e, hs, he⟩
  have hentry : (c.LookupEntryInternal type site.schema name).entry = some e := by
    rw [Catalog.LookupEntryInternal_entry, hs]
    exact he
  have hprobe := Catalog.LookupEntry.probe_hit type name if_exists_p
    (pre.filterMap (fun p =>
      (Catalog.GetCatalogEntry context p.catalog).map (fun c => CatalogLookup.mk c p.schema)))
    (post.filterMap (fun p =>
      (Catalog.GetCatalogEntry context p.catalog).map (fun c => CatalogLookup.mk c p.schema)))
    (CatalogLookup.mk c site.schema) []
    (Catalog.GetEntry.resolved_miss context type name pre hpre) hfound
  rw [hsites] at hattached
  unfold Catalog.GetEntry
  simp only [hsites, Catalog.GetEntry.lookups_resolved context if_exists_p _ hattached,
    List.filterMap_append, List.filterMap_cons, hc, Option.map_some', Catalog.LookupEntry]
  rw [hprobe]
  simp [CatalogEntryLookup.Found, hentry]

/-- C5, amended, at the table `orders` of the example session: the site `db1.main` misses it,
`db2.main` holds it, and `db1.s1` follows. -/
theorem GetEntry_first_hit_witness :
    GetCatalogEntries example_context INVALID_CATALOG INVALID_SCHEMA
      = [⟨"db1", "main"⟩] ++ ⟨"db2", "main"⟩ :: [⟨"db1", "s1"⟩]
    ∧ (∀ p ∈ GetCatalogEntries example_context INVALID_CATALOG INVALID_SCHEMA,
        (Catalog.GetCatalogEntry example_context p.catalog).isSome = true)
    ∧ (∀ p ∈ [CatalogSearchEntry.mk "db1" "main"], ∀ cp sp,
        Catalog.GetCatalogEntry example_context p.catalog = some cp →
        cp.GetSchema p.schema = some sp → sp.GetEntry .TABLE_ENTRY "orders" = none)
    ∧ Catalog.GetCatalogEntry example_context "db2" = some example_db2
    ∧ example_db2.GetSchema "main" = some example_db2_main
    ∧ example_db2_main.GetEntry .TABLE_ENTRY "orders" = some ⟨.TABLE_ENTRY, "orders", 4⟩
    ∧ Catalog.GetEntry example_context .TABLE_ENTRY INVALID_CATALOG INVALID_SCHEMA "orders" false
        = .ok (some ⟨.TABLE_ENTRY, "orders", 4⟩) :=
  have hpre : ∀ p ∈ [CatalogSearchEntry.mk "db1" "main"], ∀ cp sp,
      Catalog.GetCatalogEntry example_context p.catalog = some cp →
      cp.GetSchema p.schema = some sp → sp.GetEntry .TABLE_ENTRY "orders" = none := by
    intro p hp cp sp h1 h2
    rw [List.mem_singleton] at hp
    subst hp
    have h1b : some example_db1 = some cp := h1
    cases h1b
    have h2b : some example_db1_main = some sp := h2
    cases h2b
    rfl
  ⟨rfl, by decide, hpre, rfl, rfl, rfl,
    GetEntry_first_hit example_context .TABLE_ENTRY INVALID_CATALOG INVALID_SCHEMA "orders" false
      [⟨"db1", "main"⟩] [⟨"db1", "s1"⟩] ⟨"db2", "main"⟩ example_db2 example_db2_main
      ⟨.TABLE_ENTRY, "orders", 4⟩ rfl (by decide) hpre rfl rfl rfl⟩

/-- C6: for a name that is present in no attached catalog (nor in the temporary or the system
catalog), `Catalog::GetEntry` with `if_exists = true` returns absence and does not raise, for
every kind, catalog and schema; a probe site whose catalog is not attached is no exception. -/
theorem GetEntry_if_exists_absent (context : ClientContext) (type : CatalogType)
    (catalog schema name : String)
    (habsent : ∀ c, (c ∈ context.databases ∨ c = context.temporary_objects ∨ c = context.system) →
      ∀ s ∈ c.schemas, ∀ e ∈ s.entries, e.name ≠ name) :
    Catalog.GetEntry context type catalog schema name true = .ok none := by
  apply Catalog.GetEntry.if_exists_miss
  intro p _ c s hc hs
  cases he : s.GetEntry type name with
  | none => rfl
  | some e =>
    exfalso
    have hmem : e ∈ s.entries := List.mem_of_find?_eq_some he
    have hname : e.name = name := by
      have := List.find?_some he
      simp only [decide_eq_true_eq] at this
      exact this.2
    exact habsent c (Catalog.GetCatalogEntry_mem context p.catalog c hc) s
      (List.mem_of_find?_eq_some hs) e hmem hname

/-- C6, at the name `nowhere` in the session whose search path names the detached `db2`. -/
theorem GetEntry_if_exists_absent_witness :
    (∀ c, (c ∈ example_context_detached.databases
        ∨ c = example_context_detached.temporary_objects
        ∨ c = example_context_detached.system) →
      ∀ s ∈ c.schemas, ∀ e ∈ s.entries, e.name ≠ "nowhere")
    ∧ Catalog.GetEntry example_context_detached .TABLE_ENTRY INVALID_CATALOG INVALID_SCHEMA
        "nowhere" true = .ok none :=
  have habsent : ∀ c, (c ∈ example_context_detached.databases
        ∨ c = example_context_detached.temporary_objects
        ∨ c = example_context_detached.system) →
      ∀ s ∈ c.schemas, ∀ e ∈ s.entries, e.name ≠ "nowhere" := by
    intro c hc
    have hc2 : c = example_db1 ∨ c = ⟨"temp", [⟨"temp", "main", []⟩]⟩
        ∨ c = ⟨"system", [⟨"system", "main", []⟩]⟩ := by
      rcases hc with h | h | h
      · exact Or.inl (List.mem_singleton.mp h)
      · exact Or.inr (Or.inl h)
      · exact Or.inr (Or.inr h)
    rcases hc2 with rfl | rfl | rfl <;> decide
  ⟨habsent, GetEntry_if_exists_absent example_context_detached .TABLE_ENTRY INVALID_CATALOG
    INVALID_SCHEMA "nowhere" habsent⟩

/-- Either the catalog of every probe site exists or the catalog of some probe site does not. -/
theorem Catalog.GetEntry.resolved_or_not (context : ClientContext)
    (entries : List CatalogSearchEntry) :
    (∀ p ∈ entries, (Catalog.GetCatalogEntry context p.catalog).isSome = true)
      ∨ ∃ p ∈ entries, Catalog.GetCatalogEntry context p.catalog = none := by
  by_cases hall : ∀ p ∈ entries, (Catalog.GetCatalogEntry context p.catalog).isSome = true
  · exact Or.inl hall
  · right
    by_contra hcon
    apply hall
    intro p hp
    cases hc : Catalog.GetCatalogEntry context p.catalog with
    | none => exact absurd ⟨p, hp, hc⟩ hcon
    | some c => rfl

/-- C7: a miss is never swallowed unless `if_exists` was set. With `if_exists = false`, a request
that no probe site can satisfy makes `Catalog::GetEntry` raise, and `Catalog::GetEntry` never
returns absence; with `if_exists = true` it never raises (whether or not the catalogs of the probe
sites are attached). -/
theorem GetEntry_miss_raises (context : ClientContext) (type : CatalogType)
    (catalog schema name : String) :
    ((∀ p ∈ GetCatalogEntries context catalog schema, ∀ c s,
        Catalog.GetCatalogEntry context p.catalog = some c →
        c.GetSchema p.schema = some s → s.GetEntry type name = none) →
      ∃ err, Catalog.GetEntry context type catalog schema name false = .error err)
    ∧ Catalog.GetEntry context type catalog schema name false ≠ .ok none
    ∧ ∃ r, Catalog.GetEntry context type catalog schema name true = .ok r := by
  refine ⟨?_, ?_, ?_⟩
  · intro hmiss
    unfold Catalog.GetEntry
    rcases Catalog.GetEntry.resolved_or_not context
      (GetCatalogEntries context catalog schema) with hall | hsome
    · simp only [Catalog.GetEntry.lookups_resolved context false _ hall]
      obtain ⟨visited, -, hp⟩ := Catalog.LookupEntry.probe_miss type name false _ []
        (Catalog.GetEntry.resolved_miss context type name _ hmiss)
      simp only [Catalog.LookupEntry, hp]
      exact ⟨_, rfl⟩
    · obtain ⟨message, hm⟩ := Catalog.GetEntry.lookups_unresolved context false _ hsome
      simp only [hm]
      exact ⟨_, rfl⟩
  · unfold Catalog.GetEntry
    rcases Catalog.GetEntry.resolved_or_not context
      (GetCatalogEntries context catalog schema) with hall | hsome
    · simp only [Catalog.GetEntry.lookups_resolved context false _ hall, Catalog.LookupEntry]
      cases hp : Catalog.LookupEntry.probe type name false
          ((GetCatalogEntries context catalog schema).filterMap (fun p =>
            (Catalog.GetCatalogEntry context p.catalog).map
              (fun c => CatalogLookup.mk c p.schema))) [] with
      | error err => simp
      | ok r =>
        rcases Catalog.LookupEntry.probe_ok type name false _ [] r hp with ⟨hf, -⟩ | ⟨h, -⟩
        · have hentry : r.entry ≠ none := by
            intro hn
            rw [CatalogEntryLookup.Found, hn] at hf
            cases hf
          simp [hf, hentry]
        · cases h
    · obtain ⟨message, hm⟩ := Catalog.GetEntry.lookups_unresolved context false _ hsome
      simp [hm]
  · unfold Catalog.GetEntry
    rcases Catalog.GetEntry.resolved_or_not context
      (GetCatalogEntries context catalog schema) with hall | hsome
    · simp only [Catalog.GetEntry.lookups_resolved context true _ hall, Catalog.LookupEntry]
      obtain ⟨r, hr⟩ := Catalog.LookupEntry.probe_if_exists type name
        ((GetCatalogEntries context catalog schema).filterMap (fun p =>
          (Catalog.GetCatalogEntry context p.catalog).map
            (fun c => CatalogLookup.mk c p.schema))) []
      rw [hr]
      by_cases hf : r.Found = true
      · exact ⟨r.entry, by simp [hf]⟩
      · exact ⟨none, by simp [hf]⟩
    · obtain ⟨message, hm⟩ := Catalog.GetEntry.lookups_unresolved context true _ hsome
      exact ⟨none, by simp [hm]⟩

/-- C7, at the table `nowhere` requested in `db1.main` of the example session: the one probe site
does not hold it, and the call raises. -/
theorem GetEntry_miss_raises_witness :
    (∀ p ∈ GetCatalogEntries example_context "db1" "main", ∀ c s,
        Catalog.GetCatalogEntry example_context p.catalog = some c →
        c.GetSchema p.schema = some s → s.GetEntry .TABLE_ENTRY "nowhere" = none)
    ∧ ∃ err, Catalog.GetEntry example_context .TABLE_ENTRY "db1" "main" "nowhere" false
        = .error err :=
  have hmiss : ∀ p ∈ GetCatalogEntries example_context "db1" "main", ∀ c s,
      Catalog.GetCatalogEntry example_context p.catalog = some c →
      c.GetSchema p.schema = some s → s.GetEntry .TABLE_ENTRY "nowhere" = none := by
    intro p hp c s h1 h2
    have hp2 : p ∈ [CatalogSearchEntry.mk "db1" "main"] := hp
    rw [List.mem_singleton] at hp2
    subst hp2
    have h1b : some example_db1 = some c := h1
    cases h1b
    have h2b : some example_db1_main = some s := h2
    cases h2b
    rfl
  ⟨hmiss,
    (GetEntry_miss_raises example_context .TABLE_ENTRY "db1" "main" "nowhere").1 hmiss⟩

/-- The single-catalog overload of `LookupEntry`: when none of the schemas it probes holds the
entry and `if_exists` is false, the schemas handed to the missing-entry exception are exactly
those of the probed schema names that exist in the catalog. -/
theorem Catalog.LookupEntryInCatalog_missing_schemas (catalog : Catalog) (context : ClientContext)
    (type : CatalogType) (schema name : String)
    (hmiss : ∀ sn ∈ (if IsInvalidSchema schema = true then
          (GetCatalogEntries context catalog.name INVALID_SCHEMA).map (fun entry => entry.schema)
        else [schema]),
      (catalog.LookupEntryInternal type sn name).Found = false) :
    ∃ schemas, catalog.LookupEntryInCatalog context type schema name false
        = .error (.MissingEntry name type schemas)
      ∧ ∀ s, s ∈ schemas ↔
          ∃ sn ∈ (if IsInvalidSchema schema = true then
              (GetCatalogEntries context catalog.name INVALID_SCHEMA).map
                (fun entry => entry.schema)
            else [schema]),
            catalog.GetSchema sn = some s := by
  unfold Catalog.LookupEntryInCatalog
  cases hinv : IsInvalidSchema schema with
  | true =>
    simp only [hinv, if_true] at hmiss ⊢
    obtain ⟨visited, hv, hp⟩ := Catalog.LookupEntry.probe_miss type name false
      ((GetCatalogEntries context catalog.name INVALID_SCHEMA).map
        (fun entry => CatalogLookup.mk catalog entry.schema)) []
      (by
        intro l hl
        obtain ⟨entry, hentry, rfl⟩ := List.mem_map.mp hl
        exact hmiss entry.schema (List.mem_map.mpr ⟨entry, hentry, rfl⟩))
    refine ⟨visited, by simpa using hp, ?_⟩
    intro s
    rw [hv s]
    simp
  | false =>
    simp only [hinv, Bool.false_eq_true, if_false] at hmiss ⊢
    obtain ⟨visited, hv, hp⟩ := Catalog.LookupEntry.probe_miss type name false
      [CatalogLookup.mk catalog schema] []
      (by
        intro l hl
        rw [List.mem_singleton] at hl
        subst hl
        exact hmiss schema (List.mem_singleton.mpr rfl))
    refine ⟨visited, by simpa using hp, ?_⟩
    intro s
    rw [hv s]
    simp

/-- C8: when a lookup over a list of probe sites finds no entry and `if_exists` is false, the
schemas handed to `CreateMissingEntryException` are exactly the schemas that exist at the probe
sites: a site whose schema does not exist contributes nothing and no other schema is included. -/
theorem LookupEntry_missing_schemas (lookups : List CatalogLookup) (type : CatalogType)
    (name : String)
    (hmiss : ∀ l ∈ lookups,
      (l.catalog.LookupEntryInternal type l.schema name).Found = false) :
    ∃ schemas, Catalog.LookupEntry lookups type name false
        = .error (.MissingEntry name type schemas)
      ∧ ∀ s, s ∈ schemas ↔ ∃ l ∈ lookups, l.catalog.GetSchema l.schema = some s := by
  obtain ⟨visited, hv, hp⟩ := Catalog.LookupEntry.probe_miss type name false lookups [] hmiss
  refine ⟨visited, by simpa [Catalog.LookupEntry] using hp, ?_⟩
  intro s
  rw [hv s]
  simp

/-- C8, at the table `nowhere` looked up at `db1.main`, at `db1.nosuch` (a schema that does not
exist) and at `db2.main`: the schemas handed over are `db1.main` and `db2.main`. -/
theorem LookupEntry_missing_schemas_witness :
    (∀ l ∈ [CatalogLookup.mk example_db1 "main", CatalogLookup.mk example_db1 "nosuch",
        CatalogLookup.mk example_db2 "main"],
      (l.catalog.LookupEntryInternal .TABLE_ENTRY l.schema "nowhere").Found = false)
    ∧ Catalog.LookupEntry [CatalogLookup.mk example_db1 "main",
        CatalogLookup.mk example_db1 "nosuch", CatalogLookup.mk example_db2 "main"]
        .TABLE_ENTRY "nowhere" false
        = .error (.MissingEntry "nowhere" .TABLE_ENTRY [example_db1_main, example_db2_main])
    ∧ ∃ schemas, Catalog.LookupEntry [CatalogLookup.mk example_db1 "main",
          CatalogLookup.mk example_db1 "nosuch", CatalogLookup.mk example_db2 "main"]
          .TABLE_ENTRY "nowhere" false = .error (.MissingEntry "nowhere" .TABLE_ENTRY schemas)
        ∧ ∀ s, s ∈ schemas ↔ ∃ l ∈ [CatalogLookup.mk example_db1 "main",
            CatalogLookup.mk example_db1 "nosuch", CatalogLookup.mk example_db2 "main"],
          l.catalog.GetSchema l.schema = some s :=
  ⟨by decide, rfl,
    LookupEntry_missing_schemas [CatalogLookup.mk example_db1 "main",
      CatalogLookup.mk example_db1 "nosuch", CatalogLookup.mk example_db2 "main"]
      .TABLE_ENTRY "nowhere" (by decide)⟩

/-! ## Extension registry: theorems -/

/-- The loop of `std::lower_bound` on a range whose elements satisfying `comp` precede those that
do not: it returns the partition point. Everything before the returned index satisfies `comp`,
nothing from it on does. -/
theorem std.lower_bound.loop_spec {α β : Type} (entries : List α) (value : β)
    (comp : α → β → Bool)
    (hpart : ∀ (i j : Nat) (x y : α), i ≤ j → entries[i]? = some x → entries[j]? = some y →
      comp y value = true → comp x value = true)
    (fuel first len : Nat) (hfuel : len ≤ fuel) (hlen : first + len ≤ entries.length)
    (hlow : ∀ (i : Nat) (x : α), i < first → entries[i]? = some x → comp x value = true)
    (hhigh : ∀ (i : Nat) (x : α), first + len ≤ i → entries[i]? = some x → comp x value = false) :
    std.lower_bound.loop entries value comp fuel first len ≤ entries.length
    ∧ (∀ (i : Nat) (x : α), i < std.lower_bound.loop entries value comp fuel first len →
        entries[i]? = some x → comp x value = true)
    ∧ (∀ (i : Nat) (x : α), std.lower_bound.loop entries value comp fuel first len ≤ i →
        entries[i]? = some x → comp x value = false) := by
  induction fuel generalizing first len with
  | zero =>
    have h0 : len = 0 := Nat.le_zero.mp hfuel
    subst h0
    simp only [std.lower_bound.loop]
    exact ⟨by omega, hlow, fun i x hi => hhigh i x (by omega)⟩
  | succ fuel ih =>
    by_cases hpos : 0 < len
    · have hmid : first + len / 2 < entries.length := by omega
      have hget : entries[first + len / 2]? = some (entries[first + len / 2]) :=
        List.getElem?_eq_getElem hmid
      simp only [std.lower_bound.loop, hpos, if_true, hget]
      cases hc : comp (entries[first + len / 2]) value with
      | true =>
        simp only [if_true]
        apply ih
        · omega
        · omega
        · intro i x hi hx
          exact hpart i (first + len / 2) x _ (by omega) hx hget hc
        · intro i x hi hx
          exact hhigh i x (by omega) hx
      | false =>
        simp only [Bool.false_eq_true, if_false]
        apply ih
        · omega
        · omega
        · exact hlow
        · intro i x hi hx
          cases hx2 : comp x value with
          | false => rfl
          | true =>
            have := hpart (first + len / 2) i _ x hi hget hx hx2
            rw [hc] at this
            cases this
    · have h0 : len = 0 := by omega
      subst h0
      simp only [std.lower_bound.loop, Nat.lt_irrefl, if_false]
      exact ⟨by omega, hlow, fun i x hi => hhigh i x (by omega)⟩

/-- The index `std::lower_bound` returns on a partitioned range is the partition point. -/
theorem std.lower_bound_spec {α β : Type} (entries : List α) (value : β)
    (comp : α → β → Bool)
    (hpart : ∀ (i j : Nat) (x y : α), i ≤ j → entries[i]? = some x → entries[j]? = some y →
      comp y value = true → comp x value = true) :
    std.lower_bound entries value comp ≤ entries.length
    ∧ (∀ (i : Nat) (x : α), i < std.lower_bound entries value comp →
        entries[i]? = some x → comp x value = true)
    ∧ (∀ (i : Nat) (x : α), std.lower_bound entries value comp ≤ i →
        entries[i]? = some x → comp x value = false) := by
  unfold std.lower_bound
  apply std.lower_bound.loop_spec entries value comp hpart
  · exact Nat.le_refl _
  · omega
  · intro i x hi
    omega
  · intro i x hi hx
    have hlt : i < entries.length := (List.getElem?_eq_some.mp hx).1
    omega

/-- In a table sorted ascending by name, the entries whose name is below `value` precede all
others. -/
theorem ExtensionEntry.sorted_partition (entries : List ExtensionEntry) (value : String)
    (hsorted : entries.Pairwise (fun a b => a.name ≤ b.name)) :
    ∀ (i j : Nat) (x y : ExtensionEntry), i ≤ j → entries[i]? = some x → entries[j]? = some y →
      decide (y.name.data < value.data) = true → decide (x.name.data < value.data) = true := by
  intro i j x y hij hx hy hlt
  rcases Nat.eq_or_lt_of_le hij with rfl | hij
  · rw [hx] at hy
    cases hy
    exact hlt
  · obtain ⟨hi, rfl⟩ := List.getElem?_eq_some.mp hx
    obtain ⟨hj, rfl⟩ := List.getElem?_eq_some.mp hy
    have hle : entries[i].name ≤ entries[j].name :=
      List.pairwise_iff_getElem.mp hsorted i j hi hj hij
    rw [decide_eq_true_eq] at hlt ⊢
    exact String.lt_iff_toList_lt.mp (lt_of_le_of_lt hle (String.lt_iff_toList_lt.mpr hlt))

/-- On a table sorted ascending by name, the binary search of `FindExtensionGeneric` finds what a
scan for the first entry named `lowercase(name)` finds. -/
theorem FindExtensionGeneric_eq_find (name : String) (entries : List ExtensionEntry)
    (hsorted : entries.Pairwise (fun a b => a.name ≤ b.name)) :
    FindExtensionGeneric name entries
      = (match entries.find? (fun e => decide (e.name = StringUtil.Lower name)) with
        | some e => e.extension
        | none => "") := by
  obtain ⟨-, hlow, hhigh⟩ := std.lower_bound_spec entries (StringUtil.Lower name)
    (fun element value => decide (element.name.data < value.data))
    (ExtensionEntry.sorted_partition entries (StringUtil.Lower name) hsorted)
  unfold FindExtensionGeneric
  simp only []
  generalize std.lower_bound entries (StringUtil.Lower name)
    (fun element value => decide (element.name.data < value.data)) = r at hlow hhigh ⊢
  simp only [decide_eq_true_eq, decide_eq_false_iff_not] at hlow hhigh
  have hbelow : ∀ (i : Nat) (x : ExtensionEntry), i < r → entries[i]? = some x →
      x.name ≠ StringUtil.Lower name :=
    fun i x hi hx => ne_of_lt (String.lt_iff_toList_lt.mpr (hlow i x hi hx))
  cases hr : entries[r]? with
  | none =>
    have hnone : entries.find? (fun e => decide (e.name = StringUtil.Lower name)) = none := by
      rw [List.find?_eq_none]
      intro x hx
      obtain ⟨i, hi⟩ := List.mem_iff_getElem?.mp hx
      have hir : i < r := by
        by_contra hcon
        have h1 : entries.length ≤ r := List.getElem?_eq_none_iff.mp hr
        have h2 : i < entries.length := (List.getElem?_eq_some.mp hi).1
        omega
      simpa using hbelow i x hir hi
    rw [hnone]
  | some el =>
    by_cases hel : el.name = StringUtil.Lower name
    · have hsome : entries.find? (fun e => decide (e.name = StringUtil.Lower name))
          = some el := by
        rw [List.find?_eq_some]
        refine ⟨by simpa using hel, entries.take r, entries.drop (r + 1), ?_, ?_⟩
        · obtain ⟨hlt, rfl⟩ := List.getElem?_eq_some.mp hr
          rw [← List.drop_eq_getElem_cons hlt, List.take_append_drop]
        · intro a ha
          obtain ⟨i, hi⟩ := List.mem_iff_getElem?.mp ha
          have hir : i < r := by
            by_contra hcon
            rw [List.getElem?_take_eq_none (by omega)] at hi
            cases hi
          rw [List.getElem?_take_of_lt hir] at hi
          simpa using hbelow i a hir hi
      rw [hsome]
      simp [hel]
    · have hnone : entries.find? (fun e => decide (e.name = StringUtil.Lower name)) = none := by
        rw [List.find?_eq_none]
        intro x hx
        obtain ⟨i, hi⟩ := List.mem_iff_getElem?.mp hx
        by_cases hir : i < r
        · simpa using hbelow i x hir hi
        · have hri : r ≤ i := Nat.le_of_not_lt hir
          intro hxn
          rw [decide_eq_true_eq] at hxn
          have h1 : ¬ el.name < StringUtil.Lower name :=
            fun h => hhigh r el (Nat.le_refl r) hr (String.lt_iff_toList_lt.mp h)
          have h2 : el.name ≤ StringUtil.Lower name := by
            rcases Nat.eq_or_lt_of_le hri with rfl | hlt
            · rw [hr] at hi
              cases hi
              exact le_of_eq hxn
            · obtain ⟨hr1, rfl⟩ := List.getElem?_eq_some.mp hr
              obtain ⟨hi1, rfl⟩ := List.getElem?_eq_some.mp hi
              rw [← hxn]
              exact List.pairwise_iff_getElem.mp hsorted r i hr1 hi1 hlt
          exact hel (le_antisymm h2 (not_lt.mp h1))
      rw [hnone]
      simp [hel]

/-- C10: on a table of extension entries sorted ascending by name, `FindExtensionGeneric` returns
the extension of the (first) entry whose name equals `lowercase(q)` if there is one and the empty
string otherwise; two queries with the same lowercase form give the same result. (That the names
of the table are lowercase is not needed.) -/
theorem FindExtensionGeneric_spec (q : String) (entries : List ExtensionEntry)
    (hsorted : entries.Pairwise (fun a b => a.name ≤ b.name)) :
    ((∃ e ∈ entries, e.name = StringUtil.Lower q) →
      ∃ e, entries.find? (fun e => decide (e.name = StringUtil.Lower q)) = some e
        ∧ e ∈ entries ∧ e.name = StringUtil.Lower q
        ∧ FindExtensionGeneric q entries = e.extension)
    ∧ ((∀ e ∈ entries, e.name ≠ StringUtil.Lower q) → FindExtensionGeneric q entries = "")
    ∧ ∀ q2, StringUtil.Lower q2 = StringUtil.Lower q →
        FindExtensionGeneric q2 entries = FindExtensionGeneric q entries := by
  have hfind := FindExtensionGeneric_eq_find q entries hsorted
  refine ⟨?_, ?_, ?_⟩
  · rintro ⟨e0, he0, hn0⟩
    cases hf : entries.find? (fun e => decide (e.name = StringUtil.Lower q)) with
    | none =>
      rw [List.find?_eq_none] at hf
      exact absurd (by simpa using hn0) (hf e0 he0)
    | some e =>
      refine ⟨e, rfl, List.mem_of_find?_eq_some hf, ?_, ?_⟩
      · simpa using List.find?_some hf
      · rw [hfind, hf]
  · intro hnone
    have hf : entries.find? (fun e => decide (e.name = StringUtil.Lower q)) = none := by
      rw [List.find?_eq_none]
      intro x hx
      simpa using hnone x hx
    rw [hfind, hf]
  · intro q2 hq
    unfold FindExtensionGeneric
    rw [hq]

/-- C10, at the example table and the query `H3_LatLng`: the table is sorted, holds `h3_latlng`,
and the result is `h3`, as for the query `h3_latlng`. -/
theorem FindExtensionGeneric_spec_witness :
    example_extension_entries.Pairwise (fun a b => a.name ≤ b.name)
    ∧ FindExtensionGeneric "H3_LatLng" example_extension_entries = "h3"
    ∧ FindExtensionGeneric "h3_latlng" example_extension_entries = "h3"
    ∧ FindExtensionGeneric "h3_latlnh" example_extension_entries = ""
    ∧ (((∃ e ∈ example_extension_entries, e.name = StringUtil.Lower "H3_LatLng") →
        ∃ e, example_extension_entries.find?
            (fun e => decide (e.name = StringUtil.Lower "H3_LatLng")) = some e
          ∧ e ∈ example_extension_entries ∧ e.name = StringUtil.Lower "H3_LatLng"
          ∧ FindExtensionGeneric "H3_LatLng" example_extension_entries = e.extension)
      ∧ ((∀ e ∈ example_extension_entries, e.name ≠ StringUtil.Lower "H3_LatLng") →
          FindExtensionGeneric "H3_LatLng" example_extension_entries = "")
      ∧ ∀ q2, StringUtil.Lower q2 = StringUtil.Lower "H3_LatLng" →
          FindExtensionGeneric q2 example_extension_entries
            = FindExtensionGeneric "H3_LatLng" example_extension_entries) :=
  have hsorted : example_extension_entries.Pairwise (fun a b => a.name ≤ b.name) := by
    simp only [example_extension_entries, List.pairwise_cons, List.mem_cons, List.mem_singleton,
      forall_eq_or_imp, forall_eq, String.le_iff_toList_le]
    decide
  ⟨hsorted, by decide, by decide, by decide,
    FindExtensionGeneric_spec "H3_LatLng" example_extension_entries hsorted⟩

/-! ## Catalog resolution: theorems -/

/-- C16: `Catalog::GetCatalog(context, name)` raises exactly when
`Catalog::GetCatalogEntry(context, name)` is absent, that is when `name` is neither `temp` nor
`system` and the database manager has no database under that name (under the name of the default
database when `name` is unspecified); the message is `Catalog "<name>" does not exist!`, and
otherwise `GetCatalog` returns the catalog `GetCatalogEntry` returns. -/
theorem GetCatalog_spec (context : ClientContext) (name : String) :
    ((∃ err, Catalog.GetCatalog context name = .error err)
      ↔ Catalog.GetCatalogEntry context name = none)
    ∧ (Catalog.GetCatalogEntry context name = none
      ↔ name ≠ TEMP_CATALOG ∧ name ≠ SYSTEM_CATALOG
        ∧ DatabaseManager.GetDatabase context
            (if IsInvalidCatalog name = true then DatabaseManager.GetDefaultDatabase context
             else name) = none)
    ∧ (Catalog.GetCatalogEntry context name = none →
        Catalog.GetCatalog context name
          = .error (.BinderException ("Catalog \"" ++ name ++ "\" does not exist!")))
    ∧ ∀ catalog, Catalog.GetCatalogEntry context name = some catalog →
        Catalog.GetCatalog context name = .ok catalog := by
  refine ⟨?_, ?_, ?_, ?_⟩
  · unfold Catalog.GetCatalog
    cases h : Catalog.GetCatalogEntry context name with
    | none => simp
    | some c => simp
  · unfold Catalog.GetCatalogEntry
    by_cases h1 : name = TEMP_CATALOG
    · simp [h1]
    · by_cases h2 : name = SYSTEM_CATALOG
      · subst h2
        simp [h1]
      · simp [h1, h2]
  · intro h
    simp [Catalog.GetCatalog, h]
  · intro catalog h
    simp [Catalog.GetCatalog, h]

/-- C17: `Catalog::GetCatalogEntry` resolves `temp` to the temporary catalog of the session and
`system` to the system catalog whatever databases are attached, and resolves an unspecified
catalog name to the database registered under the name of the default database. -/
theorem GetCatalogEntry_reserved (context : ClientContext) :
    Catalog.GetCatalogEntry context TEMP_CATALOG = some context.temporary_objects
    ∧ Catalog.GetCatalogEntry context SYSTEM_CATALOG = some context.system
    ∧ (∀ databases : List Catalog,
        Catalog.GetCatalogEntry { context with databases := databases } TEMP_CATALOG
          = some context.temporary_objects
        ∧ Catalog.GetCatalogEntry { context with databases := databases } SYSTEM_CATALOG
          = some context.system)
    ∧ Catalog.GetCatalogEntry context INVALID_CATALOG
        = DatabaseManager.GetDatabase context (DatabaseManager.GetDefaultDatabase context) := by
  refine ⟨?_, ?_, ?_, ?_⟩
  · simp [Catalog.GetCatalogEntry]
  · have h : SYSTEM_CATALOG ≠ TEMP_CATALOG := by decide
    simp [Catalog.GetCatalogEntry, h]
  · intro databases
    have h : SYSTEM_CATALOG ≠ TEMP_CATALOG := by decide
    constructor
    · simp [Catalog.GetCatalogEntry]
    · simp [Catalog.GetCatalogEntry, h]
  · have h1 : INVALID_CATALOG ≠ TEMP_CATALOG := by decide
    have h2 : INVALID_CATALOG ≠ SYSTEM_CATALOG := by decide
    have h3 : IsInvalidCatalog INVALID_CATALOG = true := by decide
    simp [Catalog.GetCatalogEntry, h1, h2, h3]

/-! ## Suggestions: theorems -/

/-- What the loop of `SimilarEntryInSchemas` returns, started from a best match `result`: either
`result` itself, which then is a match no farther than any match of the schemas, or the match of
a schema that is strictly closer than `result` and than every match before it, and no farther than
any match after it. -/
theorem Catalog.SimilarEntryInSchemas.loop_best
    (GetSimilarEntry : SchemaCatalogEntry → CatalogType → String → SimilarCatalogEntry)
    (entry_name : String) (type : CatalogType) (schemas : List SchemaCatalogEntry)
    (result : SimilarCatalogEntry) :
    (Catalog.SimilarEntryInSchemas.loop GetSimilarEntry entry_name type schemas result = result
      ∧ ∀ x ∈ schemas, (GetSimilarEntry x type entry_name).Found = true →
          result.Found = true ∧ result.distance ≤ (GetSimilarEntry x type entry_name).distance)
    ∨ ∃ pre s post, schemas = pre ++ s :: post
        ∧ (GetSimilarEntry s type entry_name).Found = true
        ∧ Catalog.SimilarEntryInSchemas.loop GetSimilarEntry entry_name type schemas result
            = SimilarCatalogEntry.mk (GetSimilarEntry s type entry_name).name
                (GetSimilarEntry s type entry_name).distance (some s)
        ∧ (∀ x ∈ pre, (GetSimilarEntry x type entry_name).Found = true →
            (GetSimilarEntry s type entry_name).distance
              < (GetSimilarEntry x type entry_name).distance)
        ∧ (∀ x ∈ post, (GetSimilarEntry x type entry_name).Found = true →
            (GetSimilarEntry s type entry_name).distance
              ≤ (GetSimilarEntry x type entry_name).distance)
        ∧ (result.Found = true →
            (GetSimilarEntry s type entry_name).distance < result.distance) := by
  induction schemas generalizing result with
  | nil => exact Or.inl ⟨rfl, by simp⟩
  | cons schema rest ih =>
    by_cases hfound : (GetSimilarEntry schema type entry_name).Found = true
    · by_cases hbetter : result.Found = false
          ∨ result.distance > (GetSimilarEntry schema type entry_name).distance
      · have hstep : Catalog.SimilarEntryInSchemas.loop GetSimilarEntry entry_name type
            (schema :: rest) result
            = Catalog.SimilarEntryInSchemas.loop GetSimilarEntry entry_name type rest
                (SimilarCatalogEntry.mk (GetSimilarEntry schema type entry_name).name
                  (GetSimilarEntry schema type entry_name).distance (some schema)) := by
          rcases hbetter with h | h <;> simp [Catalog.SimilarEntryInSchemas.loop, hfound, h]
        have hres : result.Found = true →
            (GetSimilarEntry schema type entry_name).distance < result.distance := by
          intro hr
          rcases hbetter with h | h
          · rw [hr] at h; cases h
          · exact h
        rw [hstep]
        rcases ih (SimilarCatalogEntry.mk (GetSimilarEntry schema type entry_name).name
            (GetSimilarEntry schema type entry_name).distance (some schema)) with
          ⟨heq, hall⟩ | ⟨pre, s, post, hsplit, hs, heq, hpre, hpost, hlt⟩
        · refine Or.inr ⟨[], schema, rest, rfl, hfound, heq, by simp, ?_, hres⟩
          intro x hx hxf
          exact (hall x hx hxf).2
        · have hlt2 : (GetSimilarEntry s type entry_name).distance
              < (GetSimilarEntry schema type entry_name).distance :=
            hlt (by simpa [SimilarCatalogEntry.Found] using hfound)
          refine Or.inr ⟨schema :: pre, s, post, by rw [hsplit]; rfl, hs, heq, ?_, hpost, ?_⟩
          · intro x hx hxf
            rcases List.mem_cons.mp hx with rfl | hx
            · exact hlt2
            · exact hpre x hx hxf
          · intro hr
            exact Nat.lt_trans hlt2 (hres hr)
      · have hrf : result.Found = true := by
          cases h : result.Found with
          | true => rfl
          | false => exact absurd (Or.inl h) hbetter
        have hle : result.distance ≤ (GetSimilarEntry schema type entry_name).distance :=
          Nat.le_of_not_lt (fun h => hbetter (Or.inr h))
        have hstep : Catalog.SimilarEntryInSchemas.loop GetSimilarEntry entry_name type
            (schema :: rest) result
            = Catalog.SimilarEntryInSchemas.loop GetSimilarEntry entry_name type rest result := by
          simp [Catalog.SimilarEntryInSchemas.loop, hfound, hrf, Nat.not_lt.mpr hle]
        rw [hstep]
        rcases ih result with ⟨heq, hall⟩ | ⟨pre, s, post, hsplit, hs, heq, hpre, hpost, hlt⟩
        · refine Or.inl ⟨heq, ?_⟩
          intro x hx hxf
          rcases List.mem_cons.mp hx with rfl | hx
          · exact ⟨hrf, hle⟩
          · exact hall x hx hxf
        · refine Or.inr ⟨schema :: pre, s, post, by rw [hsplit]; rfl, hs, heq, ?_, hpost, hlt⟩
          intro x hx hxf
          rcases List.mem_cons.mp hx with rfl | hx
          · exact Nat.lt_of_lt_of_le (hlt hrf) hle
          · exact hpre x hx hxf
    · have hstep : Catalog.SimilarEntryInSchemas.loop GetSimilarEntry entry_name type
          (schema :: rest) result
          = Catalog.SimilarEntryInSchemas.loop GetSimilarEntry entry_name type rest result := by
        simp [Catalog.SimilarEntryInSchemas.loop, hfound]
      rw [hstep]
      rcases ih result with ⟨heq, hall⟩ | ⟨pre, s, post, hsplit, hs, heq, hpre, hpost, hlt⟩
      · refine Or.inl ⟨heq, ?_⟩
        intro x hx hxf
        rcases List.mem_cons.mp hx with rfl | hx
        · exact absurd hxf hfound
        · exact hall x hx hxf
      · refine Or.inr ⟨schema :: pre, s, post, by rw [hsplit]; rfl, hs, heq, ?_, hpost, hlt⟩
        intro x hx hxf
        rcases List.mem_cons.mp hx with rfl | hx
        · exact absurd hxf hfound
        · exact hpre x hx hxf

/-- C11: `SimilarEntryInSchemas` reports a match exactly when some schema reports one; a match it
returns is the match of one of the schemas, records that schema, is strictly closer than every
match reported by a schema visited before it and no farther than any match reported by a schema
visited after it, so it has minimum distance and is the first visited among those of minimum
distance. The list `schemas` is the reference set in the order the loop visits it. -/
theorem SimilarEntryInSchemas_spec
    (GetSimilarEntry : SchemaCatalogEntry → CatalogType → String → SimilarCatalogEntry)
    (entry_name : String) (type : CatalogType) (schemas : List SchemaCatalogEntry) :
    ((Catalog.SimilarEntryInSchemas GetSimilarEntry entry_name type schemas).Found = true
      ↔ ∃ s ∈ schemas, (GetSimilarEntry s type entry_name).Found = true)
    ∧ ((Catalog.SimilarEntryInSchemas GetSimilarEntry entry_name type schemas).Found = true →
      ∃ pre s post, schemas = pre ++ s :: post
        ∧ (GetSimilarEntry s type entry_name).Found = true
        ∧ Catalog.SimilarEntryInSchemas GetSimilarEntry entry_name type schemas
            = SimilarCatalogEntry.mk (GetSimilarEntry s type entry_name).name
                (GetSimilarEntry s type entry_name).distance (some s)
        ∧ (∀ x ∈ pre, (GetSimilarEntry x type entry_name).Found = true →
            (GetSimilarEntry s type entry_name).distance
              < (GetSimilarEntry x type entry_name).distance)
        ∧ (∀ x ∈ post, (GetSimilarEntry x type entry_name).Found = true →
            (GetSimilarEntry s type entry_name).distance
              ≤ (GetSimilarEntry x type entry_name).distance)) := by
  have hempty : SimilarCatalogEntry.empty.Found = false := by decide
  unfold Catalog.SimilarEntryInSchemas
  rcases Catalog.SimilarEntryInSchemas.loop_best GetSimilarEntry entry_name type schemas
      SimilarCatalogEntry.empty with
    ⟨heq, hall⟩ | ⟨pre, s, post, hsplit, hs, heq, hpre, hpost, -⟩
  · rw [heq]
    refine ⟨?_, ?_⟩
    · constructor
      · intro h; rw [hempty] at h; cases h
      · rintro ⟨x, hx, hxf⟩
        exact (hall x hx hxf).1
    · intro h; rw [hempty] at h; cases h
  · have hf : (Catalog.SimilarEntryInSchemas.loop GetSimilarEntry entry_name type schemas
        SimilarCatalogEntry.empty).Found = true := by
      rw [heq]
      simpa [SimilarCatalogEntry.Found] using hs
    refine ⟨?_, ?_⟩
    · constructor
      · intro _
        exact ⟨s, by rw [hsplit]; simp, hs⟩
      · intro _
        exact hf
    · intro _
      exact ⟨pre, s, post, hsplit, hs, heq, hpre, hpost⟩

/-- C11, at the name `oders` and the two schemas `main` of the second scenario, which both report
`orders` at distance 1: the match of the schema visited first is returned. -/
theorem SimilarEntryInSchemas_spec_witness :
    Catalog.SimilarEntryInSchemas SchemaCatalogEntry.GetSimilarEntry "oders" .TABLE_ENTRY
        [⟨"db1", "main", [⟨.TABLE_ENTRY, "orders", 11⟩]⟩,
          ⟨"db2", "main", [⟨.TABLE_ENTRY, "orders", 12⟩]⟩]
      = ⟨"orders", 1, some ⟨"db1", "main", [⟨.TABLE_ENTRY, "orders", 11⟩]⟩⟩
    ∧ ((Catalog.SimilarEntryInSchemas SchemaCatalogEntry.GetSimilarEntry "oders" .TABLE_ENTRY
          [⟨"db1", "main", [⟨.TABLE_ENTRY, "orders", 11⟩]⟩,
            ⟨"db2", "main", [⟨.TABLE_ENTRY, "orders", 12⟩]⟩]).Found = true
      ↔ ∃ s ∈ [SchemaCatalogEntry.mk "db1" "main" [⟨.TABLE_ENTRY, "orders", 11⟩],
            SchemaCatalogEntry.mk "db2" "main" [⟨.TABLE_ENTRY, "orders", 12⟩]],
          (SchemaCatalogEntry.GetSimilarEntry s .TABLE_ENTRY "oders").Found = true) :=
  ⟨by decide,
    (SimilarEntryInSchemas_spec SchemaCatalogEntry.GetSimilarEntry "oders" .TABLE_ENTRY
      [⟨"db1", "main", [⟨.TABLE_ENTRY, "orders", 11⟩]⟩,
        ⟨"db2", "main", [⟨.TABLE_ENTRY, "orders", 12⟩]⟩]).1⟩

/-- A match returned by `SimilarEntryInSchemas` is the match of one of the schemas and records
that schema. -/
theorem Catalog.SimilarEntryInSchemas.found_schema
    (GetSimilarEntry : SchemaCatalogEntry → CatalogType → String → SimilarCatalogEntry)
    (entry_name : String) (type : CatalogType) (schemas : List SchemaCatalogEntry)
    (hfound : (Catalog.SimilarEntryInSchemas GetSimilarEntry entry_name type schemas).Found
      = true) :
    ∃ s ∈ schemas, (GetSimilarEntry s type entry_name).Found = true
      ∧ Catalog.SimilarEntryInSchemas GetSimilarEntry entry_name type schemas
        = SimilarCatalogEntry.mk (GetSimilarEntry s type entry_name).name
            (GetSimilarEntry s type entry_name).distance (some s) := by
  unfold Catalog.SimilarEntryInSchemas at hfound ⊢
  rcases Catalog.SimilarEntryInSchemas.loop_best GetSimilarEntry entry_name type schemas
      SimilarCatalogEntry.empty with
    ⟨heq, -⟩ | ⟨pre, s, post, hsplit, hs, heq, -, -, -⟩
  · rw [heq] at hfound
    exact absurd hfound (by decide)
  · exact ⟨s, by rw [hsplit]; simp, hs, heq⟩

/-- When no schema reports a match, `SimilarEntryInSchemas` returns the default value. -/
theorem Catalog.SimilarEntryInSchemas.not_found
    (GetSimilarEntry : SchemaCatalogEntry → CatalogType → String → SimilarCatalogEntry)
    (entry_name : String) (type : CatalogType) (schemas : List SchemaCatalogEntry)
    (hnone : ∀ s ∈ schemas, (GetSimilarEntry s type entry_name).Found = false) :
    Catalog.SimilarEntryInSchemas GetSimilarEntry entry_name type schemas
      = SimilarCatalogEntry.empty := by
  unfold Catalog.SimilarEntryInSchemas
  rcases Catalog.SimilarEntryInSchemas.loop_best GetSimilarEntry entry_name type schemas
      SimilarCatalogEntry.empty with
    ⟨heq, -⟩ | ⟨pre, s, post, hsplit, hs, -, -, -, -⟩
  · exact heq
  · have hmem : s ∈ schemas := by rw [hsplit]; simp
    rw [hnone s hmem] at hs
    cases hs

/-- C12: in `CreateMissingEntryException` the did-you-mean hint names the global match, qualified
as `FindMinimalQualification` prescribes for the catalog and schema of that match, exactly when a
global match is found and its distance is strictly smaller than that of the local match;
otherwise it names the local match unqualified if one was found; otherwise the hint is empty. A
global match at the same distance as a local match does not replace it. Whenever the extension
hint does not apply, the message ends in that hint. -/
theorem CreateMissingEntryException_hint
    (GetSimilarEntry : SchemaCatalogEntry → CatalogType → String → SimilarCatalogEntry)
    (EXTENSION_FUNCTIONS : List ExtensionEntry) (context : ClientContext) (entry_name : String)
    (type : CatalogType) (schemas : List SchemaCatalogEntry)
    (entry unseen_entry : SimilarCatalogEntry)
    (hentry : entry = Catalog.SimilarEntryInSchemas GetSimilarEntry entry_name type schemas)
    (hunseen : unseen_entry = Catalog.SimilarEntryInSchemas GetSimilarEntry entry_name type
      (Catalog.CreateMissingEntryException.unseen_schemas context)) :
    ((unseen_entry.Found = true ∧ unseen_entry.distance < entry.distance) →
      ∃ schema ∈ Catalog.CreateMissingEntryException.unseen_schemas context,
        unseen_entry.schema = some schema
        ∧ Catalog.CreateMissingEntryException.did_you_mean GetSimilarEntry context entry_name
            type entry
          = "\nDid you mean \"" ++ unseen_entry.GetQualifiedName
              (FindMinimalQualification context schema.catalog schema.name).1
              (FindMinimalQualification context schema.catalog schema.name).2 ++ "\"?")
    ∧ (¬ (unseen_entry.Found = true ∧ unseen_entry.distance < entry.distance) →
        entry.Found = true →
        Catalog.CreateMissingEntryException.did_you_mean GetSimilarEntry context entry_name
            type entry
          = "\nDid you mean \"" ++ entry.name ++ "\"?")
    ∧ (¬ (unseen_entry.Found = true ∧ unseen_entry.distance < entry.distance) →
        entry.Found = false →
        Catalog.CreateMissingEntryException.did_you_mean GetSimilarEntry context entry_name
            type entry = "")
    ∧ (entry.Found = true → unseen_entry.distance = entry.distance →
        Catalog.CreateMissingEntryException.did_you_mean GetSimilarEntry context entry_name
            type entry
          = "\nDid you mean \"" ++ entry.name ++ "\"?")
    ∧ ((Catalog.CreateMissingEntryException.is_function type = false
          ∨ FindExtensionForFunction EXTENSION_FUNCTIONS entry_name = "") →
        Catalog.CreateMissingEntryException GetSimilarEntry EXTENSION_FUNCTIONS context
            entry_name type schemas
          = CatalogTypeToString type ++ " with name " ++ entry_name ++ " does not exist!"
            ++ Catalog.CreateMissingEntryException.did_you_mean GetSimilarEntry context
                entry_name type entry) := by
  have hlocal : ¬ (unseen_entry.Found = true ∧ unseen_entry.distance < entry.distance) →
      entry.Found = true →
      Catalog.CreateMissingEntryException.did_you_mean GetSimilarEntry context entry_name
          type entry
        = "\nDid you mean \"" ++ entry.name ++ "\"?" := by
    intro hnot hf
    unfold Catalog.CreateMissingEntryException.did_you_mean
    rw [← hunseen]
    have hcond : (unseen_entry.Found && decide (unseen_entry.distance < entry.distance))
        = false := by
      cases h1 : unseen_entry.Found with
      | false => rfl
      | true =>
        have : ¬ unseen_entry.distance < entry.distance := fun h => hnot ⟨h1, h⟩
        simp [this]
    simp only [hcond, hf, Bool.false_eq_true, if_false, if_true]
  refine ⟨?_, hlocal, ?_, ?_, ?_⟩
  · rintro ⟨hf, hlt⟩
    have hf2 := hf
    rw [hunseen] at hf2
    obtain ⟨schema, hmem, -, heq⟩ := Catalog.SimilarEntryInSchemas.found_schema GetSimilarEntry
      entry_name type _ hf2
    have hschema : unseen_entry.schema = some schema := by rw [hunseen, heq]
    refine ⟨schema, hmem, hschema, ?_⟩
    unfold Catalog.CreateMissingEntryException.did_you_mean
    rw [← hunseen]
    simp only [hf, hlt, decide_True, Bool.and_self, if_true, hschema]
  · intro hnot hf
    unfold Catalog.CreateMissingEntryException.did_you_mean
    rw [← hunseen]
    have hcond : (unseen_entry.Found && decide (unseen_entry.distance < entry.distance))
        = false := by
      cases h1 : unseen_entry.Found with
      | false => rfl
      | true =>
        have : ¬ unseen_entry.distance < entry.distance := fun h => hnot ⟨h1, h⟩
        simp [this]
    simp only [hcond, hf, Bool.false_eq_true, if_false]
  · intro hf hd
    exact hlocal (fun h => by omega) hf
  · intro hno
    unfold Catalog.CreateMissingEntryException
    rw [← hentry]
    have hext : (if Catalog.CreateMissingEntryException.is_function type = true then
        FindExtensionForFunction EXTENSION_FUNCTIONS entry_name else "") = "" := by
      rcases hno with h | h
      · simp [h]
      · simp [h]
    simp only [hext, ne_eq, not_true_eq_false, if_false]

/-- C12, at the second scenario of the spec: `oders` is looked up in `db2`, whose `main.orders`
is the local match at distance 1; the global match `orders` of `db1.main` is at the same distance
and does not replace it. -/
theorem CreateMissingEntryException_hint_witness :
    (SimilarCatalogEntry.mk "orders" 1 (some ⟨"db2", "main", [⟨.TABLE_ENTRY, "orders", 12⟩]⟩)
      = Catalog.SimilarEntryInSchemas SchemaCatalogEntry.GetSimilarEntry "oders" .TABLE_ENTRY
          [⟨"db2", "main", [⟨.TABLE_ENTRY, "orders", 12⟩]⟩])
    ∧ (SimilarCatalogEntry.mk "orders" 1 (some ⟨"db1", "main", [⟨.TABLE_ENTRY, "orders", 11⟩]⟩)
      = Catalog.SimilarEntryInSchemas SchemaCatalogEntry.GetSimilarEntry "oders" .TABLE_ENTRY
          (Catalog.CreateMissingEntryException.unseen_schemas scenario_orders))
    ∧ Catalog.GetEntry scenario_orders .TABLE_ENTRY "db2" INVALID_SCHEMA "oders" false
      = .error (.MissingEntry "oders" .TABLE_ENTRY
          [⟨"db2", "main", [⟨.TABLE_ENTRY, "orders", 12⟩]⟩])
    ∧ Catalog.CreateMissingEntryException SchemaCatalogEntry.GetSimilarEntry
        example_extension_entries scenario_orders "oders" .TABLE_ENTRY
        [⟨"db2", "main", [⟨.TABLE_ENTRY, "orders", 12⟩]⟩]
      = "Table with name oders does not exist!\nDid you mean \"orders\"?"
    ∧ Catalog.CreateMissingEntryException.did_you_mean SchemaCatalogEntry.GetSimilarEntry
        scenario_orders "oders" .TABLE_ENTRY
        (SimilarCatalogEntry.mk "orders" 1
          (some ⟨"db2", "main", [⟨.TABLE_ENTRY, "orders", 12⟩]⟩))
      = "\nDid you mean \"" ++ "orders" ++ "\"?" :=
  ⟨by decide, by decide, rfl, by decide,
    (CreateMissingEntryException_hint SchemaCatalogEntry.GetSimilarEntry
      example_extension_entries scenario_orders "oders" .TABLE_ENTRY
      [⟨"db2", "main", [⟨.TABLE_ENTRY, "orders", 12⟩]⟩]
      (SimilarCatalogEntry.mk "orders" 1 (some ⟨"db2", "main", [⟨.TABLE_ENTRY, "orders", 12⟩]⟩))
      (SimilarCatalogEntry.mk "orders" 1 (some ⟨"db1", "main", [⟨.TABLE_ENTRY, "orders", 11⟩]⟩))
      (by decide) (by decide)).2.2.2.1 (by decide) rfl⟩

/-- C13: for a missing entry of kind table function, scalar function or aggregate function whose
lowercase name is listed in the extension function registry (a table sorted by name; the listed
entry names an extension), the message is the extension hint that names that extension and
instructs `INSTALL <ext>; LOAD <ext>;`. For every other kind the registry plays no part: the
message is the same for every registry and has the `does not exist` form. -/
theorem CreateMissingEntryException_extension
    (GetSimilarEntry : SchemaCatalogEntry → CatalogType → String → SimilarCatalogEntry)
    (EXTENSION_FUNCTIONS : List ExtensionEntry) (context : ClientContext) (entry_name : String)
    (type : CatalogType) (schemas : List SchemaCatalogEntry) :
    ((type = .TABLE_FUNCTION_ENTRY ∨ type = .SCALAR_FUNCTION_ENTRY
        ∨ type = .AGGREGATE_FUNCTION_ENTRY) →
      EXTENSION_FUNCTIONS.Pairwise (fun a b => a.name ≤ b.name) →
      (∃ e ∈ EXTENSION_FUNCTIONS, e.name = StringUtil.Lower entry_name) →
      (∀ e ∈ EXTENSION_FUNCTIONS, e.name = StringUtil.Lower entry_name → e.extension ≠ "") →
      ∃ e ∈ EXTENSION_FUNCTIONS, e.name = StringUtil.Lower entry_name
        ∧ Catalog.CreateMissingEntryException GetSimilarEntry EXTENSION_FUNCTIONS context
            entry_name type schemas
          = "Function with name \"" ++ entry_name
              ++ "\" is not in the catalog, but it exists in the " ++ e.extension
              ++ " extension.\n\nTo install and load the extension, run:\nINSTALL "
              ++ e.extension ++ ";\nLOAD " ++ e.extension ++ ";")
    ∧ ((type ≠ .TABLE_FUNCTION_ENTRY ∧ type ≠ .SCALAR_FUNCTION_ENTRY
        ∧ type ≠ .AGGREGATE_FUNCTION_ENTRY) →
      (∀ other : List ExtensionEntry,
        Catalog.CreateMissingEntryException GetSimilarEntry other context entry_name type
            schemas
          = Catalog.CreateMissingEntryException GetSimilarEntry EXTENSION_FUNCTIONS context
              entry_name type schemas)
      ∧ Catalog.CreateMissingEntryException GetSimilarEntry EXTENSION_FUNCTIONS context
            entry_name type schemas
          = CatalogTypeToString type ++ " with name " ++ entry_name ++ " does not exist!"
            ++ Catalog.CreateMissingEntryException.did_you_mean GetSimilarEntry context
                entry_name type
                (Catalog.SimilarEntryInSchemas GetSimilarEntry entry_name type schemas)) := by
  constructor
  · intro hkind hsorted hlisted hnamed
    have hfun : Catalog.CreateMissingEntryException.is_function type = true := by
      rcases hkind with h | h | h <;> subst h <;> rfl
    have hfind := FindExtensionGeneric_eq_find entry_name EXTENSION_FUNCTIONS hsorted
    cases hf : EXTENSION_FUNCTIONS.find?
        (fun e => decide (e.name = StringUtil.Lower entry_name)) with
    | none =>
      rw [List.find?_eq_none] at hf
      obtain ⟨e0, he0, hn0⟩ := hlisted
      exact absurd (by simpa using hn0) (hf e0 he0)
    | some e =>
      have hmem : e ∈ EXTENSION_FUNCTIONS := List.mem_of_find?_eq_some hf
      have hname : e.name = StringUtil.Lower entry_name := by
        simpa using List.find?_some hf
      rw [hf] at hfind
      refine ⟨e, hmem, hname, ?_⟩
      unfold Catalog.CreateMissingEntryException
      simp only [hfun, if_true, FindExtensionForFunction, hfind, ne_eq, hnamed e hmem hname,
        not_false_eq_true]
  · rintro ⟨h1, h2, h3⟩
    have hfun : Catalog.CreateMissingEntryException.is_function type = false := by
      simp [Catalog.CreateMissingEntryException.is_function, h1, h2, h3]
    refine ⟨?_, ?_⟩
    · intro other
      unfold Catalog.CreateMissingEntryException
      simp only [hfun, Bool.false_eq_true, if_false]
    · unfold Catalog.CreateMissingEntryException
      simp only [hfun, Bool.false_eq_true, if_false, ne_eq, not_true_eq_false]

/-- C13, at the fourth scenario of the spec: the scalar function `H3_LatLng` is missing and the
registry lists `h3_latlng` for the extension `h3`. -/
theorem CreateMissingEntryException_extension_witness :
    (CatalogType.SCALAR_FUNCTION_ENTRY = .TABLE_FUNCTION_ENTRY
      ∨ CatalogType.SCALAR_FUNCTION_ENTRY = .SCALAR_FUNCTION_ENTRY
      ∨ CatalogType.SCALAR_FUNCTION_ENTRY = .AGGREGATE_FUNCTION_ENTRY)
    ∧ example_extension_entries.Pairwise (fun a b => a.name ≤ b.name)
    ∧ (∃ e ∈ example_extension_entries, e.name = StringUtil.Lower "H3_LatLng")
    ∧ (∀ e ∈ example_extension_entries, e.name = StringUtil.Lower "H3_LatLng" →
        e.extension ≠ "")
    ∧ Catalog.CreateMissingEntryException SchemaCatalogEntry.GetSimilarEntry
        example_extension_entries scenario_widgets "H3_LatLng" .SCALAR_FUNCTION_ENTRY
        [⟨"db1", "main", []⟩]
      = "Function with name \"H3_LatLng\" is not in the catalog, but it exists in the h3 extension.\n\nTo install and load the extension, run:\nINSTALL h3;\nLOAD h3;"
    ∧ (∃ e ∈ example_extension_entries, e.name = StringUtil.Lower "H3_LatLng"
        ∧ Catalog.CreateMissingEntryException SchemaCatalogEntry.GetSimilarEntry
            example_extension_entries scenario_widgets "H3_LatLng" .SCALAR_FUNCTION_ENTRY
            [⟨"db1", "main", []⟩]
          = "Function with name \"" ++ "H3_LatLng"
              ++ "\" is not in the catalog, but it exists in the " ++ e.extension
              ++ " extension.\n\nTo install and load the extension, run:\nINSTALL "
              ++ e.extension ++ ";\nLOAD " ++ e.extension ++ ";")
    ∧ (CatalogType.TABLE_ENTRY ≠ .TABLE_FUNCTION_ENTRY
      ∧ CatalogType.TABLE_ENTRY ≠ .SCALAR_FUNCTION_ENTRY
      ∧ CatalogType.TABLE_ENTRY ≠ .AGGREGATE_FUNCTION_ENTRY)
    ∧ Catalog.CreateMissingEntryException SchemaCatalogEntry.GetSimilarEntry
        example_extension_entries scenario_widgets "H3_LatLng" .TABLE_ENTRY
        [⟨"db1", "main", []⟩]
      = "Table with name H3_LatLng does not exist!\nDid you mean \"db2.s2.widgets\"?"
    ∧ ∀ other : List ExtensionEntry,
        Catalog.CreateMissingEntryException SchemaCatalogEntry.GetSimilarEntry other
            scenario_widgets "H3_LatLng" .TABLE_ENTRY [⟨"db1", "main", []⟩]
          = Catalog.CreateMissingEntryException SchemaCatalogEntry.GetSimilarEntry
              example_extension_entries scenario_widgets "H3_LatLng" .TABLE_ENTRY
              [⟨"db1", "main", []⟩] :=
  have hsorted : example_extension_entries.Pairwise (fun a b => a.name ≤ b.name) := by
    simp only [example_extension_entries, List.pairwise_cons, List.mem_cons, List.mem_singleton,
      forall_eq_or_imp, forall_eq, String.le_iff_toList_le]
    decide
  ⟨by decide, hsorted, by decide, by decide, by decide,
    (CreateMissingEntryException_extension SchemaCatalogEntry.GetSimilarEntry
      example_extension_entries scenario_widgets "H3_LatLng" .SCALAR_FUNCTION_ENTRY
      [⟨"db1", "main", []⟩]).1 (by decide) hsorted (by decide) (by decide),
    by decide, by decide,
    ((CreateMissingEntryException_extension SchemaCatalogEntry.GetSimilarEntry
      example_extension_entries scenario_widgets "H3_LatLng" .TABLE_ENTRY
      [⟨"db1", "main", []⟩]).2 (by decide)).1⟩

/-- The string `did_you_mean` is empty or has the form `\nDid you mean "<q>"?`. -/
theorem Catalog.CreateMissingEntryException.did_you_mean_form
    (GetSimilarEntry : SchemaCatalogEntry → CatalogType → String → SimilarCatalogEntry)
    (context : ClientContext) (entry_name : String) (type : CatalogType)
    (entry : SimilarCatalogEntry) :
    Catalog.CreateMissingEntryException.did_you_mean GetSimilarEntry context entry_name type
        entry = ""
    ∨ ∃ q, Catalog.CreateMissingEntryException.did_you_mean GetSimilarEntry context entry_name
        type entry = "\nDid you mean \"" ++ q ++ "\"?" := by
  unfold Catalog.CreateMissingEntryException.did_you_mean
  simp only []
  split
  · exact Or.inr ⟨_, rfl⟩
  · split
    · exact Or.inr ⟨_, rfl⟩
    · exact Or.inl rfl

/-- C14: when no extension hint applies, the message built by `CreateMissingEntryException` is
exactly `<kind name> with name <name> does not exist!` followed either by nothing or by a newline
and `Did you mean "<q>"?`. For kind `Table`, the name `custmers` and the local match `customers`,
with no global match strictly closer, it is
`Table with name custmers does not exist!\nDid you mean "customers"?`. -/
theorem CreateMissingEntryException_message
    (GetSimilarEntry : SchemaCatalogEntry → CatalogType → String → SimilarCatalogEntry)
    (EXTENSION_FUNCTIONS : List ExtensionEntry) (context : ClientContext) (entry_name : String)
    (type : CatalogType) (schemas : List SchemaCatalogEntry) :
    ((Catalog.CreateMissingEntryException.is_function type = false
        ∨ FindExtensionForFunction EXTENSION_FUNCTIONS entry_name = "") →
      Catalog.CreateMissingEntryException GetSimilarEntry EXTENSION_FUNCTIONS context
          entry_name type schemas
        = CatalogTypeToString type ++ " with name " ++ entry_name ++ " does not exist!"
      ∨ ∃ q, Catalog.CreateMissingEntryException GetSimilarEntry EXTENSION_FUNCTIONS context
          entry_name type schemas
        = CatalogTypeToString type ++ " with name " ++ entry_name ++ " does not exist!"
          ++ ("\nDid you mean \"" ++ q ++ "\"?"))
    ∧ ((Catalog.SimilarEntryInSchemas GetSimilarEntry "custmers" .TABLE_ENTRY schemas).name
          = "customers" →
      ¬ ((Catalog.SimilarEntryInSchemas GetSimilarEntry "custmers" .TABLE_ENTRY
            (Catalog.CreateMissingEntryException.unseen_schemas context)).Found = true
          ∧ (Catalog.SimilarEntryInSchemas GetSimilarEntry "custmers" .TABLE_ENTRY
              (Catalog.CreateMissingEntryException.unseen_schemas context)).distance
            < (Catalog.SimilarEntryInSchemas GetSimilarEntry "custmers" .TABLE_ENTRY
                schemas).distance) →
      Catalog.CreateMissingEntryException GetSimilarEntry EXTENSION_FUNCTIONS context
          "custmers" .TABLE_ENTRY schemas
        = "Table with name custmers does not exist!\nDid you mean \"customers\"?") := by
  constructor
  · intro hno
    have hext : (if Catalog.CreateMissingEntryException.is_function type = true then
        FindExtensionForFunction EXTENSION_FUNCTIONS entry_name else "") = "" := by
      rcases hno with h | h
      · simp [h]
      · simp [h]
    unfold Catalog.CreateMissingEntryException
    simp only [hext, ne_eq, not_true_eq_false, if_false]
    rcases Catalog.CreateMissingEntryException.did_you_mean_form GetSimilarEntry context
        entry_name type
        (Catalog.SimilarEntryInSchemas GetSimilarEntry entry_name type schemas) with h | ⟨q, h⟩
    · left
      rw [h, String.append_empty]
    · right
      exact ⟨q, by rw [h]⟩
  · intro hname hnot
    have hcond : ((Catalog.SimilarEntryInSchemas GetSimilarEntry "custmers" .TABLE_ENTRY
          (Catalog.CreateMissingEntryException.unseen_schemas context)).Found
        && decide ((Catalog.SimilarEntryInSchemas GetSimilarEntry "custmers" .TABLE_ENTRY
              (Catalog.CreateMissingEntryException.unseen_schemas context)).distance
            < (Catalog.SimilarEntryInSchemas GetSimilarEntry "custmers" .TABLE_ENTRY
                schemas).distance)) = false := by
      cases h1 : (Catalog.SimilarEntryInSchemas GetSimilarEntry "custmers" .TABLE_ENTRY
          (Catalog.CreateMissingEntryException.unseen_schemas context)).Found with
      | false => rfl
      | true =>
        have hge := Nat.le_of_not_lt (fun h => hnot ⟨h1, h⟩)
        simp [hge]
    have hfound : (Catalog.SimilarEntryInSchemas GetSimilarEntry "custmers" .TABLE_ENTRY
        schemas).Found = true := by
      simp [SimilarCatalogEntry.Found, hname]
    have hfun : Catalog.CreateMissingEntryException.is_function .TABLE_ENTRY = false := rfl
    unfold Catalog.CreateMissingEntryException Catalog.CreateMissingEntryException.did_you_mean
    simp only [hfun, Bool.false_eq_true, if_false, ne_eq, not_true_eq_false, hcond, hfound,
      if_true, hname]
    rfl

/-- C14, at the first scenario of the spec: the only table is `customers` in `db1.main`, the
search path is `db1.main`, and the table `custmers` is requested. -/
theorem CreateMissingEntryException_message_witness :
    Catalog.GetEntry scenario_customers .TABLE_ENTRY INVALID_CATALOG INVALID_SCHEMA "custmers"
        false
      = .error (.MissingEntry "custmers" .TABLE_ENTRY
          [⟨"db1", "main", [⟨.TABLE_ENTRY, "customers", 10⟩]⟩])
    ∧ (Catalog.SimilarEntryInSchemas SchemaCatalogEntry.GetSimilarEntry "custmers" .TABLE_ENTRY
        [⟨"db1", "main", [⟨.TABLE_ENTRY, "customers", 10⟩]⟩]).name = "customers"
    ∧ ¬ ((Catalog.SimilarEntryInSchemas SchemaCatalogEntry.GetSimilarEntry "custmers"
            .TABLE_ENTRY
            (Catalog.CreateMissingEntryException.unseen_schemas scenario_customers)).Found = true
          ∧ (Catalog.SimilarEntryInSchemas SchemaCatalogEntry.GetSimilarEntry "custmers"
              .TABLE_ENTRY
              (Catalog.CreateMissingEntryException.unseen_schemas scenario_customers)).distance
            < (Catalog.SimilarEntryInSchemas SchemaCatalogEntry.GetSimilarEntry "custmers"
                .TABLE_ENTRY [⟨"db1", "main", [⟨.TABLE_ENTRY, "customers", 10⟩]⟩]).distance)
    ∧ Catalog.CreateMissingEntryException SchemaCatalogEntry.GetSimilarEntry
        example_extension_entries scenario_customers "custmers" .TABLE_ENTRY
        [⟨"db1", "main", [⟨.TABLE_ENTRY, "customers", 10⟩]⟩]
      = "Table with name custmers does not exist!\nDid you mean \"customers\"?" :=
  ⟨rfl, by decide, by decide,
    (CreateMissingEntryException_message SchemaCatalogEntry.GetSimilarEntry
      example_extension_entries scenario_customers "custmers" .TABLE_ENTRY
      [⟨"db1", "main", [⟨.TABLE_ENTRY, "customers", 10⟩]⟩]).2 (by decide) (by decide)⟩

/-- Appending to a non-empty string gives a non-empty string. -/
theorem append_ne_empty (a b : String) (ha : a ≠ "") : a ++ b ≠ "" := by
  intro h
  apply ha
  have hdata : (a ++ b).data = ("" : String).data := by rw [h]
  rw [String.data_append] at hdata
  have hnil : a.data = [] := (List.append_eq_nil.mp hdata).1
  exact String.ext hnil

/-- A site `(C, S)` whose catalog appears nowhere in the search path and is not the default
database, and whose schema is not the default schema, is in neither of the two probe-site lists
`FindMinimalQualification` consults: both the catalog and the schema must be given. -/
theorem FindMinimalQualification.unlisted (context : ClientContext)
    (paths : List CatalogSearchEntry) (C S : String)
    (hpath : context.catalog_search_path = CatalogSearchPath.ofPaths paths)
    (hnowhere : ∀ p ∈ paths, p.catalog ≠ C)
    (hdefault : DatabaseManager.GetDefaultDatabase context ≠ C)
    (hschema : S ≠ DEFAULT_SCHEMA)
    (hnamed : C ≠ "") :
    CatalogSearchEntry.mk C S ∉ GetCatalogEntries context INVALID_CATALOG S
    ∧ CatalogSearchEntry.mk C S ∉ GetCatalogEntries context C INVALID_SCHEMA
    ∧ FindMinimalQualification context C S = (true, true) := by
  have h1 : CatalogSearchEntry.mk C S ∉ GetCatalogEntries context INVALID_CATALOG S := by
    intro hmem
    unfold GetCatalogEntries at hmem
    rw [hpath] at hmem
    simp only [CatalogSearchPath.ofPaths, IsInvalidCatalog, INVALID_CATALOG, decide_True,
      Bool.true_and, if_true] at hmem
    split at hmem
    · exact hnowhere _ hmem rfl
    · split at hmem
      · rw [List.mem_singleton] at hmem
        exact hdefault (CatalogSearchEntry.mk.inj hmem).1.symm
      · simp only [List.map_map, List.mem_map, List.mem_filter] at hmem
        obtain ⟨p, ⟨hp, -⟩, heq⟩ := hmem
        exact hnowhere p hp (CatalogSearchEntry.mk.inj heq).1
  have hcat : IsInvalidCatalog C = false := by
    simp [IsInvalidCatalog, INVALID_CATALOG, hnamed]
  have hnone : (paths.filter (fun p => decide (p.catalog = C))) = [] := by
    rw [List.filter_eq_nil_iff]
    intro p hp
    simpa using hnowhere p hp
  have h2 : CatalogSearchEntry.mk C S ∉ GetCatalogEntries context C INVALID_SCHEMA := by
    intro hmem
    unfold GetCatalogEntries at hmem
    rw [hpath] at hmem
    simp only [CatalogSearchPath.ofPaths, hcat, IsInvalidSchema, INVALID_SCHEMA, decide_True,
      Bool.false_and, Bool.false_eq_true, if_false, if_true, hnone, List.map_nil,
      List.isEmpty_nil, List.mem_singleton] at hmem
    exact hschema (CatalogSearchEntry.mk.inj hmem).2
  refine ⟨h1, h2, ?_⟩
  have f1 : FindMinimalQualification.found C S (GetCatalogEntries context INVALID_CATALOG S)
      = false := by
    cases h : FindMinimalQualification.found C S (GetCatalogEntries context INVALID_CATALOG S)
    · rfl
    · exact absurd ((FindMinimalQualification.found_iff C S _).mp h) h1
  have f2 : FindMinimalQualification.found C S (GetCatalogEntries context C INVALID_SCHEMA)
      = false := by
    cases h : FindMinimalQualification.found C S (GetCatalogEntries context C INVALID_SCHEMA)
    · rfl
    · exact absurd ((FindMinimalQualification.found_iff C S _).mp h) h2
  simp [FindMinimalQualification, f1, f2]

/-- C15: for a lookup that misses, when no visited schema reports a similar entry and the only
similar entry lives in a schema `S` of a catalog `C` that appears nowhere in the search path and
is not the default database, with `S` not the default schema, the site `(C, S)` is in neither
probe-site list, both parts are qualified, and the hint is the fully qualified name
`C.S.name`. -/
theorem CreateMissingEntryException_fully_qualified
    (GetSimilarEntry : SchemaCatalogEntry → CatalogType → String → SimilarCatalogEntry)
    (context : ClientContext) (entry_name : String) (type : CatalogType)
    (schemas : List SchemaCatalogEntry) (paths : List CatalogSearchEntry)
    (schema : SchemaCatalogEntry)
    (hpath : context.catalog_search_path = CatalogSearchPath.ofPaths paths)
    (hnowhere : ∀ p ∈ paths, p.catalog ≠ schema.catalog)
    (hdefault : DatabaseManager.GetDefaultDatabase context ≠ schema.catalog)
    (hschema : schema.name ≠ DEFAULT_SCHEMA)
    (hnamed : schema.catalog ≠ "")
    (hlocal : ∀ x ∈ schemas, (GetSimilarEntry x type entry_name).Found = false)
    (hmem : schema ∈ Catalog.CreateMissingEntryException.unseen_schemas context)
    (hmatch : (GetSimilarEntry schema type entry_name).Found = true)
    (hdist : (GetSimilarEntry schema type entry_name).distance < 18446744073709551615)
    (honly : ∀ x ∈ Catalog.CreateMissingEntryException.unseen_schemas context, x ≠ schema →
      (GetSimilarEntry x type entry_name).Found = false) :
    CatalogSearchEntry.mk schema.catalog schema.name
        ∉ GetCatalogEntries context INVALID_CATALOG schema.name
    ∧ CatalogSearchEntry.mk schema.catalog schema.name
        ∉ GetCatalogEntries context schema.catalog INVALID_SCHEMA
    ∧ FindMinimalQualification context schema.catalog schema.name = (true, true)
    ∧ Catalog.CreateMissingEntryException.did_you_mean GetSimilarEntry context entry_name type
        (Catalog.SimilarEntryInSchemas GetSimilarEntry entry_name type schemas)
      = "\nDid you mean \"" ++ (schema.catalog ++ "." ++ schema.name ++ "."
          ++ (GetSimilarEntry schema type entry_name).name) ++ "\"?" := by
  obtain ⟨h1, h2, hq⟩ := FindMinimalQualification.unlisted context paths schema.catalog
    schema.name hpath hnowhere hdefault hschema hnamed
  refine ⟨h1, h2, hq, ?_⟩
  have hentry := Catalog.SimilarEntryInSchemas.not_found GetSimilarEntry entry_name type schemas
    hlocal
  have hunseen : Catalog.SimilarEntryInSchemas GetSimilarEntry entry_name type
      (Catalog.CreateMissingEntryException.unseen_schemas context)
      = SimilarCatalogEntry.mk (GetSimilarEntry schema type entry_name).name
          (GetSimilarEntry schema type entry_name).distance (some schema) := by
    unfold Catalog.SimilarEntryInSchemas
    rcases Catalog.SimilarEntryInSchemas.loop_best GetSimilarEntry entry_name type
        (Catalog.CreateMissingEntryException.unseen_schemas context)
        SimilarCatalogEntry.empty with
      ⟨-, hall⟩ | ⟨pre, s, post, hsplit, hs, heq, -, -, -⟩
    · exact absurd (hall schema hmem hmatch).1 (by decide)
    · have hsmem : s ∈ Catalog.CreateMissingEntryException.unseen_schemas context := by
        rw [hsplit]; simp
      have hs_eq : s = schema := by
        by_contra hne
        rw [honly s hsmem hne] at hs
        cases hs
      rw [heq, hs_eq]
  have hfound : (SimilarCatalogEntry.mk (GetSimilarEntry schema type entry_name).name
      (GetSimilarEntry schema type entry_name).distance (some schema)).Found = true := by
    simpa [SimilarCatalogEntry.Found] using hmatch
  have hne2 : schema.catalog ++ "." ++ schema.name ≠ "" := by
    rw [String.append_assoc]
    exact append_ne_empty _ _ hnamed
  unfold Catalog.CreateMissingEntryException.did_you_mean
  simp only [hentry, hunseen, hfound, SimilarCatalogEntry.empty, hdist, decide_True,
    Bool.and_self, if_true, hq, SimilarCatalogEntry.GetQualifiedName, ne_eq, hnamed,
    not_false_eq_true, hne2]

/-- C15, at the third scenario of the spec: the search path is `db1.main`, which is empty, and
`db2.s2` holds `widgets`; the hint for `widgets` is `db2.s2.widgets`. -/
theorem CreateMissingEntryException_fully_qualified_witness :
    Catalog.GetEntry scenario_widgets .TABLE_ENTRY INVALID_CATALOG INVALID_SCHEMA "widgets" false
      = .error (.MissingEntry "widgets" .TABLE_ENTRY [⟨"db1", "main", []⟩])
    ∧ Catalog.CreateMissingEntryException SchemaCatalogEntry.GetSimilarEntry
        example_extension_entries scenario_widgets "widgets" .TABLE_ENTRY [⟨"db1", "main", []⟩]
      = "Table with name widgets does not exist!\nDid you mean \"db2.s2.widgets\"?"
    ∧ FindMinimalQualification scenario_widgets "db2" "s2" = (true, true)
    ∧ Catalog.CreateMissingEntryException.did_you_mean SchemaCatalogEntry.GetSimilarEntry
        scenario_widgets "widgets" .TABLE_ENTRY
        (Catalog.SimilarEntryInSchemas SchemaCatalogEntry.GetSimilarEntry "widgets" .TABLE_ENTRY
          [⟨"db1", "main", []⟩])
      = "\nDid you mean \"" ++ ("db2" ++ "." ++ "s2" ++ "."
          ++ (SchemaCatalogEntry.GetSimilarEntry scenario_db2_s2 .TABLE_ENTRY "widgets").name)
          ++ "\"?" :=
  ⟨rfl, by decide,
    (CreateMissingEntryException_fully_qualified SchemaCatalogEntry.GetSimilarEntry
      scenario_widgets "widgets" .TABLE_ENTRY [⟨"db1", "main", []⟩] [⟨"db1", "main"⟩]
      scenario_db2_s2 rfl (by decide) (by decide) (by decide) (by decide) (by decide)
      (by decide) (by decide) (by decide) (by decide)).2.2⟩

/-! ## Mutating operations: theorems -/

/-- C18: provided the operations outside the sources that the operations of `catalog.cpp`
delegate to do not lower the catalog version, the version after a call to `Catalog::DropEntry`
or `Catalog::Alter` is strictly greater than before the call, whether the call returns or raises
(so in particular when it returns successfully), and no mutating operation of the file lowers
it: not `ModifyCatalog`, not `CreateSchema`, not any overload of `CreateTable`, `CreateView`,
`CreateSequence`, `CreateType`, `CreateTableFunction`, `CreateCopyFunction`,
`CreatePragmaFunction`, `CreateFunction`, `CreateCollation` and `CreateIndex`, and not
`AddFunction`. The overloads that take the schema are the operations of the schema themselves,
of which this is assumed. The remaining operations of the file are queries, which have no access
to the version. -/
theorem catalog_version_monotone (operations : CatalogOperations)
    (schema_operations : SchemaCreateOperations) (further : FurtherCreateOperations)
    (catalog : Catalog) (state : CatalogState)
    (hoperations : operations.keeps_version)
    (hschema : schema_operations.keeps_version)
    (hfurther : further.keeps_version) :
    (∀ info : DropInfo, Catalog.GetCatalogVersion state
        < Catalog.GetCatalogVersion (Catalog.DropEntry operations catalog state info).2)
    ∧ (∀ info : AlterInfo, Catalog.GetCatalogVersion state
        < Catalog.GetCatalogVersion (Catalog.Alter operations catalog state info).2)
    ∧ (∀ info : DropInfo, (Catalog.DropEntry operations catalog state info).1 = none →
        Catalog.GetCatalogVersion state
          < Catalog.GetCatalogVersion (Catalog.DropEntry operations catalog state info).2)
    ∧ (∀ info : AlterInfo, (Catalog.Alter operations catalog state info).1 = none →
        Catalog.GetCatalogVersion state
          < Catalog.GetCatalogVersion (Catalog.Alter operations catalog state info).2)
    ∧ Catalog.GetCatalogVersion state
        < Catalog.GetCatalogVersion (Catalog.ModifyCatalog state).2
    ∧ (∀ info : BoundCreateTableInfo, Catalog.GetCatalogVersion state
        ≤ Catalog.GetCatalogVersion (Catalog.CreateTable operations catalog state info).2)
    ∧ (∀ (transaction : CatalogTransaction) (info : BoundCreateTableInfo),
        Catalog.GetCatalogVersion transaction.context
          ≤ Catalog.GetCatalogVersion
              (Catalog.CreateTable.withTransaction operations catalog transaction info).2)
    ∧ (∀ info : CreateTableInfo, Catalog.GetCatalogVersion state
        ≤ Catalog.GetCatalogVersion
            (Catalog.CreateTable.unbound operations further catalog state info).2)
    ∧ (∀ (transaction : CatalogTransaction) (info : CreateInfo),
        Catalog.GetCatalogVersion transaction.context
          ≤ Catalog.GetCatalogVersion
              (Catalog.CreateView.withTransaction schema_operations catalog transaction info).2)
    ∧ (∀ info : CreateInfo, Catalog.GetCatalogVersion state
        ≤ Catalog.GetCatalogVersion (Catalog.CreateView schema_operations catalog state info).2)
    ∧ (∀ (transaction : CatalogTransaction) (info : CreateInfo),
        Catalog.GetCatalogVersion transaction.context
          ≤ Catalog.GetCatalogVersion
              (Catalog.CreateSequence.withTransaction schema_operations catalog transaction info).2)
    ∧ (∀ info : CreateInfo, Catalog.GetCatalogVersion state
        ≤ Catalog.GetCatalogVersion (Catalog.CreateSequence schema_operations catalog state info).2)
    ∧ (∀ (transaction : CatalogTransaction) (info : CreateInfo),
        Catalog.GetCatalogVersion transaction.context
          ≤ Catalog.GetCatalogVersion
              (Catalog.CreateType.withTransaction schema_operations catalog transaction info).2)
    ∧ (∀ info : CreateInfo, Catalog.GetCatalogVersion state
        ≤ Catalog.GetCatalogVersion (Catalog.CreateType schema_operations catalog state info).2)
    ∧ (∀ (transaction : CatalogTransaction) (info : CreateInfo),
        Catalog.GetCatalogVersion transaction.context
          ≤ Catalog.GetCatalogVersion
              (Catalog.CreateTableFunction.withTransaction schema_operations catalog transaction info).2)
    ∧ (∀ info : CreateInfo, Catalog.GetCatalogVersion state
        ≤ Catalog.GetCatalogVersion (Catalog.CreateTableFunction schema_operations catalog state info).2)
    ∧ (∀ (transaction : CatalogTransaction) (info : CreateInfo),
        Catalog.GetCatalogVersion transaction.context
          ≤ Catalog.GetCatalogVersion
              (Catalog.CreateCopyFunction.withTransaction schema_operations catalog transaction info).2)
    ∧ (∀ info : CreateInfo, Catalog.GetCatalogVersion state
        ≤ Catalog.GetCatalogVersion (Catalog.CreateCopyFunction schema_operations catalog state info).2)
    ∧ (∀ (transaction : CatalogTransaction) (info : CreateInfo),
        Catalog.GetCatalogVersion transaction.context
          ≤ Catalog.GetCatalogVersion
              (Catalog.CreatePragmaFunction.withTransaction schema_operations catalog transaction info).2)
    ∧ (∀ info : CreateInfo, Catalog.GetCatalogVersion state
        ≤ Catalog.GetCatalogVersion (Catalog.CreatePragmaFunction schema_operations catalog state info).2)
    ∧ (∀ (transaction : CatalogTransaction) (info : CreateInfo),
        Catalog.GetCatalogVersion transaction.context
          ≤ Catalog.GetCatalogVersion
              (Catalog.CreateFunction.withTransaction schema_operations catalog transaction info).2)
    ∧ (∀ info : CreateInfo, Catalog.GetCatalogVersion state
        ≤ Catalog.GetCatalogVersion (Catalog.CreateFunction schema_operations catalog state info).2)
    ∧ (∀ (transaction : CatalogTransaction) (info : CreateInfo),
        Catalog.GetCatalogVersion transaction.context
          ≤ Catalog.GetCatalogVersion
              (Catalog.CreateCollation.withTransaction schema_operations catalog transaction info).2)
    ∧ (∀ info : CreateInfo, Catalog.GetCatalogVersion state
        ≤ Catalog.GetCatalogVersion (Catalog.CreateCollation schema_operations catalog state info).2)
    ∧ (∀ info : CreateInfo, Catalog.GetCatalogVersion state
        ≤ Catalog.GetCatalogVersion (Catalog.AddFunction schema_operations catalog state info).2)
    ∧ (∀ info : CreateSchemaInfo, Catalog.GetCatalogVersion state
        ≤ Catalog.GetCatalogVersion (Catalog.CreateSchema further catalog state info).2)
    ∧ (∀ info : CreateIndexInfo, Catalog.GetCatalogVersion state
        ≤ Catalog.GetCatalogVersion (Catalog.CreateIndex further catalog state info).2)
    ∧ (∀ (transaction : CatalogTransaction) (info : CreateIndexInfo),
        Catalog.GetCatalogVersion transaction.context
          ≤ Catalog.GetCatalogVersion
              (Catalog.CreateIndex.withTransaction further catalog transaction info).2) := by
  obtain ⟨hDropSchema, hDropEntry, hAlter, hCreateTable⟩ := hoperations
  have hbump : (Catalog.ModifyCatalog state).2.catalog_version = state.catalog_version + 1 := rfl
  have hdrop : ∀ info : DropInfo, Catalog.GetCatalogVersion state
      < Catalog.GetCatalogVersion (Catalog.DropEntry operations catalog state info).2 := by
    intro info
    unfold Catalog.DropEntry Catalog.GetCatalogVersion
    simp only []
    split
    · have := hDropSchema catalog (Catalog.ModifyCatalog state).2 info
      omega
    · split
      · simp only [hbump]; omega
      · split
        · simp only [hbump]; omega
        · split
          · rename_i schema _
            have := hDropEntry schema (Catalog.ModifyCatalog state).2 info
            omega
          · simp only [hbump]; omega
  have halter : ∀ info : AlterInfo, Catalog.GetCatalogVersion state
      < Catalog.GetCatalogVersion (Catalog.Alter operations catalog state info).2 := by
    intro info
    unfold Catalog.Alter Catalog.GetCatalogVersion
    simp only []
    split
    · simp only [hbump]; omega
    · split
      · simp only [hbump]; omega
      · split
        · rename_i schema _
          have := hAlter schema (Catalog.ModifyCatalog state).2 info
          omega
        · simp only [hbump]; omega
  have htable : ∀ (st : CatalogState) (info : BoundCreateTableInfo),
      Catalog.GetCatalogVersion st
        ≤ Catalog.GetCatalogVersion (Catalog.CreateTable operations catalog st info).2 := by
    intro st info
    unfold Catalog.CreateTable Catalog.GetCatalogVersion SchemaCatalogEntry.CreateTable
    cases catalog.GetSchemaOrThrow info.base.schema with
    | error e => exact Nat.le_refl _
    | ok schema => exact hCreateTable schema st info
  have htable2 : ∀ (transaction : CatalogTransaction) (info : BoundCreateTableInfo),
      Catalog.GetCatalogVersion transaction.context
        ≤ Catalog.GetCatalogVersion
            (Catalog.CreateTable.withTransaction operations catalog transaction info).2 := by
    intro transaction info
    unfold Catalog.CreateTable.withTransaction Catalog.GetCatalogVersion
      SchemaCatalogEntry.CreateTable
    cases catalog.GetSchemaOrThrow info.base.schema with
    | error e => exact Nat.le_refl _
    | ok schema => exact hCreateTable schema transaction.context info
  have hunbound : ∀ info : CreateTableInfo, Catalog.GetCatalogVersion state
      ≤ Catalog.GetCatalogVersion
          (Catalog.CreateTable.unbound operations further catalog state info).2 := by
    intro info
    have hbind := hfurther.2.2 state info
    unfold Catalog.CreateTable.unbound
    cases hb : further.BindCreateTableInfo state info with
    | mk outcome st =>
      rw [hb] at hbind
      cases outcome with
      | error e => exact hbind
      | ok bound_info => exact Nat.le_trans hbind (htable st bound_info)
  have hCreateView : ∀ (transaction : CatalogTransaction) (info : CreateInfo),
      Catalog.GetCatalogVersion transaction.context
        ≤ Catalog.GetCatalogVersion
            (Catalog.CreateView.withTransaction schema_operations catalog transaction info).2 := by
    intro transaction info
    unfold Catalog.CreateView.withTransaction Catalog.GetCatalogVersion
    cases catalog.GetSchemaOrThrow info.schema with
    | error e => exact Nat.le_refl _
    | ok schema => exact hschema.1 schema transaction info
  have hCreateSequence : ∀ (transaction : CatalogTransaction) (info : CreateInfo),
      Catalog.GetCatalogVersion transaction.context
        ≤ Catalog.GetCatalogVersion
            (Catalog.CreateSequence.withTransaction schema_operations catalog transaction info).2 := by
    intro transaction info
    unfold Catalog.CreateSequence.withTransaction Catalog.GetCatalogVersion
    cases catalog.GetSchemaOrThrow info.schema with
    | error e => exact Nat.le_refl _
    | ok schema => exact hschema.2.1 schema transaction info
  have hCreateType : ∀ (transaction : CatalogTransaction) (info : CreateInfo),
      Catalog.GetCatalogVersion transaction.context
        ≤ Catalog.GetCatalogVersion
            (Catalog.CreateType.withTransaction schema_operations catalog transaction info).2 := by
    intro transaction info
    unfold Catalog.CreateType.withTransaction Catalog.GetCatalogVersion
    cases catalog.GetSchemaOrThrow info.schema with
    | error e => exact Nat.le_refl _
    | ok schema => exact hschema.2.2.1 schema transaction info
  have hCreateTableFunction : ∀ (transaction : CatalogTransaction) (info : CreateInfo),
      Catalog.GetCatalogVersion transaction.context
        ≤ Catalog.GetCatalogVersion
            (Catalog.CreateTableFunction.withTransaction schema_operations catalog transaction info).2 := by
    intro transaction info
    unfold Catalog.CreateTableFunction.withTransaction Catalog.GetCatalogVersion
    cases catalog.GetSchemaOrThrow info.schema with
    | error e => exact Nat.le_refl _
    | ok schema => exact hschema.2.2.2.1 schema transaction info
  have hCreateCopyFunction : ∀ (transaction : CatalogTransaction) (info : CreateInfo),
      Catalog.GetCatalogVersion transaction.context
        ≤ Catalog.GetCatalogVersion
            (Catalog.CreateCopyFunction.withTransaction schema_operations catalog transaction info).2 := by
    intro transaction info
    unfold Catalog.CreateCopyFunction.withTransaction Catalog.GetCatalogVersion
    cases catalog.GetSchemaOrThrow info.schema with
    | error e => exact Nat.le_refl _
    | ok schema => exact hschema.2.2.2.2.1 schema transaction info
  have hCreatePragmaFunction : ∀ (transaction : CatalogTransaction) (info : CreateInfo),
      Catalog.GetCatalogVersion transaction.context
        ≤ Catalog.GetCatalogVersion
            (Catalog.CreatePragmaFunction.withTransaction schema_operations catalog transaction info).2 := by
    intro transaction info
    unfold Catalog.CreatePragmaFunction.withTransaction Catalog.GetCatalogVersion
    cases catalog.GetSchemaOrThrow info.schema with
    | error e => exact Nat.le_refl _
    | ok schema => exact hschema.2.2.2.2.2.1 schema transaction info
  have hCreateFunction : ∀ (transaction : CatalogTransaction) (info : CreateInfo),
      Catalog.GetCatalogVersion transaction.context
        ≤ Catalog.GetCatalogVersion
            (Catalog.CreateFunction.withTransaction schema_operations catalog transaction info).2 := by
    intro transaction info
    unfold Catalog.CreateFunction.withTransaction Catalog.GetCatalogVersion
    cases catalog.GetSchemaOrThrow info.schema with
    | error e => exact Nat.le_refl _
    | ok schema => exact hschema.2.2.2.2.2.2.1 schema transaction info
  have hCreateCollation : ∀ (transaction : CatalogTransaction) (info : CreateInfo),
      Catalog.GetCatalogVersion transaction.context
        ≤ Catalog.GetCatalogVersion
            (Catalog.CreateCollation.withTransaction schema_operations catalog transaction info).2 := by
    intro transaction info
    unfold Catalog.CreateCollation.withTransaction Catalog.GetCatalogVersion
    cases catalog.GetSchemaOrThrow info.schema with
    | error e => exact Nat.le_refl _
    | ok schema => exact hschema.2.2.2.2.2.2.2 schema transaction info
  have hindex : ∀ (st : CatalogState) (info : CreateIndexInfo),
      Catalog.GetCatalogVersion st
        ≤ Catalog.GetCatalogVersion (Catalog.CreateIndex further catalog st info).2 := by
    intro st info
    unfold Catalog.CreateIndex Catalog.GetCatalogVersion
    split
    · exact Nat.le_refl _
    · split
      · exact Nat.le_refl _
      · exact Nat.le_refl _
      · exact hfurther.2.1 _ st info _
  refine ⟨hdrop, halter, fun info _ => hdrop info, fun info _ => halter info, ?_,
    htable state, htable2, hunbound,
    hCreateView, fun info => hCreateView (catalog.GetCatalogTransaction state) info,
    hCreateSequence, fun info => hCreateSequence (catalog.GetCatalogTransaction state) info,
    hCreateType, fun info => hCreateType (catalog.GetCatalogTransaction state) info,
    hCreateTableFunction, fun info => hCreateTableFunction (catalog.GetCatalogTransaction state) info,
    hCreateCopyFunction, fun info => hCreateCopyFunction (catalog.GetCatalogTransaction state) info,
    hCreatePragmaFunction, fun info => hCreatePragmaFunction (catalog.GetCatalogTransaction state) info,
    hCreateFunction, fun info => hCreateFunction (catalog.GetCatalogTransaction state) info,
    hCreateCollation, fun info => hCreateCollation (catalog.GetCatalogTransaction state) info,
    fun info => hCreateFunction (catalog.GetCatalogTransaction state) _,
    fun info => hfurther.1 catalog (catalog.GetCatalogTransaction state) info,
    hindex state, fun transaction info => hindex transaction.context info⟩
  unfold Catalog.GetCatalogVersion
  rw [hbump]
  omega

/-- C18, at the example session at version 7: dropping the table `t` of `db1.main` returns
successfully and leaves version 8, and creating a view leaves version 7. -/
theorem catalog_version_monotone_witness :
    (example_operations.keeps_version ∧ example_schema_operations.keeps_version
      ∧ example_further_operations.keeps_version)
    ∧ (Catalog.DropEntry example_operations example_db1 example_state
        ⟨.TABLE_ENTRY, "main", "t", false, false⟩).1 = none
    ∧ Catalog.GetCatalogVersion (Catalog.DropEntry example_operations example_db1 example_state
        ⟨.TABLE_ENTRY, "main", "t", false, false⟩).2 = 8
    ∧ Catalog.GetCatalogVersion (Catalog.CreateView example_schema_operations example_db1
        example_state ⟨"main", "v", .ERROR_ON_CONFLICT⟩).2 = 7
    ∧ Catalog.GetCatalogVersion example_state
        < Catalog.GetCatalogVersion (Catalog.DropEntry example_operations example_db1
            example_state ⟨.TABLE_ENTRY, "main", "t", false, false⟩).2 :=
  ⟨⟨⟨fun _ st _ => Nat.le_refl st.catalog_version, fun _ st _ => Nat.le_refl st.catalog_version,
      fun _ st _ => Nat.le_refl st.catalog_version,
      fun _ st _ => Nat.le_refl st.catalog_version⟩,
    ⟨fun _ tr _ => Nat.le_refl tr.context.catalog_version,
      fun _ tr _ => Nat.le_refl tr.context.catalog_version,
      fun _ tr _ => Nat.le_refl tr.context.catalog_version,
      fun _ tr _ => Nat.le_refl tr.context.catalog_version,
      fun _ tr _ => Nat.le_refl tr.context.catalog_version,
      fun _ tr _ => Nat.le_refl tr.context.catalog_version,
      fun _ tr _ => Nat.le_refl tr.context.catalog_version,
      fun _ tr _ => Nat.le_refl tr.context.catalog_version⟩,
    ⟨fun _ tr _ => Nat.le_refl tr.context.catalog_version,
      fun _ st _ _ => Nat.le_refl st.catalog_version,
      fun st _ => Nat.le_refl st.catalog_version⟩⟩,
    by decide, by decide, by decide,
    (catalog_version_monotone example_operations example_schema_operations
      example_further_operations example_db1 example_state
      ⟨fun _ st _ => Nat.le_refl st.catalog_version,
        fun _ st _ => Nat.le_refl st.catalog_version,
        fun _ st _ => Nat.le_refl st.catalog_version,
        fun _ st _ => Nat.le_refl st.catalog_version⟩
      ⟨fun _ tr _ => Nat.le_refl tr.context.catalog_version,
        fun _ tr _ => Nat.le_refl tr.context.catalog_version,
        fun _ tr _ => Nat.le_refl tr.context.catalog_version,
        fun _ tr _ => Nat.le_refl tr.context.catalog_version,
        fun _ tr _ => Nat.le_refl tr.context.catalog_version,
        fun _ tr _ => Nat.le_refl tr.context.catalog_version,
        fun _ tr _ => Nat.le_refl tr.context.catalog_version,
        fun _ tr _ => Nat.le_refl tr.context.catalog_version⟩
      ⟨fun _ tr _ => Nat.le_refl tr.context.catalog_version,
        fun _ st _ _ => Nat.le_refl st.catalog_version,
        fun st _ => Nat.le_refl st.catalog_version⟩).1
      ⟨.TABLE_ENTRY, "main", "t", false, false⟩⟩

/-- The comparison of `GetAllSchemas` does not put `b` before `a` exactly when `a` comes no later
than `b` in the order by catalog name, then schema name. -/
theorem Catalog.GetAllSchemas.not_less_iff (a b : SchemaCatalogEntry) :
    Catalog.GetAllSchemas.less b a = false
      ↔ a.catalog < b.catalog ∨ (a.catalog = b.catalog ∧ a.name ≤ b.name) := by
  unfold Catalog.GetAllSchemas.less
  by_cases h1 : b.catalog < a.catalog
  · have h1d : b.catalog.data < a.catalog.data := String.lt_iff_toList_lt.mp h1
    simp only [h1d, if_true, Bool.true_eq_false, false_iff]
    rintro (h | ⟨h, -⟩)
    · exact lt_asymm h h1
    · rw [h] at h1
      exact lt_irrefl _ h1
  · have h1d : ¬ b.catalog.data < a.catalog.data := fun h => h1 (String.lt_iff_toList_lt.mpr h)
    simp only [h1d, if_false]
    by_cases h2 : b.catalog = a.catalog
    · rw [if_pos h2, decide_eq_false_iff_not]
      constructor
      · intro h
        exact Or.inr ⟨h2.symm, not_lt.mp (fun hlt => h (String.lt_iff_toList_lt.mp hlt))⟩
      · rintro (h | ⟨-, h⟩)
        · rw [h2] at h
          exact absurd h (lt_irrefl _)
        · exact fun hlt => not_lt.mpr h (String.lt_iff_toList_lt.mpr hlt)
    · rw [if_neg h2]
      simp only [true_iff]
      left
      rcases lt_trichotomy a.catalog b.catalog with h | h | h
      · exact h
      · exact absurd h.symm h2
      · exact absurd h h1

/-- The first loop of `GetAllSchemas` builds the concatenation of the schema lists. -/
theorem Catalog.GetAllSchemas.collect_eq (databases : List Catalog) :
    Catalog.GetAllSchemas.collect databases = (databases.map Catalog.GetSchemas).flatten := by
  induction databases with
  | nil => rfl
  | cons database rest ih => simp [Catalog.GetAllSchemas.collect, ih]

/-- C20: `Catalog::GetAllSchemas` returns a list that is sorted ascending by catalog name, then
schema name, and is a permutation of the concatenation of `GetSchemas` of the catalog of every
database `GetDatabases` lists. -/
theorem GetAllSchemas_sorted_perm (context : ClientContext) :
    (Catalog.GetAllSchemas context).Pairwise
      (fun a b => a.catalog < b.catalog ∨ (a.catalog = b.catalog ∧ a.name ≤ b.name))
    ∧ (Catalog.GetAllSchemas context).Perm
        (((DatabaseManager.GetDatabases context).map Catalog.GetSchemas).flatten) := by
  haveI htotal : IsTotal SchemaCatalogEntry
      (fun a b => Catalog.GetAllSchemas.less b a = false) := by
    constructor
    intro a b
    rw [Catalog.GetAllSchemas.not_less_iff a b, Catalog.GetAllSchemas.not_less_iff b a]
    rcases lt_trichotomy a.catalog b.catalog with h | h | h
    · exact Or.inl (Or.inl h)
    · rcases le_total a.name b.name with h2 | h2
      · exact Or.inl (Or.inr ⟨h, h2⟩)
      · exact Or.inr (Or.inr ⟨h.symm, h2⟩)
    · exact Or.inr (Or.inl h)
  haveI htrans : IsTrans SchemaCatalogEntry
      (fun a b => Catalog.GetAllSchemas.less b a = false) := by
    constructor
    intro a b c hab hbc
    rw [Catalog.GetAllSchemas.not_less_iff] at hab hbc ⊢
    rcases hab with h1 | ⟨h1, h2⟩
    · rcases hbc with h3 | ⟨h3, -⟩
      · exact Or.inl (lt_trans h1 h3)
      · exact Or.inl (h3 ▸ h1)
    · rcases hbc with h3 | ⟨h3, h4⟩
      · exact Or.inl (h1 ▸ h3)
      · exact Or.inr ⟨h1.trans h3, le_trans h2 h4⟩
  constructor
  · unfold Catalog.GetAllSchemas std.sort
    have hsorted := List.sorted_insertionSort
      (fun a b => Catalog.GetAllSchemas.less b a = false)
      (Catalog.GetAllSchemas.collect (DatabaseManager.GetDatabases context))
    exact List.Pairwise.imp (fun {a b} h => (Catalog.GetAllSchemas.not_less_iff a b).mp h)
      hsorted
  · unfold Catalog.GetAllSchemas std.sort
    rw [← Catalog.GetAllSchemas.collect_eq]
    exact List.perm_insertionSort _ _

/-- C20, at the example session with `db2` attached before `db1`: the listing is
`db1.main, db1.s1, db2.main`. -/
theorem GetAllSchemas_sorted_perm_witness :
    Catalog.GetAllSchemas { example_context with databases := [example_db2, example_db1] }
      = [example_db1_main, example_db1_s1, example_db2_main]
    ∧ (Catalog.GetAllSchemas
        { example_context with databases := [example_db2, example_db1] }).Perm
        (((DatabaseManager.GetDatabases
            { example_context with databases := [example_db2, example_db1] }).map
          Catalog.GetSchemas).flatten) :=
  ⟨by decide,
    (GetAllSchemas_sorted_perm
      { example_context with databases := [example_db2, example_db1] }).2⟩

/-! ## Drop and alter: theorems -/

/-- The single-catalog overload of `LookupEntry` returns the lookup of the first probed schema
name whose schema exists and holds the entry. -/
theorem Catalog.LookupEntryInCatalog_hit (catalog : Catalog) (context : ClientContext)
    (type : CatalogType) (schema name : String) (if_exists : Bool)
    (pre post : List String) (sn : String) (s : SchemaCatalogEntry) (e : CatalogEntry)
    (hnames : (if IsInvalidSchema schema = true then
          (GetCatalogEntries context catalog.name INVALID_SCHEMA).map (fun entry => entry.schema)
        else [schema]) = pre ++ sn :: post)
    (hpre : ∀ x ∈ pre, (catalog.LookupEntryInternal type x name).Found = false)
    (hs : catalog.GetSchema sn = some s)
    (he : s.GetEntry type name = some e) :
    catalog.LookupEntryInCatalog context type schema name if_exists = .ok ⟨some s, some e⟩ := by
  have hfound : (catalog.LookupEntryInternal type sn name).Found = true :=
    (Catalog.LookupEntryInternal_found_iff catalog type sn name).mpr ⟨s, e, hs, he⟩
  have hval : catalog.LookupEntryInternal type sn name = ⟨some s, some e⟩ := by
    simp [Catalog.LookupEntryInternal, hs, he]
  have hprobe := Catalog.LookupEntry.probe_hit type name if_exists
    (pre.map (fun x => CatalogLookup.mk catalog x)) (post.map (fun x => CatalogLookup.mk catalog x))
    (CatalogLookup.mk catalog sn) []
    (by
      intro l hl
      obtain ⟨x, hx, rfl⟩ := List.mem_map.mp hl
      exact hpre x hx)
    hfound
  have hlist : (if IsInvalidSchema schema = true then
        (GetCatalogEntries context catalog.name INVALID_SCHEMA).map
          (fun entry => CatalogLookup.mk catalog entry.schema)
      else [CatalogLookup.mk catalog schema])
      = pre.map (fun x => CatalogLookup.mk catalog x) ++ CatalogLookup.mk catalog sn
          :: post.map (fun x => CatalogLookup.mk catalog x) := by
    have hmap := congrArg (List.map (fun x => CatalogLookup.mk catalog x)) hnames
    rw [List.map_append, List.map_cons] at hmap
    rw [← hmap]
    split <;> simp
  unfold Catalog.LookupEntryInCatalog
  cases hinv : IsInvalidSchema schema with
  | true =>
    simp only [hinv, if_true] at hlist ⊢
    rw [hlist, hprobe, hval]
  | false =>
    simp only [hinv, Bool.false_eq_true, if_false] at hlist ⊢
    rw [hlist, hprobe, hval]

/-- With `if_exists` set, the single-catalog overload of `LookupEntry` returns the empty lookup
when none of the schemas it probes holds the entry. -/
theorem Catalog.LookupEntryInCatalog_miss (catalog : Catalog) (context : ClientContext)
    (type : CatalogType) (schema name : String)
    (hmiss : ∀ sn ∈ (if IsInvalidSchema schema = true then
          (GetCatalogEntries context catalog.name INVALID_SCHEMA).map (fun entry => entry.schema)
        else [schema]),
      (catalog.LookupEntryInternal type sn name).Found = false) :
    catalog.LookupEntryInCatalog context type schema name true = .ok ⟨none, none⟩ := by
  unfold Catalog.LookupEntryInCatalog
  cases hinv : IsInvalidSchema schema with
  | true =>
    simp only [hinv, if_true] at hmiss ⊢
    obtain ⟨visited, -, hp⟩ := Catalog.LookupEntry.probe_miss type name true
      ((GetCatalogEntries context catalog.name INVALID_SCHEMA).map
        (fun entry => CatalogLookup.mk catalog entry.schema)) []
      (by
        intro l hl
        obtain ⟨entry, hentry, rfl⟩ := List.mem_map.mp hl
        exact hmiss entry.schema (List.mem_map.mpr ⟨entry, hentry, rfl⟩))
    simpa using hp
  | false =>
    simp only [hinv, Bool.false_eq_true, if_false] at hmiss ⊢
    obtain ⟨visited, -, hp⟩ := Catalog.LookupEntry.probe_miss type name true
      [CatalogLookup.mk catalog schema] []
      (by
        intro l hl
        rw [List.mem_singleton] at hl
        subst hl
        exact hmiss schema (List.mem_singleton.mpr rfl))
    simpa using hp

/-- C21: `Catalog::DropEntry` with kind `Schema` is the call of `DropSchema`, whatever a lookup
would give. For every other kind, and for `Catalog::Alter`, the target is looked up in this
catalog from `info.schema` and `info.name`: when the first probed schema that holds the entry is
`s`, the operation is the call of `DropEntry` (of `Alter`) of `s`; when no probed schema holds it
and `info.if_exists` is set, the call returns normally and no schema operation is part of it. -/
theorem DropEntry_Alter_delegation (operations : CatalogOperations) (catalog : Catalog)
    (state : CatalogState) :
    (∀ info : DropInfo, info.type = .SCHEMA_ENTRY →
      Catalog.DropEntry operations catalog state info
        = operations.DropSchema catalog (Catalog.ModifyCatalog state).2 info)
    ∧ (∀ (info : DropInfo) (pre post : List String) (sn : String) (s : SchemaCatalogEntry)
        (e : CatalogEntry), info.type ≠ .SCHEMA_ENTRY →
      (if IsInvalidSchema info.schema = true then
          (GetCatalogEntries state.context catalog.name INVALID_SCHEMA).map
            (fun entry => entry.schema)
        else [info.schema]) = pre ++ sn :: post →
      (∀ x ∈ pre, (catalog.LookupEntryInternal info.type x info.name).Found = false) →
      catalog.GetSchema sn = some s → s.GetEntry info.type info.name = some e →
      Catalog.DropEntry operations catalog state info
        = operations.DropEntry s (Catalog.ModifyCatalog state).2 info)
    ∧ (∀ info : DropInfo, info.type ≠ .SCHEMA_ENTRY → info.if_exists = true →
      (∀ sn ∈ (if IsInvalidSchema info.schema = true then
            (GetCatalogEntries state.context catalog.name INVALID_SCHEMA).map
              (fun entry => entry.schema)
          else [info.schema]),
        (catalog.LookupEntryInternal info.type sn info.name).Found = false) →
      ∀ other : CatalogOperations,
        Catalog.DropEntry other catalog state info = (none, (Catalog.ModifyCatalog state).2))
    ∧ (∀ (info : AlterInfo) (pre post : List String) (sn : String) (s : SchemaCatalogEntry)
        (e : CatalogEntry),
      (if IsInvalidSchema info.schema = true then
          (GetCatalogEntries state.context catalog.name INVALID_SCHEMA).map
            (fun entry => entry.schema)
        else [info.schema]) = pre ++ sn :: post →
      (∀ x ∈ pre, (catalog.LookupEntryInternal info.type x info.name).Found = false) →
      catalog.GetSchema sn = some s → s.GetEntry info.type info.name = some e →
      Catalog.Alter operations catalog state info
        = operations.Alter s (Catalog.ModifyCatalog state).2 info)
    ∧ (∀ info : AlterInfo, info.if_exists = true →
      (∀ sn ∈ (if IsInvalidSchema info.schema = true then
            (GetCatalogEntries state.context catalog.name INVALID_SCHEMA).map
              (fun entry => entry.schema)
          else [info.schema]),
        (catalog.LookupEntryInternal info.type sn info.name).Found = false) →
      ∀ other : CatalogOperations,
        Catalog.Alter other catalog state info = (none, (Catalog.ModifyCatalog state).2)) := by
  have hctx : (Catalog.ModifyCatalog state).2.context = state.context := rfl
  refine ⟨?_, ?_, ?_, ?_, ?_⟩
  · intro info htype
    simp [Catalog.DropEntry, htype]
  · intro info pre post sn s e htype hnames hpre hs he
    have hlook := Catalog.LookupEntryInCatalog_hit catalog state.context info.type info.schema
      info.name info.if_exists pre post sn s e hnames hpre hs he
    simp [Catalog.DropEntry, htype, hctx, hlook, CatalogEntryLookup.Found]
  · intro info htype hif hmiss other
    have hlook := Catalog.LookupEntryInCatalog_miss catalog state.context info.type info.schema
      info.name hmiss
    simp [Catalog.DropEntry, htype, hctx, hif, hlook, CatalogEntryLookup.Found]
  · intro info pre post sn s e hnames hpre hs he
    have hlook := Catalog.LookupEntryInCatalog_hit catalog state.context info.type info.schema
      info.name info.if_exists pre post sn s e hnames hpre hs he
    simp [Catalog.Alter, hctx, hlook, CatalogEntryLookup.Found]
  · intro info hif hmiss other
    have hlook := Catalog.LookupEntryInCatalog_miss catalog state.context info.type info.schema
      info.name hmiss
    simp [Catalog.Alter, hctx, hif, hlook, CatalogEntryLookup.Found]

/-- C21, in the example session: dropping the schema `s1` of `db1` is the call of `DropSchema`;
dropping the table `t` with the schema unspecified probes `main` first, which holds it, and is the
call of `DropEntry` of `db1.main`; dropping the table `nowhere` of `main` with `if_exists` returns
normally. -/
theorem DropEntry_Alter_delegation_witness :
    Catalog.DropEntry example_operations example_db1 example_state
        ⟨.SCHEMA_ENTRY, "", "s1", false, false⟩
      = example_operations.DropSchema example_db1 (Catalog.ModifyCatalog example_state).2
          ⟨.SCHEMA_ENTRY, "", "s1", false, false⟩
    ∧ ((if IsInvalidSchema "" = true then
          (GetCatalogEntries example_state.context example_db1.name INVALID_SCHEMA).map
            (fun entry => entry.schema)
        else [""]) = [] ++ "main" :: ["s1"])
    ∧ example_db1.GetSchema "main" = some example_db1_main
    ∧ example_db1_main.GetEntry .TABLE_ENTRY "t" = some ⟨.TABLE_ENTRY, "t", 1⟩
    ∧ Catalog.DropEntry example_operations example_db1 example_state
        ⟨.TABLE_ENTRY, "", "t", false, false⟩
      = example_operations.DropEntry example_db1_main (Catalog.ModifyCatalog example_state).2
          ⟨.TABLE_ENTRY, "", "t", false, false⟩
    ∧ (∀ sn ∈ (if IsInvalidSchema "main" = true then
            (GetCatalogEntries example_state.context example_db1.name INVALID_SCHEMA).map
              (fun entry => entry.schema)
          else ["main"]),
        (example_db1.LookupEntryInternal .TABLE_ENTRY sn "nowhere").Found = false)
    ∧ Catalog.DropEntry example_operations example_db1 example_state
        ⟨.TABLE_ENTRY, "main", "nowhere", true, false⟩
      = (none, (Catalog.ModifyCatalog example_state).2) :=
  ⟨(DropEntry_Alter_delegation example_operations example_db1 example_state).1
      ⟨.SCHEMA_ENTRY, "", "s1", false, false⟩ rfl,
    by decide, rfl, rfl,
    (DropEntry_Alter_delegation example_operations example_db1 example_state).2.1
      ⟨.TABLE_ENTRY, "", "t", false, false⟩ [] ["s1"] "main" example_db1_main
      ⟨.TABLE_ENTRY, "t", 1⟩ (by decide) (by decide) (by simp) rfl rfl,
    by decide,
    (DropEntry_Alter_delegation example_operations example_db1 example_state).2.2.1
      ⟨.TABLE_ENTRY, "main", "nowhere", true, false⟩ (by decide) rfl (by decide)
      example_operations⟩

/-- C28: `Catalog::DropEntry` and `Catalog::Alter` apply `ModifyCatalog` once, before they
resolve their target: the state they leave is the state after that one `ModifyCatalog`, or what
the one operation they delegate to makes of it. When the lookup raises, and when `if_exists` is
set and the entry does not exist, nothing else happens: the catalogs are unchanged and the version
is one more than before. -/
theorem DropEntry_Alter_bump (operations : CatalogOperations) (catalog : Catalog)
    (state : CatalogState) :
    (∀ info : DropInfo,
      (Catalog.DropEntry operations catalog state info).2 = (Catalog.ModifyCatalog state).2
      ∨ Catalog.DropEntry operations catalog state info
          = operations.DropSchema catalog (Catalog.ModifyCatalog state).2 info
      ∨ ∃ s, Catalog.DropEntry operations catalog state info
          = operations.DropEntry s (Catalog.ModifyCatalog state).2 info)
    ∧ (∀ info : AlterInfo,
      (Catalog.Alter operations catalog state info).2 = (Catalog.ModifyCatalog state).2
      ∨ ∃ s, Catalog.Alter operations catalog state info
          = operations.Alter s (Catalog.ModifyCatalog state).2 info)
    ∧ (∀ (info : DropInfo) (err : Exception), info.type ≠ .SCHEMA_ENTRY →
      catalog.LookupEntryInCatalog state.context info.type info.schema info.name info.if_exists
        = .error err →
      Catalog.DropEntry operations catalog state info = (some err, (Catalog.ModifyCatalog state).2))
    ∧ (∀ (info : AlterInfo) (err : Exception),
      catalog.LookupEntryInCatalog state.context info.type info.schema info.name info.if_exists
        = .error err →
      Catalog.Alter operations catalog state info = (some err, (Catalog.ModifyCatalog state).2))
    ∧ (∀ info : DropInfo, info.type ≠ .SCHEMA_ENTRY → info.if_exists = true →
      (∀ sn ∈ (if IsInvalidSchema info.schema = true then
            (GetCatalogEntries state.context catalog.name INVALID_SCHEMA).map
              (fun entry => entry.schema)
          else [info.schema]),
        (catalog.LookupEntryInternal info.type sn info.name).Found = false) →
      Catalog.DropEntry operations catalog state info = (none, (Catalog.ModifyCatalog state).2))
    ∧ (∀ info : AlterInfo, info.if_exists = true →
      (∀ sn ∈ (if IsInvalidSchema info.schema = true then
            (GetCatalogEntries state.context catalog.name INVALID_SCHEMA).map
              (fun entry => entry.schema)
          else [info.schema]),
        (catalog.LookupEntryInternal info.type sn info.name).Found = false) →
      Catalog.Alter operations catalog state info = (none, (Catalog.ModifyCatalog state).2))
    ∧ Catalog.GetCatalogVersion (Catalog.ModifyCatalog state).2
        = Catalog.GetCatalogVersion state + 1
    ∧ (Catalog.ModifyCatalog state).2.context = state.context := by
  have hctx : (Catalog.ModifyCatalog state).2.context = state.context := rfl
  refine ⟨?_, ?_, ?_, ?_, ?_, ?_, rfl, rfl⟩
  · intro info
    unfold Catalog.DropEntry
    simp only []
    split
    · exact Or.inr (Or.inl rfl)
    · split
      · exact Or.inl rfl
      · split
        · exact Or.inl rfl
        · split
          · rename_i s _
            exact Or.inr (Or.inr ⟨s, rfl⟩)
          · exact Or.inl rfl
  · intro info
    unfold Catalog.Alter
    simp only []
    split
    · exact Or.inl rfl
    · split
      · exact Or.inl rfl
      · split
        · rename_i s _
          exact Or.inr ⟨s, rfl⟩
        · exact Or.inl rfl
  · intro info err htype hlook
    simp [Catalog.DropEntry, htype, hctx, hlook]
  · intro info err hlook
    simp [Catalog.Alter, hctx, hlook]
  · intro info htype hif hmiss
    have hlook := Catalog.LookupEntryInCatalog_miss catalog state.context info.type info.schema
      info.name hmiss
    simp [Catalog.DropEntry, htype, hctx, hif, hlook, CatalogEntryLookup.Found]
  · intro info hif hmiss
    have hlook := Catalog.LookupEntryInCatalog_miss catalog state.context info.type info.schema
      info.name hmiss
    simp [Catalog.Alter, hctx, hif, hlook, CatalogEntryLookup.Found]

/-- C28, in the example session at version 7: altering the table `nowhere` of `db1.main` without
`if_exists` raises, and the state left is the example session at version 8. -/
theorem DropEntry_Alter_bump_witness :
    catalog_version_after_alter_example = 8
    ∧ example_db1.LookupEntryInCatalog example_state.context .TABLE_ENTRY "main" "nowhere" false
      = .error (.MissingEntry "nowhere" .TABLE_ENTRY [example_db1_main])
    ∧ Catalog.Alter example_operations example_db1 example_state
        ⟨.TABLE_ENTRY, "main", "nowhere", false⟩
      = (some (.MissingEntry "nowhere" .TABLE_ENTRY [example_db1_main]),
          (Catalog.ModifyCatalog example_state).2) :=
  ⟨by decide, rfl,
    (DropEntry_Alter_bump example_operations example_db1 example_state).2.2.2.1
      ⟨.TABLE_ENTRY, "main", "nowhere", false⟩
      (.MissingEntry "nowhere" .TABLE_ENTRY [example_db1_main]) rfl⟩

/-! ## Typed create operations: theorems -/

/-- C22: each typed create operation of `Catalog` that takes a transaction and an info is the
create operation in the words of the spec, the same-named operation of the schema
`GetSchema(transaction, info.schema)` with the same transaction and info, and the overload that
takes a client context is the transaction overload called with
`GetCatalogTransaction(context)`. -/
theorem create_delegation (operations : CatalogOperations)
    (schema_operations : SchemaCreateOperations) (catalog : Catalog) :
    (∀ (transaction : CatalogTransaction) (info : BoundCreateTableInfo),
      Catalog.CreateTable.withTransaction operations catalog transaction info
        = create_through_schema
            (fun schema transaction info =>
              schema.CreateTable operations catalog transaction.context info)
            catalog transaction info.base.schema info)
    ∧ (∀ (context : CatalogState) (info : BoundCreateTableInfo),
        Catalog.CreateTable operations catalog context info
          = Catalog.CreateTable.withTransaction operations catalog
              (catalog.GetCatalogTransaction context) info)
    ∧ (∀ (transaction : CatalogTransaction) (info : CreateInfo),
        Catalog.CreateView.withTransaction schema_operations catalog transaction info
          = create_through_schema schema_operations.CreateView catalog transaction info.schema
              info)
    ∧ (∀ (context : CatalogState) (info : CreateInfo),
        Catalog.CreateView schema_operations catalog context info
          = Catalog.CreateView.withTransaction schema_operations catalog
              (catalog.GetCatalogTransaction context) info)
    ∧ (∀ (transaction : CatalogTransaction) (info : CreateInfo),
        Catalog.CreateSequence.withTransaction schema_operations catalog transaction info
          = create_through_schema schema_operations.CreateSequence catalog transaction info.schema
              info)
    ∧ (∀ (context : CatalogState) (info : CreateInfo),
        Catalog.CreateSequence schema_operations catalog context info
          = Catalog.CreateSequence.withTransaction schema_operations catalog
              (catalog.GetCatalogTransaction context) info)
    ∧ (∀ (transaction : CatalogTransaction) (info : CreateInfo),
        Catalog.CreateType.withTransaction schema_operations catalog transaction info
          = create_through_schema schema_operations.CreateType catalog transaction info.schema
              info)
    ∧ (∀ (context : CatalogState) (info : CreateInfo),
        Catalog.CreateType schema_operations catalog context info
          = Catalog.CreateType.withTransaction schema_operations catalog
              (catalog.GetCatalogTransaction context) info)
    ∧ (∀ (transaction : CatalogTransaction) (info : CreateInfo),
        Catalog.CreateTableFunction.withTransaction schema_operations catalog transaction info
          = create_through_schema schema_operations.CreateTableFunction catalog transaction info.schema
              info)
    ∧ (∀ (context : CatalogState) (info : CreateInfo),
        Catalog.CreateTableFunction schema_operations catalog context info
          = Catalog.CreateTableFunction.withTransaction schema_operations catalog
              (catalog.GetCatalogTransaction context) info)
    ∧ (∀ (transaction : CatalogTransaction) (info : CreateInfo),
        Catalog.CreateCopyFunction.withTransaction schema_operations catalog transaction info
          = create_through_schema schema_operations.CreateCopyFunction catalog transaction info.schema
              info)
    ∧ (∀ (context : CatalogState) (info : CreateInfo),
        Catalog.CreateCopyFunction schema_operations catalog context info
          = Catalog.CreateCopyFunction.withTransaction schema_operations catalog
              (catalog.GetCatalogTransaction context) info)
    ∧ (∀ (transaction : CatalogTransaction) (info : CreateInfo),
        Catalog.CreatePragmaFunction.withTransaction schema_operations catalog transaction info
          = create_through_schema schema_operations.CreatePragmaFunction catalog transaction info.schema
              info)
    ∧ (∀ (context : CatalogState) (info : CreateInfo),
        Catalog.CreatePragmaFunction schema_operations catalog context info
          = Catalog.CreatePragmaFunction.withTransaction schema_operations catalog
              (catalog.GetCatalogTransaction context) info)
    ∧ (∀ (transaction : CatalogTransaction) (info : CreateInfo),
        Catalog.CreateFunction.withTransaction schema_operations catalog transaction info
          = create_through_schema schema_operations.CreateFunction catalog transaction info.schema
              info)
    ∧ (∀ (context : CatalogState) (info : CreateInfo),
        Catalog.CreateFunction schema_operations catalog context info
          = Catalog.CreateFunction.withTransaction schema_operations catalog
              (catalog.GetCatalogTransaction context) info)
    ∧ (∀ (transaction : CatalogTransaction) (info : CreateInfo),
        Catalog.CreateCollation.withTransaction schema_operations catalog transaction info
          = create_through_schema schema_operations.CreateCollation catalog transaction info.schema
              info)
    ∧ (∀ (context : CatalogState) (info : CreateInfo),
        Catalog.CreateCollation schema_operations catalog context info
          = Catalog.CreateCollation.withTransaction schema_operations catalog
              (catalog.GetCatalogTransaction context) info) := by
  refine ⟨?_, ?_, ?_, ?_, ?_, ?_, ?_, ?_, ?_, ?_, ?_, ?_, ?_, ?_, ?_, ?_, ?_, ?_⟩
  · intro transaction info
    unfold Catalog.CreateTable.withTransaction create_through_schema
    cases catalog.GetSchemaOrThrow info.base.schema <;> rfl
  · intro context info
    rfl
  · intro transaction info
    unfold Catalog.CreateView.withTransaction create_through_schema
    cases catalog.GetSchemaOrThrow info.schema <;> rfl
  · intro context info
    rfl
  · intro transaction info
    unfold Catalog.CreateSequence.withTransaction create_through_schema
    cases catalog.GetSchemaOrThrow info.schema <;> rfl
  · intro context info
    rfl
  · intro transaction info
    unfold Catalog.CreateType.withTransaction create_through_schema
    cases catalog.GetSchemaOrThrow info.schema <;> rfl
  · intro context info
    rfl
  · intro transaction info
    unfold Catalog.CreateTableFunction.withTransaction create_through_schema
    cases catalog.GetSchemaOrThrow info.schema <;> rfl
  · intro context info
    rfl
  · intro transaction info
    unfold Catalog.CreateCopyFunction.withTransaction create_through_schema
    cases catalog.GetSchemaOrThrow info.schema <;> rfl
  · intro context info
    rfl
  · intro transaction info
    unfold Catalog.CreatePragmaFunction.withTransaction create_through_schema
    cases catalog.GetSchemaOrThrow info.schema <;> rfl
  · intro context info
    rfl
  · intro transaction info
    unfold Catalog.CreateFunction.withTransaction create_through_schema
    cases catalog.GetSchemaOrThrow info.schema <;> rfl
  · intro context info
    rfl
  · intro transaction info
    unfold Catalog.CreateCollation.withTransaction create_through_schema
    cases catalog.GetSchemaOrThrow info.schema <;> rfl
  · intro context info
    rfl

/-! ## Further catalog queries: theorems -/

/-- C23: `Catalog::GetType(context, schema, name, if_exists)` returns the user type of the type
entry it resolves, with that entry attached as the catalog back-reference, when the first probed
schema that holds a type entry of that name holds `e`; and returns `LogicalType::INVALID`, without
raising, when no probed schema holds one and `if_exists` is true. -/
theorem GetType_spec (user_type : CatalogEntry → LogicalType) (catalog : Catalog)
    (context : ClientContext) (schema name : String) :
    (∀ (if_exists : Bool) (pre post : List String) (sn : String) (s : SchemaCatalogEntry)
        (e : CatalogEntry),
      (if IsInvalidSchema schema = true then
          (GetCatalogEntries context catalog.name INVALID_SCHEMA).map (fun entry => entry.schema)
        else [schema]) = pre ++ sn :: post →
      (∀ x ∈ pre, (catalog.LookupEntryInternal .TYPE_ENTRY x name).Found = false) →
      catalog.GetSchema sn = some s → s.GetEntry .TYPE_ENTRY name = some e →
      Catalog.GetType user_type catalog context schema name if_exists
        = .ok (LogicalType.mk (user_type e).id (some e)))
    ∧ ((∀ sn ∈ (if IsInvalidSchema schema = true then
            (GetCatalogEntries context catalog.name INVALID_SCHEMA).map
              (fun entry => entry.schema)
          else [schema]),
        (catalog.LookupEntryInternal .TYPE_ENTRY sn name).Found = false) →
      Catalog.GetType user_type catalog context schema name true = .ok LogicalType.INVALID) := by
  constructor
  · intro if_exists pre post sn s e hnames hpre hs he
    have hlook := Catalog.LookupEntryInCatalog_hit catalog context .TYPE_ENTRY schema name
      if_exists pre post sn s e hnames hpre hs he
    simp [Catalog.GetType, Catalog.GetEntryInCatalog, hlook, LogicalType.SetCatalog]
  · intro hmiss
    have hlook := Catalog.LookupEntryInCatalog_miss catalog context .TYPE_ENTRY schema name hmiss
    simp [Catalog.GetType, Catalog.GetEntryInCatalog, hlook]

/-- C23, in the catalog `types` of the example: the type `mood` of its schema `main` resolves to
its user type with the entry attached, and the type `nowhere` to `LogicalType::INVALID`. -/
theorem GetType_spec_witness :
    Catalog.GetType example_user_type example_types example_context "main" "mood" false
      = .ok ⟨"ENUM", some ⟨.TYPE_ENTRY, "mood", 20⟩⟩
    ∧ (∀ sn ∈ (if IsInvalidSchema "main" = true then
            (GetCatalogEntries example_context example_types.name INVALID_SCHEMA).map
              (fun entry => entry.schema)
          else ["main"]),
        (example_types.LookupEntryInternal .TYPE_ENTRY sn "nowhere").Found = false)
    ∧ Catalog.GetType example_user_type example_types example_context "main" "nowhere" true
      = .ok LogicalType.INVALID :=
  ⟨(GetType_spec example_user_type example_types example_context "main" "mood").1 false
      [] [] "main" ⟨"types", "main", [⟨.TYPE_ENTRY, "mood", 20⟩]⟩ ⟨.TYPE_ENTRY, "mood", 20⟩
      (by decide) (by simp) rfl rfl,
    by decide,
    (GetType_spec example_user_type example_types example_context "main" "nowhere").2
      (by decide)⟩

/-- C25: the qualification chosen by `FindMinimalQualification` is never empty, and it is
sufficient: the probe sites of `GetCatalogEntries` for the parts that are flagged, the other part
unspecified, contain `(C, S)`; when both parts are flagged this is for names `C` and `S` that are
not the sentinel for "unspecified". -/
theorem FindMinimalQualification_sufficient (context : ClientContext) (C S : String) :
    FindMinimalQualification context C S ≠ (false, false)
    ∧ (FindMinimalQualification context C S = (false, true) →
        CatalogSearchEntry.mk C S ∈ GetCatalogEntries context INVALID_CATALOG S)
    ∧ (FindMinimalQualification context C S = (true, false) →
        CatalogSearchEntry.mk C S ∈ GetCatalogEntries context C INVALID_SCHEMA)
    ∧ (FindMinimalQualification context C S = (true, true) →
        IsInvalidCatalog C = false → IsInvalidSchema S = false →
        CatalogSearchEntry.mk C S ∈ GetCatalogEntries context C S) := by
  unfold FindMinimalQualification
  by_cases h1 : FindMinimalQualification.found C S
      (GetCatalogEntries context INVALID_CATALOG S) = true
  · have hmem := (FindMinimalQualification.found_iff C S _).mp h1
    simp [h1, hmem]
  · by_cases h2 : FindMinimalQualification.found C S
        (GetCatalogEntries context C INVALID_SCHEMA) = true
    · have hmem := (FindMinimalQualification.found_iff C S _).mp h2
      simp [h1, h2, hmem]
    · simp only [h1, h2, Bool.false_eq_true, if_false]
      refine ⟨by simp, by simp, by simp, ?_⟩
      intro _ hC hS
      simp [GetCatalogEntries, hC, hS]

/-- C25, at `db2.s2` in the session of the third scenario, where both parts are needed. -/
theorem FindMinimalQualification_sufficient_witness :
    FindMinimalQualification scenario_widgets "db2" "s2" = (true, true)
    ∧ IsInvalidCatalog "db2" = false ∧ IsInvalidSchema "s2" = false
    ∧ CatalogSearchEntry.mk "db2" "s2" ∈ GetCatalogEntries scenario_widgets "db2" "s2" :=
  ⟨by decide, by decide, by decide,
    (FindMinimalQualification_sufficient scenario_widgets "db2" "s2").2.2.2 (by decide)
      (by decide) (by decide)⟩

/-- With `if_exists` set, `Catalog::GetEntry` never raises. -/
theorem Catalog.GetEntry.if_exists_ok (context : ClientContext) (type : CatalogType)
    (catalog schema name : String) :
    ∃ r, Catalog.GetEntry context type catalog schema name true = .ok r := by
  unfold Catalog.GetEntry
  rcases Catalog.GetEntry.resolved_or_not context
    (GetCatalogEntries context catalog schema) with hall | hsome
  · simp only [Catalog.GetEntry.lookups_resolved context true _ hall, Catalog.LookupEntry]
    obtain ⟨r, hr⟩ := Catalog.LookupEntry.probe_if_exists type name
      ((GetCatalogEntries context catalog schema).filterMap (fun p =>
        (Catalog.GetCatalogEntry context p.catalog).map
          (fun c => CatalogLookup.mk c p.schema))) []
    rw [hr]
    by_cases hf : r.Found = true
    · exact ⟨r.entry, by simp [hf]⟩
    · exact ⟨none, by simp [hf]⟩
  · obtain ⟨message, hm⟩ := Catalog.GetEntry.lookups_unresolved context true _ hsome
    exact ⟨none, by simp [hm]⟩

/-- C27: `Catalog::TypeExists(context, catalog, schema, name)` never raises, and it is true
exactly when the `if_exists` lookup of a type entry of that name at `(catalog, schema)` finds one
or, failing that, the `if_exists` lookup in the system catalog with the same schema finds one. -/
theorem TypeExists_spec (context : ClientContext) (catalog_name schema name : String) :
    ∃ first second,
      Catalog.GetEntry context .TYPE_ENTRY catalog_name schema name true = .ok first
      ∧ Catalog.GetEntry context .TYPE_ENTRY SYSTEM_CATALOG schema name true = .ok second
      ∧ Catalog.TypeExists context catalog_name schema name
          = .ok (first.isSome || second.isSome)
      ∧ (Catalog.TypeExists context catalog_name schema name = .ok true
          ↔ first.isSome = true ∨ second.isSome = true)
      ∧ (first = none → second = none →
          Catalog.TypeExists context catalog_name schema name = .ok false) := by
  obtain ⟨first, h1⟩ := Catalog.GetEntry.if_exists_ok context .TYPE_ENTRY catalog_name schema name
  obtain ⟨second, h2⟩ := Catalog.GetEntry.if_exists_ok context .TYPE_ENTRY SYSTEM_CATALOG schema
    name
  refine ⟨first, second, h1, h2, ?_⟩
  unfold Catalog.TypeExists
  rw [h1, h2]
  cases first <;> cases second <;> simp

/-- C27, in the example session with the type `mood` in the schema `main` of the system catalog:
the lookup at `db1.main` finds nothing, the lookup in the system catalog finds the type. -/
theorem TypeExists_spec_witness :
    Catalog.TypeExists
        { example_context with
          system := ⟨"system", [⟨"system", "main", [⟨.TYPE_ENTRY, "mood", 20⟩]⟩]⟩ }
        "db1" "main" "mood" = .ok true
    ∧ Catalog.TypeExists example_context "db1" "main" "mood" = .ok false
    ∧ ∃ first second,
      Catalog.GetEntry example_context .TYPE_ENTRY "db1" "main" "mood" true = .ok first
      ∧ Catalog.GetEntry example_context .TYPE_ENTRY SYSTEM_CATALOG "main" "mood" true
          = .ok second
      ∧ Catalog.TypeExists example_context "db1" "main" "mood"
          = .ok (first.isSome || second.isSome)
      ∧ (Catalog.TypeExists example_context "db1" "main" "mood" = .ok true
          ↔ first.isSome = true ∨ second.isSome = true)
      ∧ (first = none → second = none →
          Catalog.TypeExists example_context "db1" "main" "mood" = .ok false) :=
  ⟨rfl, rfl, TypeExists_spec example_context "db1" "main" "mood"⟩

/-- The loop of the static `GetSchema` returns the schema of the first site whose catalog holds
one of that name, when the catalogs of the sites before it exist and hold none. -/
theorem Catalog.GetSchemaFromContext.loop_hit (context : ClientContext) (schema_name : String)
    (if_exists_p : Bool) (pre post : List CatalogSearchEntry) (site : CatalogSearchEntry)
    (c : Catalog) (s : SchemaCatalogEntry)
    (hpre : ∀ p ∈ pre, ∃ cp, Catalog.GetCatalogEntry context p.catalog = some cp
      ∧ cp.GetSchema schema_name = none)
    (hc : Catalog.GetCatalogEntry context site.catalog = some c)
    (hs : c.GetSchema schema_name = some s) :
    Catalog.GetSchemaFromContext.loop context schema_name if_exists_p (pre ++ site :: post)
      = .ok (some s) := by
  induction pre with
  | nil =>
    simp [Catalog.GetSchemaFromContext.loop, Catalog.GetCatalog, hc, Catalog.GetSchemaChecked, hs]
  | cons p rest ih =>
    obtain ⟨cp, hcp, hnone⟩ := hpre p (List.mem_cons_self _ _)
    have hrest := ih (fun q hq => hpre q (List.mem_cons_of_mem _ hq))
    simp [Catalog.GetSchemaFromContext.loop, Catalog.GetCatalog, hcp, Catalog.GetSchemaChecked,
      hnone, hrest]

/-- When the catalog of every site exists and none holds a schema of that name, the loop of the
static `GetSchema` ends in absence if `if_exists_p` is set (or there is no site at all), and
raises the schema-not-found error at the last site otherwise. -/
theorem Catalog.GetSchemaFromContext.loop_miss (context : ClientContext) (schema_name : String)
    (if_exists_p : Bool) (entries : List CatalogSearchEntry)
    (hmiss : ∀ p ∈ entries, ∃ cp, Catalog.GetCatalogEntry context p.catalog = some cp
      ∧ cp.GetSchema schema_name = none) :
    Catalog.GetSchemaFromContext.loop context schema_name if_exists_p entries
      = (if if_exists_p = true ∨ entries = [] then .ok none
         else .error (.CatalogException
            ("Schema with name " ++ schema_name ++ " does not exist!"))) := by
  induction entries with
  | nil => simp [Catalog.GetSchemaFromContext.loop]
  | cons p rest ih =>
    obtain ⟨cp, hcp, hnone⟩ := hmiss p (List.mem_cons_self _ _)
    have hrest := ih (fun q hq => hmiss q (List.mem_cons_of_mem _ hq))
    cases rest with
    | nil =>
      cases if_exists_p <;>
        simp [Catalog.GetSchemaFromContext.loop, Catalog.GetCatalog, hcp,
          Catalog.GetSchemaChecked, hnone]
    | cons q rest2 =>
      simp only [Catalog.GetSchemaFromContext.loop, Catalog.GetCatalog, hcp,
        Catalog.GetSchemaChecked, hnone, List.isEmpty_cons, Bool.false_eq_true, if_false, if_true]
        at hrest ⊢
      rw [hrest]
      simp

/-- The loop of the static `GetSchema` raises at the first site whose catalog does not exist,
whatever `if_exists_p` is, when the catalogs of the sites before it exist and hold no schema of
that name. -/
theorem Catalog.GetSchemaFromContext.loop_raises (context : ClientContext)
    (schema_name : String) (if_exists_p : Bool) (pre post : List CatalogSearchEntry)
    (site : CatalogSearchEntry)
    (hpre : ∀ p ∈ pre, ∃ cp, Catalog.GetCatalogEntry context p.catalog = some cp
      ∧ cp.GetSchema schema_name = none)
    (hc : Catalog.GetCatalogEntry context site.catalog = none) :
    Catalog.GetSchemaFromContext.loop context schema_name if_exists_p (pre ++ site :: post)
      = .error (.BinderException ("Catalog \"" ++ site.catalog ++ "\" does not exist!")) := by
  induction pre with
  | nil =>
    simp [Catalog.GetSchemaFromContext.loop, Catalog.GetCatalog, hc]
  | cons p rest ih =>
    obtain ⟨cp, hcp, hnone⟩ := hpre p (List.mem_cons_self _ _)
    have hrest := ih (fun q hq => hpre q (List.mem_cons_of_mem _ hq))
    simp [Catalog.GetSchemaFromContext.loop, Catalog.GetCatalog, hcp, Catalog.GetSchemaChecked,
      hnone, hrest]

/-- C24 (the code departs from the claim): in the example session no catalog named `nodb` is
attached, so no catalog of the probe sites of `(nodb, main)` holds a schema `main`, and with
`if_exists` set the claim gives absence. The static `GetSchema` raises instead, because it
fetches the catalog of the probe site with `GetCatalog`; the sibling `GetEntry`, asked for an
entry at the same site with `if_exists` set, returns absence. -/
theorem GetSchema_unattached_catalog_raises :
    GetCatalogEntries example_context "nodb" "main" = [⟨"nodb", "main"⟩]
    ∧ Catalog.GetCatalogEntry example_context "nodb" = none
    ∧ Catalog.GetSchemaFromContext example_context "nodb" "main" true
      = .error (.BinderException "Catalog \"nodb\" does not exist!")
    ∧ Catalog.GetEntry example_context .TABLE_ENTRY "nodb" "main" "t" true = .ok none :=
  ⟨rfl, rfl, rfl, rfl⟩

/-- On probe sites whose catalogs exist the static `Catalog::GetSchema` does what is asked of
it: it probes them in the order of `GetCatalogEntries(catalog_name, schema_name)` and returns
the schema of the first one that holds a schema named `schema_name`; a site before it whose
catalog lacks the schema does not raise. When none holds it, the result is absence if
`if_exists` is true and, if `if_exists` is false and there is a probe site, the
schema-not-found error. -/
theorem GetSchema_first_catalog (context : ClientContext) (catalog_name schema_name : String) :
    (∀ (if_exists_p : Bool) (pre post : List CatalogSearchEntry) (site : CatalogSearchEntry)
        (c : Catalog) (s : SchemaCatalogEntry),
      GetCatalogEntries context catalog_name schema_name = pre ++ site :: post →
      (∀ p ∈ pre, ∃ cp, Catalog.GetCatalogEntry context p.catalog = some cp
        ∧ cp.GetSchema schema_name = none) →
      Catalog.GetCatalogEntry context site.catalog = some c →
      c.GetSchema schema_name = some s →
      Catalog.GetSchemaFromContext context catalog_name schema_name if_exists_p = .ok (some s))
    ∧ ((∀ p ∈ GetCatalogEntries context catalog_name schema_name,
          ∃ cp, Catalog.GetCatalogEntry context p.catalog = some cp
            ∧ cp.GetSchema schema_name = none) →
      Catalog.GetSchemaFromContext context catalog_name schema_name true = .ok none
      ∧ (GetCatalogEntries context catalog_name schema_name ≠ [] →
          Catalog.GetSchemaFromContext context catalog_name schema_name false
            = .error (.CatalogException
                ("Schema with name " ++ schema_name ++ " does not exist!")))) := by
  constructor
  · intro if_exists_p pre post site c s hsites hpre hc hs
    unfold Catalog.GetSchemaFromContext
    rw [hsites]
    exact Catalog.GetSchemaFromContext.loop_hit context schema_name if_exists_p pre post site c s
      hpre hc hs
  · intro hmiss
    unfold Catalog.GetSchemaFromContext
    constructor
    · rw [Catalog.GetSchemaFromContext.loop_miss context schema_name true _ hmiss]
      simp
    · intro hne
      rw [Catalog.GetSchemaFromContext.loop_miss context schema_name false _ hmiss]
      simp [hne]

/-- The static `GetSchema` in a session whose search path is `db2.s1, db1.s1`: the schema `s1`
is missing in `db2`, which does not raise, and is found in `db1`. -/
theorem GetSchema_first_catalog_witness :
    GetCatalogEntries
        { example_context with
          catalog_search_path := CatalogSearchPath.ofPaths [⟨"db2", "s1"⟩, ⟨"db1", "s1"⟩] }
        INVALID_CATALOG "s1"
      = [⟨"db2", "s1"⟩] ++ ⟨"db1", "s1"⟩ :: []
    ∧ (∀ p ∈ [CatalogSearchEntry.mk "db2" "s1"],
        ∃ cp, Catalog.GetCatalogEntry
            { example_context with
              catalog_search_path := CatalogSearchPath.ofPaths [⟨"db2", "s1"⟩, ⟨"db1", "s1"⟩] }
            p.catalog = some cp
          ∧ cp.GetSchema "s1" = none)
    ∧ Catalog.GetSchemaFromContext
        { example_context with
          catalog_search_path := CatalogSearchPath.ofPaths [⟨"db2", "s1"⟩, ⟨"db1", "s1"⟩] }
        INVALID_CATALOG "s1" false
      = .ok (some example_db1_s1) :=
  have hpre : ∀ p ∈ [CatalogSearchEntry.mk "db2" "s1"],
      ∃ cp, Catalog.GetCatalogEntry
          { example_context with
            catalog_search_path := CatalogSearchPath.ofPaths [⟨"db2", "s1"⟩, ⟨"db1", "s1"⟩] }
          p.catalog = some cp
        ∧ cp.GetSchema "s1" = none := by
    intro p hp
    rw [List.mem_singleton] at hp
    subst hp
    exact ⟨example_db2, rfl, rfl⟩
  ⟨rfl, hpre,
    (GetSchema_first_catalog
      { example_context with
        catalog_search_path := CatalogSearchPath.ofPaths [⟨"db2", "s1"⟩, ⟨"db1", "s1"⟩] }
      INVALID_CATALOG "s1").1 false [⟨"db2", "s1"⟩] [] ⟨"db1", "s1"⟩ example_db1 example_db1_s1
      rfl hpre rfl rfl⟩

/-- The scalar `yearweek` of a date is the year times 100 plus the ISO week number. -/
theorem DatePart.YearWeekOperator.Operation_eq (Date : DateFunctions) (input : date_t) :
    DatePart.YearWeekOperator.Operation Date input =
      Date.ExtractYear input * 100 + Date.ExtractISOWeekNumber input := rfl

/-- The `YEARWEEK` slot of the struct variant is the year times 100 plus the ISO day of the week
modulo 7, which is the value of the `DOW` slot and not the ISO week number of the `WEEK` slot. -/
theorem DatePart.StructOperator.Operation_YEARWEEK (Date : DateFunctions)
    (part_values : DatePartSpecifier → Int) (input : date_t) :
    DatePart.StructOperator.Operation Date part_values input .YEARWEEK =
        (Date.Convert input).1 * 100 + Int.tmod (Date.ExtractISODayOfTheWeek input) 7 ∧
      DatePart.StructOperator.Operation Date part_values input .YEARWEEK =
        DatePart.StructOperator.Operation Date part_values input .YEAR * 100 +
          DatePart.StructOperator.Operation Date part_values input .DOW ∧
      DatePart.StructOperator.Operation Date part_values input .WEEK =
        Date.ExtractISOWeekNumber input :=
  ⟨rfl, rfl, rfl⟩

/-- C29 (the code departs from the claim): on 2021-03-15, day 18701, a Monday in ISO week 11 of
2021, the scalar `yearweek` operator gives 202111, the year times 100 plus the ISO week number,
while the `YEARWEEK` slot of the struct variant holds 202101, the year times 100 plus the day of
the week; the `WEEK` slot of the same struct holds 11. -/
theorem yearweek_struct_slot_disagrees (part_values : DatePartSpecifier → Int) :
    example_Date.Convert ⟨18701⟩ = (2021, 3, 15) ∧
      example_Date.ExtractYear ⟨18701⟩ = 2021 ∧
      example_Date.ExtractISOWeekNumber ⟨18701⟩ = 11 ∧
      example_Date.ExtractISODayOfTheWeek ⟨18701⟩ = 1 ∧
      DatePart.YearWeekOperator.Operation example_Date ⟨18701⟩ = 202111 ∧
      DatePart.StructOperator.Operation example_Date part_values ⟨18701⟩ .WEEK = 11 ∧
      DatePart.StructOperator.Operation example_Date part_values ⟨18701⟩ .YEARWEEK = 202101 ∧
      DatePart.StructOperator.Operation example_Date part_values ⟨18701⟩ .YEARWEEK ≠
        DatePart.YearWeekOperator.Operation example_Date ⟨18701⟩ := by
  refine ⟨by decide, by decide, by decide, by decide, by decide, ?_, ?_, ?_⟩
  · show example_Date.ExtractISOWeekNumber ⟨18701⟩ = 11
    decide
  · show (example_Date.Convert ⟨18701⟩).1 * 100 +
      Int.tmod (example_Date.ExtractISODayOfTheWeek ⟨18701⟩) 7 = 202101
    decide
  · show (example_Date.Convert ⟨18701⟩).1 * 100 +
      Int.tmod (example_Date.ExtractISODayOfTheWeek ⟨18701⟩) 7 ≠
        DatePart.YearWeekOperator.Operation example_Date ⟨18701⟩
    decide

/-- C30: for a time of day `t` with `0 ≤ t.micros < 86400000000`, the microsecond, millisecond,
second, minute, hour and epoch parts of `t` lie between the `min` and the `max` of the statistics
that the operator propagates, and these are 0 and 60000000, 60000, 60, 60, 24 and 86400. -/
theorem time_parts_within_statistics (t : dtime_t) (child_stats : Option BaseStatistics)
    (h0 : 0 ≤ t.micros) (h1 : t.micros < 86400000000) :
    ((DatePart.MicrosecondsOperator.PropagateStatistics child_stats).min = 0 ∧
        (DatePart.MicrosecondsOperator.PropagateStatistics child_stats).max = 60000000 ∧
        (DatePart.MicrosecondsOperator.PropagateStatistics child_stats).min ≤
          DatePart.MicrosecondsOperator.Operation_dtime_t t ∧
        DatePart.MicrosecondsOperator.Operation_dtime_t t ≤
          (DatePart.MicrosecondsOperator.PropagateStatistics child_stats).max) ∧
      ((DatePart.MillisecondsOperator.PropagateStatistics child_stats).min = 0 ∧
        (DatePart.MillisecondsOperator.PropagateStatistics child_stats).max = 60000 ∧
        (DatePart.MillisecondsOperator.PropagateStatistics child_stats).min ≤
          DatePart.MillisecondsOperator.Operation_dtime_t t ∧
        DatePart.MillisecondsOperator.Operation_dtime_t t ≤
          (DatePart.MillisecondsOperator.PropagateStatistics child_stats).max) ∧
      ((DatePart.SecondsOperator.PropagateStatistics child_stats).min = 0 ∧
        (DatePart.SecondsOperator.PropagateStatistics child_stats).max = 60 ∧
        (DatePart.SecondsOperator.PropagateStatistics child_stats).min ≤
          DatePart.SecondsOperator.Operation_dtime_t t ∧
        DatePart.SecondsOperator.Operation_dtime_t t ≤
          (DatePart.SecondsOperator.PropagateStatistics child_stats).max) ∧
      ((DatePart.MinutesOperator.PropagateStatistics child_stats).min = 0 ∧
        (DatePart.MinutesOperator.PropagateStatistics child_stats).max = 60 ∧
        (DatePart.MinutesOperator.PropagateStatistics child_stats).min ≤
          DatePart.MinutesOperator.Operation_dtime_t t ∧
        DatePart.MinutesOperator.Operation_dtime_t t ≤
          (DatePart.MinutesOperator.PropagateStatistics child_stats).max) ∧
      ((DatePart.HoursOperator.PropagateStatistics child_stats).min = 0 ∧
        (DatePart.HoursOperator.PropagateStatistics child_stats).max = 24 ∧
        (DatePart.HoursOperator.PropagateStatistics child_stats).min ≤
          DatePart.HoursOperator.Operation_dtime_t t ∧
        DatePart.HoursOperator.Operation_dtime_t t ≤
          (DatePart.HoursOperator.PropagateStatistics child_stats).max) ∧
      ((DatePart.EpochOperator.PropagateStatistics_dtime_t child_stats).min = 0 ∧
        (DatePart.EpochOperator.PropagateStatistics_dtime_t child_stats).max = 86400 ∧
        (DatePart.EpochOperator.PropagateStatistics_dtime_t child_stats).min ≤
          DatePart.EpochOperator.Operation_dtime_t t ∧
        DatePart.EpochOperator.Operation_dtime_t t ≤
          (DatePart.EpochOperator.PropagateStatistics_dtime_t child_stats).max) := by
  have hm : Int.tmod t.micros 60000000 = t.micros % 60000000 :=
    Int.tmod_eq_emod h0 (by decide)
  have hh : Int.tmod t.micros 3600000000 = t.micros % 3600000000 :=
    Int.tmod_eq_emod h0 (by decide)
  have hm0 : (0 : Int) ≤ t.micros % 60000000 := Int.emod_nonneg _ (by decide)
  have hh0 : (0 : Int) ≤ t.micros % 3600000000 := Int.emod_nonneg _ (by decide)
  simp only [DatePart.MicrosecondsOperator.PropagateStatistics,
    DatePart.MillisecondsOperator.PropagateStatistics,
    DatePart.SecondsOperator.PropagateStatistics, DatePart.MinutesOperator.PropagateStatistics,
    DatePart.HoursOperator.PropagateStatistics,
    DatePart.EpochOperator.PropagateStatistics_dtime_t, PropagateSimpleDatePartStatistics,
    DatePart.MicrosecondsOperator.Operation_dtime_t,
    DatePart.MillisecondsOperator.Operation_dtime_t, DatePart.SecondsOperator.Operation_dtime_t,
    DatePart.MinutesOperator.Operation_dtime_t, DatePart.HoursOperator.Operation_dtime_t,
    DatePart.EpochOperator.Operation_dtime_t, Interval.MICROS_PER_MSEC, Interval.MICROS_PER_SEC,
    Interval.MICROS_PER_MINUTE, Interval.MICROS_PER_HOUR, hm, hh]
  rw [Int.tdiv_eq_ediv hm0 (by decide), Int.tdiv_eq_ediv hm0 (by decide),
    Int.tdiv_eq_ediv hh0 (by decide), Int.tdiv_eq_ediv h0 (by decide),
    Int.tdiv_eq_ediv h0 (by decide)]
  clear hm hh
  refine ⟨⟨trivial, trivial, ?_, ?_⟩, ⟨trivial, trivial, ?_, ?_⟩, ⟨trivial, trivial, ?_, ?_⟩,
    ⟨trivial, trivial, ?_, ?_⟩, ⟨trivial, trivial, ?_, ?_⟩, ⟨trivial, trivial, ?_, ?_⟩⟩ <;> omega

/-- Witness for C30: at 23:59:59.999999 the parts are 59999999, 59999, 59, 59, 23 and 86399. -/
theorem time_parts_within_statistics_witness :
    ((0 : Int) ≤ (dtime_t.mk 86399999999).micros ∧
        (dtime_t.mk 86399999999).micros < 86400000000) ∧
      DatePart.MicrosecondsOperator.Operation_dtime_t ⟨86399999999⟩ = 59999999 ∧
      DatePart.MillisecondsOperator.Operation_dtime_t ⟨86399999999⟩ = 59999 ∧
      DatePart.SecondsOperator.Operation_dtime_t ⟨86399999999⟩ = 59 ∧
      DatePart.MinutesOperator.Operation_dtime_t ⟨86399999999⟩ = 59 ∧
      DatePart.HoursOperator.Operation_dtime_t ⟨86399999999⟩ = 23 ∧
      DatePart.EpochOperator.Operation_dtime_t ⟨86399999999⟩ = 86399 ∧
      DatePart.EpochOperator.Operation_dtime_t ⟨86399999999⟩ ≤
        (DatePart.EpochOperator.PropagateStatistics_dtime_t none).max :=
  ⟨⟨by decide, by decide⟩, by decide, by decide, by decide, by decide, by decide, by decide,
    (time_parts_within_statistics ⟨86399999999⟩ none (by decide) (by decide)).2.2.2.2.2.2.2.2⟩

/-- Truncating division of a non-positive number by a non-negative one, through the division
that rounds down. -/
theorem tdiv_of_nonpos {a b : Int} (ha : a ≤ 0) (hb : 0 ≤ b) :
    Int.tdiv a b = -((-a) / b) := by
  have h := Int.neg_tdiv (-a) b
  rw [Int.neg_neg] at h
  rw [h, Int.tdiv_eq_ediv (by omega) hb]

/-- The remainder of the truncating division of a non-positive number. -/
theorem tmod_of_nonpos {a b : Int} (ha : a ≤ 0) (hb : 0 ≤ b) :
    Int.tmod a b = -((-a) % b) := by
  have h1 := Int.tmod_add_tdiv a b
  have h2 := tdiv_of_nonpos ha hb
  have h3 := Int.emod_add_ediv (-a) b
  rw [h2] at h1
  have h4 : b * -(-a / b) = -(b * (-a / b)) := by ring
  rw [h4] at h1
  omega

/-- The quarter of a date whose month is in 1..12 is `(m - 1) / 3 + 1` and lies in 1..4, the
bounds of the statistics of the operator. -/
theorem DatePart.QuarterOperator.Operation_range (Date : DateFunctions) (input : date_t)
    (h1 : 1 ≤ Date.ExtractMonth input) (h12 : Date.ExtractMonth input ≤ 12)
    (child_stats : Option BaseStatistics) :
    DatePart.QuarterOperator.Operation Date input = (Date.ExtractMonth input - 1) / 3 + 1
    ∧ (DatePart.QuarterOperator.PropagateStatistics child_stats).min = 1
    ∧ (DatePart.QuarterOperator.PropagateStatistics child_stats).max = 4
    ∧ 1 ≤ DatePart.QuarterOperator.Operation Date input
    ∧ DatePart.QuarterOperator.Operation Date input ≤ 4 := by
  have h := Int.tdiv_eq_ediv (show (0 : Int) ≤ Date.ExtractMonth input - 1 by omega)
    (show (0 : Int) ≤ 3 by decide)
  simp only [DatePart.QuarterOperator.Operation, Interval.MONTHS_PER_QUARTER, h,
    DatePart.QuarterOperator.PropagateStatistics, PropagateSimpleDatePartStatistics]
  refine ⟨trivial, trivial, trivial, ?_, ?_⟩ <;> omega

/-- The quarter of an interval lies in 1..4 when the month count is not negative, and in -2..1
when it is negative. -/
theorem DatePart.QuarterOperator.Operation_interval_t_range (input : interval_t) :
    (0 ≤ input.months →
      1 ≤ DatePart.QuarterOperator.Operation_interval_t input
      ∧ DatePart.QuarterOperator.Operation_interval_t input ≤ 4)
    ∧ (input.months < 0 →
      -2 ≤ DatePart.QuarterOperator.Operation_interval_t input
      ∧ DatePart.QuarterOperator.Operation_interval_t input ≤ 1) := by
  simp only [DatePart.QuarterOperator.Operation_interval_t,
    DatePart.MonthOperator.Operation_interval_t, Interval.MONTHS_PER_QUARTER,
    Interval.MONTHS_PER_YEAR]
  constructor
  · intro h
    have h0 : (0 : Int) ≤ input.months % 12 := Int.emod_nonneg _ (by decide)
    rw [Int.tmod_eq_emod h (by decide), Int.tdiv_eq_ediv h0 (by decide)]
    constructor <;> omega
  · intro h
    have h0 : -(-input.months % 12) ≤ 0 := by omega
    rw [tmod_of_nonpos (Int.le_of_lt h) (by decide), tdiv_of_nonpos h0 (by decide)]
    constructor <;> omega

/-- C31 (the code departs from the claim): for the interval of -4 months the quarter operator
gives 0, since `-4 % 12` is -4 and `-4 / 3` is -1 under truncating arithmetic; 0 is outside 1..4,
the range of a quarter and the bounds of the statistics of the operator. -/
theorem quarter_of_negative_interval :
    DatePart.MonthOperator.Operation_interval_t ⟨-4, 0, 0⟩ = -4
    ∧ DatePart.QuarterOperator.Operation_interval_t ⟨-4, 0, 0⟩ = 0
    ∧ DatePart.StructOperator.Operation_interval_t (fun _ => 0) ⟨-4, 0, 0⟩ .QUARTER = 0
    ∧ ¬ (1 ≤ DatePart.QuarterOperator.Operation_interval_t ⟨-4, 0, 0⟩
        ∧ DatePart.QuarterOperator.Operation_interval_t ⟨-4, 0, 0⟩ ≤ 4)
    ∧ (DatePart.QuarterOperator.PropagateStatistics none).min = 1
    ∧ DatePart.QuarterOperator.Operation_interval_t ⟨-11, 0, 0⟩ = -2 := by
  refine ⟨by decide, by decide, by decide, by decide, by decide, by decide⟩

/-- Truncating division by a positive literal is monotone. -/
theorem tdiv_mono {a b c : Int} (hc : 0 < c) (h : a ≤ b) : Int.tdiv a c ≤ Int.tdiv b c := by
  have hc0 : 0 ≤ c := Int.le_of_lt hc
  rcases Int.le_total 0 a with ha | ha
  · rw [Int.tdiv_eq_ediv ha hc0, Int.tdiv_eq_ediv (Int.le_trans ha h) hc0]
    exact Int.ediv_le_ediv hc h
  · rcases Int.le_total 0 b with hb | hb
    · rw [tdiv_of_nonpos ha hc0, Int.tdiv_eq_ediv hb hc0]
      have h1 : 0 ≤ -a / c := Int.ediv_nonneg (by omega) hc0
      have h2 : 0 ≤ b / c := Int.ediv_nonneg hb hc0
      omega
    · rw [tdiv_of_nonpos ha hc0, tdiv_of_nonpos hb hc0]
      have h1 : -b / c ≤ -a / c := Int.ediv_le_ediv hc (by omega)
      omega

/-- For a year of at least 1, `(y - 1) / c + 1` is the ceiling of `y / c`. -/
theorem ceil_div_of_pos (y c : Int) (hy : 1 ≤ y) (hc : 0 < c) :
    ⌈(y : ℚ) / (c : ℚ)⌉ = Int.tdiv (y - 1) c + 1 := by
  rw [Int.tdiv_eq_ediv (by omega) (Int.le_of_lt hc), Int.ceil_eq_iff]
  have hcq : (0 : ℚ) < (c : ℚ) := by exact_mod_cast hc
  have e1 := Int.emod_add_ediv (y - 1) c
  have e2 := Int.emod_nonneg (y - 1) (Int.ne_of_gt hc)
  have e3 := Int.emod_lt_of_pos (y - 1) hc
  have h1 : (c : ℚ) * (((y - 1) / c : Int) : ℚ) ≤ (y : ℚ) - 1 := by
    have : c * ((y - 1) / c) ≤ y - 1 := by omega
    exact_mod_cast this
  have h2 : (y : ℚ) ≤ (c : ℚ) * ((((y - 1) / c : Int) : ℚ) + 1) := by
    have : y ≤ c * ((y - 1) / c + 1) := by
      rw [Int.mul_add, Int.mul_one]
      omega
    exact_mod_cast this
  constructor
  · rw [lt_div_iff₀ hcq]
    push_cast
    nlinarith
  · rw [div_le_iff₀ hcq]
    push_cast
    nlinarith

/-- C32: the decade, century and millennium of a date are `y / 10`, `(y - 1) / 100 + 1` and
`(y - 1) / 1000 + 1` for its year `y`, with truncating division; they are monotone in the year,
over all years, so the statistics that `PropagateDatePartStatistics` builds from the operator at
the minimum and at the maximum bound the part of every date whose year lies between the years of
the two; and for a year of at least 1 the century is the ceiling of `y / 100` and the millennium
the ceiling of `y / 1000`. -/
theorem year_parts_monotone (Date : DateFunctions) :
    (∀ d : date_t,
      DatePart.DecadeOperator.Operation Date d = Int.tdiv (Date.ExtractYear d) 10
      ∧ DatePart.CenturyOperator.Operation Date d = Int.tdiv (Date.ExtractYear d - 1) 100 + 1
      ∧ DatePart.MilleniumOperator.Operation Date d
          = Int.tdiv (Date.ExtractYear d - 1) 1000 + 1)
    ∧ (∀ d1 d2 : date_t, Date.ExtractYear d1 ≤ Date.ExtractYear d2 →
      DatePart.DecadeOperator.Operation Date d1 ≤ DatePart.DecadeOperator.Operation Date d2
      ∧ DatePart.CenturyOperator.Operation Date d1 ≤ DatePart.CenturyOperator.Operation Date d2
      ∧ DatePart.MilleniumOperator.Operation Date d1
          ≤ DatePart.MilleniumOperator.Operation Date d2)
    ∧ (∀ (lo hi d : date_t) (validity : Option ValidityStatistics),
      lo.days ≤ hi.days →
      Date.ExtractYear lo ≤ Date.ExtractYear d → Date.ExtractYear d ≤ Date.ExtractYear hi →
      (∃ r, DatePart.DecadeOperator.PropagateStatistics Date (some ⟨some lo, some hi, validity⟩)
            = some r
          ∧ r.min ≤ DatePart.DecadeOperator.Operation Date d
          ∧ DatePart.DecadeOperator.Operation Date d ≤ r.max)
      ∧ (∃ r, DatePart.CenturyOperator.PropagateStatistics Date
              (some ⟨some lo, some hi, validity⟩) = some r
          ∧ r.min ≤ DatePart.CenturyOperator.Operation Date d
          ∧ DatePart.CenturyOperator.Operation Date d ≤ r.max)
      ∧ (∃ r, DatePart.MilleniumOperator.PropagateStatistics Date
              (some ⟨some lo, some hi, validity⟩) = some r
          ∧ r.min ≤ DatePart.MilleniumOperator.Operation Date d
          ∧ DatePart.MilleniumOperator.Operation Date d ≤ r.max))
    ∧ (∀ d : date_t, 1 ≤ Date.ExtractYear d →
      DatePart.CenturyOperator.Operation Date d = ⌈(Date.ExtractYear d : ℚ) / 100⌉
      ∧ DatePart.MilleniumOperator.Operation Date d = ⌈(Date.ExtractYear d : ℚ) / 1000⌉) := by
  have hmono : ∀ d1 d2 : date_t, Date.ExtractYear d1 ≤ Date.ExtractYear d2 →
      DatePart.DecadeOperator.Operation Date d1 ≤ DatePart.DecadeOperator.Operation Date d2
      ∧ DatePart.CenturyOperator.Operation Date d1 ≤ DatePart.CenturyOperator.Operation Date d2
      ∧ DatePart.MilleniumOperator.Operation Date d1
          ≤ DatePart.MilleniumOperator.Operation Date d2 := by
    intro d1 d2 h
    simp only [DatePart.DecadeOperator.Operation, DatePart.CenturyOperator.Operation,
      DatePart.MilleniumOperator.Operation, DatePart.YearOperator.Operation]
    have h1 : Date.ExtractYear d1 - 1 ≤ Date.ExtractYear d2 - 1 := by omega
    have a := tdiv_mono (show (0 : Int) < 10 by decide) h
    have b := tdiv_mono (show (0 : Int) < 100 by decide) h1
    have c := tdiv_mono (show (0 : Int) < 1000 by decide) h1
    refine ⟨a, ?_, ?_⟩ <;> omega
  refine ⟨fun d => ⟨rfl, rfl, rfl⟩, hmono, ?_, ?_⟩
  · intro lo hi d validity hdays hlo hhi
    have hnot : ¬ lo.days > hi.days := by omega
    obtain ⟨a1, b1, c1⟩ := hmono lo d hlo
    obtain ⟨a2, b2, c2⟩ := hmono d hi hhi
    refine ⟨⟨⟨DatePart.DecadeOperator.Operation Date lo,
          DatePart.DecadeOperator.Operation Date hi, validity⟩, ?_, a1, a2⟩,
      ⟨⟨DatePart.CenturyOperator.Operation Date lo,
          DatePart.CenturyOperator.Operation Date hi, validity⟩, ?_, b1, b2⟩,
      ⟨⟨DatePart.MilleniumOperator.Operation Date lo,
          DatePart.MilleniumOperator.Operation Date hi, validity⟩, ?_, c1, c2⟩⟩
    · simp only [DatePart.DecadeOperator.PropagateStatistics, PropagateDatePartStatistics,
        if_neg hnot]
    · simp only [DatePart.CenturyOperator.PropagateStatistics, PropagateDatePartStatistics,
        if_neg hnot]
    · simp only [DatePart.MilleniumOperator.PropagateStatistics, PropagateDatePartStatistics,
        if_neg hnot]
  · intro d hy
    simp only [DatePart.CenturyOperator.Operation, DatePart.MilleniumOperator.Operation,
      DatePart.YearOperator.Operation]
    have h100 := ceil_div_of_pos (Date.ExtractYear d) 100 hy (by decide)
    have h1000 := ceil_div_of_pos (Date.ExtractYear d) 1000 hy (by decide)
    push_cast at h100 h1000
    exact ⟨h100.symm, h1000.symm⟩

/-- C32 in the example calendar: a date in the year -29 and 2021-03-15; the decades are -2 and
202, the centuries 1 and 21, the millennia 1 and 3. -/
theorem year_parts_monotone_witness :
    example_Date.ExtractYear ⟨-730000⟩ = -29
    ∧ example_Date.ExtractYear ⟨18701⟩ = 2021
    ∧ DatePart.DecadeOperator.Operation example_Date ⟨-730000⟩ = -2
    ∧ DatePart.DecadeOperator.Operation example_Date ⟨18701⟩ = 202
    ∧ DatePart.CenturyOperator.Operation example_Date ⟨-730000⟩ = 1
    ∧ DatePart.CenturyOperator.Operation example_Date ⟨18701⟩ = 21
    ∧ DatePart.MilleniumOperator.Operation example_Date ⟨-730000⟩ = 1
    ∧ DatePart.MilleniumOperator.Operation example_Date ⟨18701⟩ = 3
    ∧ (DatePart.DecadeOperator.Operation example_Date ⟨-730000⟩
        ≤ DatePart.DecadeOperator.Operation example_Date ⟨18701⟩
      ∧ DatePart.CenturyOperator.Operation example_Date ⟨-730000⟩
        ≤ DatePart.CenturyOperator.Operation example_Date ⟨18701⟩
      ∧ DatePart.MilleniumOperator.Operation example_Date ⟨-730000⟩
        ≤ DatePart.MilleniumOperator.Operation example_Date ⟨18701⟩)
    ∧ (DatePart.CenturyOperator.Operation example_Date ⟨18701⟩
        = ⌈(example_Date.ExtractYear ⟨18701⟩ : ℚ) / 100⌉
      ∧ DatePart.MilleniumOperator.Operation example_Date ⟨18701⟩
        = ⌈(example_Date.ExtractYear ⟨18701⟩ : ℚ) / 1000⌉) :=
  ⟨by decide, by decide, by decide, by decide, by decide, by decide, by decide, by decide,
    (year_parts_monotone example_Date).2.1 ⟨-730000⟩ ⟨18701⟩ (by decide),
    (year_parts_monotone example_Date).2.2.2 ⟨18701⟩ (by decide)⟩

/-- The hour, the minute and the remainder below the minute, taken with truncating division,
add up to the number of microseconds, whatever its sign. -/
theorem micros_decompose (micros : Int) :
    Int.tdiv micros 3600000000 * 3600000000
        + Int.tdiv (Int.tmod micros 3600000000) 60000000 * 60000000
        + Int.tmod micros 60000000 = micros := by
  rcases Int.le_total 0 micros with h | h
  · have h0 : (0 : Int) ≤ micros % 3600000000 := Int.emod_nonneg _ (by decide)
    rw [Int.tmod_eq_emod h (by decide), Int.tmod_eq_emod h (by decide),
      Int.tdiv_eq_ediv h (by decide), Int.tdiv_eq_ediv h0 (by decide)]
    omega
  · have h0 : -(-micros % 3600000000) ≤ 0 := by omega
    rw [tmod_of_nonpos h (by decide), tmod_of_nonpos h (by decide),
      tdiv_of_nonpos h (by decide), tdiv_of_nonpos h0 (by decide)]
    omega

/-- C34: the hour, minute and microsecond parts of a time and of an interval decompose the
field `micros`: hour * 3600000000 + minute * 60000000 + microsecond = micros, for every value of
`micros`, where hour is `micros / MICROS_PER_HOUR`, minute is
`(micros % MICROS_PER_HOUR) / MICROS_PER_MINUTE` and microsecond is
`micros % MICROS_PER_MINUTE` under truncating division; the millisecond part is
microsecond / 1000 and the second part microsecond / 1000000. -/
theorem time_parts_decompose (t : dtime_t) (i : interval_t) :
    (DatePart.HoursOperator.Operation_dtime_t t * 3600000000
        + DatePart.MinutesOperator.Operation_dtime_t t * 60000000
        + DatePart.MicrosecondsOperator.Operation_dtime_t t = t.micros
      ∧ DatePart.HoursOperator.Operation_dtime_t t = Int.tdiv t.micros 3600000000
      ∧ DatePart.MinutesOperator.Operation_dtime_t t
          = Int.tdiv (Int.tmod t.micros 3600000000) 60000000
      ∧ DatePart.MicrosecondsOperator.Operation_dtime_t t = Int.tmod t.micros 60000000
      ∧ DatePart.MillisecondsOperator.Operation_dtime_t t
          = Int.tdiv (DatePart.MicrosecondsOperator.Operation_dtime_t t) 1000
      ∧ DatePart.SecondsOperator.Operation_dtime_t t
          = Int.tdiv (DatePart.MicrosecondsOperator.Operation_dtime_t t) 1000000)
    ∧ (DatePart.HoursOperator.Operation_interval_t i * 3600000000
        + DatePart.MinutesOperator.Operation_interval_t i * 60000000
        + DatePart.MicrosecondsOperator.Operation_interval_t i = i.micros
      ∧ DatePart.HoursOperator.Operation_interval_t i = Int.tdiv i.micros 3600000000
      ∧ DatePart.MinutesOperator.Operation_interval_t i
          = Int.tdiv (Int.tmod i.micros 3600000000) 60000000
      ∧ DatePart.MicrosecondsOperator.Operation_interval_t i = Int.tmod i.micros 60000000
      ∧ DatePart.MillisecondsOperator.Operation_interval_t i
          = Int.tdiv (DatePart.MicrosecondsOperator.Operation_interval_t i) 1000
      ∧ DatePart.SecondsOperator.Operation_interval_t i
          = Int.tdiv (DatePart.MicrosecondsOperator.Operation_interval_t i) 1000000) :=
  ⟨⟨micros_decompose t.micros, rfl, rfl, rfl, rfl, rfl⟩,
    ⟨micros_decompose i.micros, rfl, rfl, rfl, rfl, rfl⟩⟩

/-- C35: for every interval and each of the thirteen parts that the struct variant fills for
intervals, and for every time and each of the five time parts, the value that
`DatePart::StructOperator::Operation` writes is the value that `ExtractElement` returns for that
specifier and input; the other slots are left as they were. -/
theorem struct_matches_ExtractElement (part_values : DatePartSpecifier → Int) :
    (∀ (input : interval_t) (specifier : DatePartSpecifier),
      (specifier ∈ [DatePartSpecifier.YEAR, .MONTH, .DAY, .DECADE, .CENTURY, .MILLENNIUM,
          .QUARTER, .MICROSECONDS, .MILLISECONDS, .SECOND, .MINUTE, .HOUR, .EPOCH] →
        ExtractElement_interval_t specifier input
          = .ok (DatePart.StructOperator.Operation_interval_t part_values input specifier))
      ∧ (specifier ∉ [DatePartSpecifier.YEAR, .MONTH, .DAY, .DECADE, .CENTURY, .MILLENNIUM,
          .QUARTER, .MICROSECONDS, .MILLISECONDS, .SECOND, .MINUTE, .HOUR, .EPOCH] →
        DatePart.StructOperator.Operation_interval_t part_values input specifier
          = part_values specifier))
    ∧ (∀ (input : dtime_t) (specifier : DatePartSpecifier),
      (specifier ∈ [DatePartSpecifier.MICROSECONDS, .MILLISECONDS, .SECOND, .MINUTE, .HOUR] →
        ExtractElement_dtime_t specifier input
          = .ok (DatePart.StructOperator.Operation_dtime_t part_values input specifier))
      ∧ (specifier ∉ [DatePartSpecifier.MICROSECONDS, .MILLISECONDS, .SECOND, .MINUTE, .HOUR] →
        DatePart.StructOperator.Operation_dtime_t part_values input specifier
          = part_values specifier)) := by
  constructor
  · intro input specifier
    constructor
    · intro h
      cases specifier <;> first | rfl | (exact absurd h (by decide))
    · intro h
      cases specifier <;> first | rfl | (exact absurd (by decide) h)
  · intro input specifier
    constructor
    · intro h
      cases specifier <;> first | rfl | (exact absurd h (by decide))
    · intro h
      cases specifier <;> first | rfl | (exact absurd (by decide) h)

/-- C35 at the interval of 14 months, 3 days and 3723000004 microseconds and the time
01:02:03.000004: the quarter through both paths is 1, the minute 2. -/
theorem struct_matches_ExtractElement_witness :
    DatePartSpecifier.QUARTER ∈ [DatePartSpecifier.YEAR, .MONTH, .DAY, .DECADE, .CENTURY,
        .MILLENNIUM, .QUARTER, .MICROSECONDS, .MILLISECONDS, .SECOND, .MINUTE, .HOUR, .EPOCH]
    ∧ DatePartSpecifier.MINUTE
        ∈ [DatePartSpecifier.MICROSECONDS, .MILLISECONDS, .SECOND, .MINUTE, .HOUR]
    ∧ DatePart.StructOperator.Operation_interval_t (fun _ => 0) ⟨14, 3, 3723000004⟩ .QUARTER = 1
    ∧ DatePart.StructOperator.Operation_dtime_t (fun _ => 0) ⟨3723000004⟩ .MINUTE = 2
    ∧ ExtractElement_interval_t .QUARTER ⟨14, 3, 3723000004⟩
        = .ok (DatePart.StructOperator.Operation_interval_t (fun _ => 0) ⟨14, 3, 3723000004⟩
            .QUARTER)
    ∧ ExtractElement_dtime_t .MINUTE ⟨3723000004⟩
        = .ok (DatePart.StructOperator.Operation_dtime_t (fun _ => 0) ⟨3723000004⟩ .MINUTE) :=
  ⟨by decide, by decide, by decide, by decide,
    ((struct_matches_ExtractElement (fun _ => 0)).1 ⟨14, 3, 3723000004⟩ .QUARTER).1 (by decide),
    ((struct_matches_ExtractElement (fun _ => 0)).2 ⟨3723000004⟩ .MINUTE).1 (by decide)⟩

/-! ## Date part specifiers: theorems -/

/-- Lowering a character twice is lowering it once. -/
theorem Char.toLower_idem (c : Char) : Char.toLower (Char.toLower c) = Char.toLower c := by
  by_cases h : c.toNat ≥ 65 ∧ c.toNat ≤ 90
  · have h1 : Char.toLower c = Char.ofNat (c.toNat + 32) := by
      simp only [Char.toLower, h, and_self, if_true]
    rw [h1]
    obtain ⟨n, hn⟩ : ∃ n, c.toNat = n := ⟨_, rfl⟩
    rw [hn] at h ⊢
    obtain ⟨ha, hb⟩ := h
    interval_cases n <;> rfl
  · have h1 : Char.toLower c = c := by
      simp only [Char.toLower, h, if_false]
    rw [h1, h1]

/-- The lowercase form of a lowercase form is itself. -/
theorem StringUtil.Lower_idem (str : String) :
    StringUtil.Lower (StringUtil.Lower str) = StringUtil.Lower str := by
  simp only [StringUtil.Lower, List.map_map]
  congr 1
  apply List.map_congr_left
  intro c _
  exact Char.toLower_idem c

/-- One step of the lookup in the list of names. -/
theorem date_part_lookup_cons (name : String) (specifier : DatePartSpecifier)
    (names : List String) (rest : List (DatePartSpecifier × List String)) :
    (((specifier, names) :: rest).find? (fun group => decide (name ∈ group.2))).map
        (fun group => group.1)
      = if name ∈ names then some specifier
        else (rest.find? (fun group => decide (name ∈ group.2))).map (fun group => group.1) := by
  by_cases h : name ∈ names <;> simp [List.find?, h]

/-- The chain of comparisons of `TryGetDatePartSpecifier` is the lookup of the lowercase form in
the list of names. -/
theorem TryGetDatePartSpecifier_eq_lookup (specifier_p : String) :
    TryGetDatePartSpecifier specifier_p = date_part_of_name (StringUtil.Lower specifier_p) := by
  unfold TryGetDatePartSpecifier date_part_of_name date_part_names
  generalize StringUtil.Lower specifier_p = x
  simp only [date_part_lookup_cons, List.mem_cons, List.mem_singleton, List.not_mem_nil,
    or_false, List.find?_nil, Option.map_none']

/-- Every name of the list is looked up to the specifier of its own group: no name stands in two
groups. -/
theorem date_part_of_name_listed (specifier : DatePartSpecifier) (names : List String)
    (name : String) (hgroup : (specifier, names) ∈ date_part_names) (hname : name ∈ names) :
    date_part_of_name name = some specifier := by
  have hall : ∀ group ∈ date_part_names, ∀ n ∈ group.2,
      date_part_of_name n = some group.1 := by decide
  exact hall (specifier, names) hgroup name hname

/-- C33: `TryGetDatePartSpecifier` gives for `s` what it gives for the lowercase form of `s`;
it returns the specifier `r` exactly when the lowercase form of `s` is one of the names listed
for `r`, and returns false exactly when it is none of the listed names; so `m` and `M` are the
minute, `mon` the month and `ms` the milliseconds. `GetDatePartSpecifier` raises a
`ConversionException` exactly when `TryGetDatePartSpecifier` returns false, and returns the same
specifier otherwise. -/
theorem TryGetDatePartSpecifier_spec (s : String) :
    TryGetDatePartSpecifier s = TryGetDatePartSpecifier (StringUtil.Lower s)
    ∧ TryGetDatePartSpecifier s = date_part_of_name (StringUtil.Lower s)
    ∧ (∀ r, TryGetDatePartSpecifier s = some r
        ↔ ∃ names, (r, names) ∈ date_part_names ∧ StringUtil.Lower s ∈ names)
    ∧ (TryGetDatePartSpecifier s = none
        ↔ ∀ group ∈ date_part_names, StringUtil.Lower s ∉ group.2)
    ∧ (TryGetDatePartSpecifier "m" = some .MINUTE ∧ TryGetDatePartSpecifier "M" = some .MINUTE
      ∧ TryGetDatePartSpecifier "mon" = some .MONTH
      ∧ TryGetDatePartSpecifier "ms" = some .MILLISECONDS
      ∧ TryGetDatePartSpecifier "fortnight" = none)
    ∧ (TryGetDatePartSpecifier s = none →
        GetDatePartSpecifier s
          = .error (.ConversionException ("extract specifier \"" ++ s ++ "\" not recognized")))
    ∧ (∀ r, TryGetDatePartSpecifier s = some r → GetDatePartSpecifier s = .ok r)
    ∧ ((∃ e, GetDatePartSpecifier s = .error e) ↔ TryGetDatePartSpecifier s = none) := by
  have hlookup := TryGetDatePartSpecifier_eq_lookup s
  have hfind : ∀ r, date_part_of_name (StringUtil.Lower s) = some r
      ↔ ∃ names, (r, names) ∈ date_part_names ∧ StringUtil.Lower s ∈ names := by
    intro r
    constructor
    · intro h
      unfold date_part_of_name at h
      rw [Option.map_eq_some'] at h
      obtain ⟨group, hgroup, hr⟩ := h
      have hp := List.find?_some hgroup
      have hm := List.mem_of_find?_eq_some hgroup
      refine ⟨group.2, ?_, of_decide_eq_true hp⟩
      rw [← hr]
      exact hm
    · rintro ⟨names, hgroup, hname⟩
      exact date_part_of_name_listed r names _ hgroup hname
  refine ⟨?_, hlookup, ?_, ?_, ⟨by decide, by decide, by decide, by decide, by decide⟩,
    ?_, ?_, ?_⟩
  · rw [hlookup, TryGetDatePartSpecifier_eq_lookup (StringUtil.Lower s),
      StringUtil.Lower_idem]
  · intro r
    rw [hlookup]
    exact hfind r
  · rw [hlookup]
    constructor
    · intro hnone group hgroup hname
      have hsome := (hfind group.1).mpr ⟨group.2, hgroup, hname⟩
      rw [hnone] at hsome
      exact Option.noConfusion hsome
    · intro hall
      cases hcase : date_part_of_name (StringUtil.Lower s) with
      | none => rfl
      | some r =>
        obtain ⟨names, hgroup, hname⟩ := (hfind r).mp hcase
        exact absurd hname (hall (r, names) hgroup)
  · intro hnone
    simp only [GetDatePartSpecifier, hnone]
  · intro r hsome
    simp only [GetDatePartSpecifier, hsome]
  · constructor
    · rintro ⟨e, he⟩
      cases hcase : TryGetDatePartSpecifier s with
      | none => rfl
      | some r =>
        simp only [GetDatePartSpecifier, hcase] at he
        exact Except.noConfusion he
    · intro hnone
      refine ⟨.ConversionException ("extract specifier \"" ++ s ++ "\" not recognized"), ?_⟩
      simp only [GetDatePartSpecifier, hnone]

/-- C33 at `MiNuTeS`, which is the minute, and at `minutez`, which is not recognised. -/
theorem TryGetDatePartSpecifier_spec_witness :
    StringUtil.Lower "MiNuTeS" = "minutes"
    ∧ TryGetDatePartSpecifier "MiNuTeS" = some .MINUTE
    ∧ TryGetDatePartSpecifier "minutez" = none
    ∧ GetDatePartSpecifier "MiNuTeS" = .ok .MINUTE
    ∧ GetDatePartSpecifier "minutez"
        = .error (.ConversionException
            ("extract specifier \"" ++ "minutez" ++ "\" not recognized")) :=
  ⟨by decide, by decide, by decide,
    (TryGetDatePartSpecifier_spec "MiNuTeS").2.2.2.2.2.2.1 .MINUTE (by decide),
    (TryGetDatePartSpecifier_spec "minutez").2.2.2.2.2.1 (by decide)⟩

/-! ## Binding of the struct variant: theorems -/

/-- A name is found in the collision set exactly when its lowercase form is the lowercase form
of a member. -/
theorem case_insensitive_set_t.contains_iff (set : List String) (name : String) :
    case_insensitive_set_t.contains set name = true
      ↔ StringUtil.Lower name ∈ set.map StringUtil.Lower := by
  simp only [case_insensitive_set_t.contains, List.any_eq_true, decide_eq_true_eq,
    List.mem_map]

/-- The loop of the binding succeeds on names that are not NULL, recognised, pairwise different
ignoring case and not yet in the collision set; it appends the specifier and the `BIGINT` child
of each name, in order. -/
theorem StructDatePart.Bind.loop_accepts (function_name : String) (parts : List Value) :
    ∀ (set : List String) (part_codes : List DatePartSpecifier)
      (struct_children : List (String × LogicalType)),
      (∀ part ∈ parts, part.is_null = false) →
      (∀ part ∈ parts, (TryGetDatePartSpecifier part.ToString).isSome = true) →
      (parts.map (fun part => StringUtil.Lower part.ToString)).Nodup →
      (∀ part ∈ parts, StringUtil.Lower part.ToString ∉ set.map StringUtil.Lower) →
      ∃ codes, StructDatePart.Bind.loop function_name parts set part_codes struct_children
          = .ok (part_codes ++ codes,
              struct_children ++ parts.map (fun part => (part.ToString, LogicalType.BIGINT)))
        ∧ codes.map some = parts.map (fun part => TryGetDatePartSpecifier part.ToString) := by
  induction parts with
  | nil =>
    intro set part_codes struct_children _ _ _ _
    exact ⟨[], by simp [StructDatePart.Bind.loop], rfl⟩
  | cons part rest ih =>
    intro set part_codes struct_children hnull hknown hnodup hfresh
    have hn := hnull part (List.mem_cons_self _ _)
    have hk := hknown part (List.mem_cons_self _ _)
    have hf := hfresh part (List.mem_cons_self _ _)
    obtain ⟨code, hcode⟩ := Option.isSome_iff_exists.mp hk
    have hget : GetDatePartSpecifier part.ToString = .ok code := by
      simp only [GetDatePartSpecifier, hcode]
    have hcontains : case_insensitive_set_t.contains set part.ToString = false := by
      cases hc : case_insensitive_set_t.contains set part.ToString with
      | false => rfl
      | true => exact absurd ((case_insensitive_set_t.contains_iff _ _).mp hc) hf
    rw [List.map_cons, List.nodup_cons] at hnodup
    obtain ⟨codes, hloop, hcodes⟩ := ih (part.ToString :: set) (part_codes ++ [code])
      (struct_children ++ [(part.ToString, LogicalType.BIGINT)])
      (fun p hp => hnull p (List.mem_cons_of_mem _ hp))
      (fun p hp => hknown p (List.mem_cons_of_mem _ hp))
      hnodup.2
      (by
        intro p hp hmem
        rw [List.map_cons, List.mem_cons] at hmem
        rcases hmem with heq | hmem
        · exact hnodup.1 (heq ▸ List.mem_map_of_mem _ hp)
        · exact hfresh p (List.mem_cons_of_mem _ hp) hmem)
    refine ⟨code :: codes, ?_, ?_⟩
    · simp only [StructDatePart.Bind.loop, hn, hget, hcontains, hloop, Bool.false_eq_true,
        if_false, List.append_assoc, List.singleton_append, List.map_cons]
    · simp only [List.map_cons, hcode, hcodes]

/-- When the loop of the binding succeeds, the names were not NULL, recognised, pairwise
different ignoring case and not in the collision set. -/
theorem StructDatePart.Bind.loop_accepted (function_name : String) (parts : List Value) :
    ∀ (set : List String) (part_codes : List DatePartSpecifier)
      (struct_children : List (String × LogicalType))
      (result : List DatePartSpecifier × List (String × LogicalType)),
      StructDatePart.Bind.loop function_name parts set part_codes struct_children
        = .ok result →
      (∀ part ∈ parts, part.is_null = false)
      ∧ (∀ part ∈ parts, (TryGetDatePartSpecifier part.ToString).isSome = true)
      ∧ (parts.map (fun part => StringUtil.Lower part.ToString)).Nodup
      ∧ (∀ part ∈ parts, StringUtil.Lower part.ToString ∉ set.map StringUtil.Lower) := by
  induction parts with
  | nil =>
    intro set part_codes struct_children result _
    simp
  | cons part rest ih =>
    intro set part_codes struct_children result hloop
    unfold StructDatePart.Bind.loop at hloop
    cases hn : part.is_null with
    | true => simp [hn] at hloop
    | false =>
      simp only [hn, Bool.false_eq_true, if_false] at hloop
      cases hcode : TryGetDatePartSpecifier part.ToString with
      | none => simp [GetDatePartSpecifier, hcode] at hloop
      | some code =>
        simp only [GetDatePartSpecifier, hcode] at hloop
        cases hc : case_insensitive_set_t.contains set part.ToString with
        | true => simp [hc] at hloop
        | false =>
          simp only [hc, Bool.false_eq_true, if_false] at hloop
          obtain ⟨h1, h2, h3, h4⟩ := ih _ _ _ _ hloop
          have hfresh : StringUtil.Lower part.ToString ∉ set.map StringUtil.Lower := by
            intro hmem
            have := (case_insensitive_set_t.contains_iff set part.ToString).mpr hmem
            rw [hc] at this
            exact Bool.noConfusion this
          refine ⟨?_, ?_, ?_, ?_⟩
          · intro p hp
            rcases List.mem_cons.mp hp with rfl | hp
            · exact hn
            · exact h1 p hp
          · intro p hp
            rcases List.mem_cons.mp hp with rfl | hp
            · simp [hcode]
            · exact h2 p hp
          · rw [List.map_cons, List.nodup_cons]
            refine ⟨?_, h3⟩
            intro hmem
            obtain ⟨p, hp, heq⟩ := List.mem_map.mp hmem
            exact h4 p hp (by rw [List.map_cons, heq]; exact List.mem_cons_self _ _)
          · intro p hp
            rcases List.mem_cons.mp hp with rfl | hp
            · exact hfresh
            · intro hmem
              exact h4 p hp (by rw [List.map_cons]; exact List.mem_cons_of_mem _ hmem)

/-- C36: for a constant list of part names, `StructDatePart::Bind` accepts exactly when the
list is acceptable: not empty, without NULL, every name a recognised specifier, no two names
equal ignoring case. On acceptance the part codes and the `BIGINT` struct children follow the
names one for one, in order, and the list argument is removed from both argument lists;
otherwise the call raises, and the function and the arguments are as before. An argument that is
not a constant list raises as well. -/
theorem StructDatePart_Bind_spec (IsFoldable : Expression → Bool)
    (EvaluateScalar : Expression → Value) (bound_function : ScalarFunction)
    (argument : Expression) (rest : List Expression) :
    (IsFoldable argument = true → (EvaluateScalar argument).type_id = .LIST →
      (acceptable_part_names (EvaluateScalar argument).list_value →
        ∃ part_codes,
          StructDatePart.Bind IsFoldable EvaluateScalar bound_function argument rest
            = (.ok ⟨.STRUCT ((EvaluateScalar argument).list_value.map
                    (fun part => (part.ToString, LogicalType.BIGINT))), part_codes⟩,
                { name := bound_function.name
                  arguments := bound_function.arguments.tail
                  return_type := .STRUCT ((EvaluateScalar argument).list_value.map
                    (fun part => (part.ToString, LogicalType.BIGINT))) },
                rest)
          ∧ part_codes.map some = (EvaluateScalar argument).list_value.map
              (fun part => TryGetDatePartSpecifier part.ToString)
          ∧ part_codes.length = (EvaluateScalar argument).list_value.length)
      ∧ (¬ acceptable_part_names (EvaluateScalar argument).list_value →
        ∃ e, StructDatePart.Bind IsFoldable EvaluateScalar bound_function argument rest
          = (.error e, bound_function, argument :: rest)))
    ∧ (IsFoldable argument = false ∨ (EvaluateScalar argument).type_id ≠ .LIST →
      StructDatePart.Bind IsFoldable EvaluateScalar bound_function argument rest
        = (.error (.BinderException
            (bound_function.name ++ " can only take constant lists of part names")),
            bound_function, argument :: rest)) := by
  constructor
  · intro hfold hlist
    constructor
    · rintro ⟨hne, hnull, hknown, hnodup⟩
      obtain ⟨codes, hloop, hcodes⟩ := StructDatePart.Bind.loop_accepts bound_function.name
        (EvaluateScalar argument).list_value [] [] [] hnull hknown hnodup (by simp)
      have hempty : (EvaluateScalar argument).list_value.isEmpty = false := by
        cases hl : (EvaluateScalar argument).list_value with
        | nil => exact absurd hl hne
        | cons _ _ => rfl
      refine ⟨codes, ?_, hcodes, ?_⟩
      · simp only [StructDatePart.Bind, hfold, hlist, hempty, hloop, Bool.true_eq_false,
          Bool.false_eq_true, if_false, if_true, List.nil_append]
      · have := congrArg List.length hcodes
        simpa using this
    · intro hnot
      cases hl : (EvaluateScalar argument).list_value with
      | nil =>
        refine ⟨.BinderException
          (bound_function.name ++ " requires non-empty lists of part names"), ?_⟩
        simp [StructDatePart.Bind, hfold, hlist, hl]
      | cons part parts =>
        cases hloop : StructDatePart.Bind.loop bound_function.name (part :: parts) [] [] []
          with
        | error e =>
          exact ⟨e, by simp [StructDatePart.Bind, hfold, hlist, hl, hloop]⟩
        | ok result =>
          obtain ⟨h1, h2, h3, _⟩ := StructDatePart.Bind.loop_accepted _ _ _ _ _ _ hloop
          rw [hl] at hnot
          exact absurd ⟨List.cons_ne_nil _ _, h1, h2, h3⟩ hnot
  · rintro (hfold | hlist)
    · simp [StructDatePart.Bind, hfold]
    · by_cases hf : IsFoldable argument = false
      · simp [StructDatePart.Bind, hf]
      · simp [StructDatePart.Bind, hf, hlist]

/-- C36 for the list `year, Month, d`, which binds to the codes of year, month and day with
three `BIGINT` children, and for the list `year, YEAR`, whose names collide. -/
theorem StructDatePart_Bind_spec_witness :
    (example_IsFoldable (.BOUND_CONSTANT (.mk .LIST false ""
        [example_part "year", example_part "Month", example_part "d"])) = true
      ∧ (example_EvaluateScalar (.BOUND_CONSTANT (.mk .LIST false ""
        [example_part "year", example_part "Month", example_part "d"]))).type_id = .LIST
      ∧ acceptable_part_names (example_EvaluateScalar (.BOUND_CONSTANT (.mk .LIST false ""
        [example_part "year", example_part "Month", example_part "d"]))).list_value)
    ∧ StructDatePart.Bind example_IsFoldable example_EvaluateScalar example_date_part
        (.BOUND_CONSTANT (.mk .LIST false ""
          [example_part "year", example_part "Month", example_part "d"]))
        [.BOUND_COLUMN_REF ⟨⟨0, 0⟩, ⟨"DATE", none⟩⟩]
      = (.ok ⟨.STRUCT [("year", LogicalType.BIGINT), ("Month", LogicalType.BIGINT),
              ("d", LogicalType.BIGINT)], [.YEAR, .MONTH, .DAY]⟩,
          ⟨"date_part", [⟨"DATE", none⟩],
            .STRUCT [("year", LogicalType.BIGINT), ("Month", LogicalType.BIGINT),
              ("d", LogicalType.BIGINT)]⟩,
          [.BOUND_COLUMN_REF ⟨⟨0, 0⟩, ⟨"DATE", none⟩⟩])
    ∧ (∃ part_codes,
        StructDatePart.Bind example_IsFoldable example_EvaluateScalar example_date_part
          (.BOUND_CONSTANT (.mk .LIST false ""
            [example_part "year", example_part "Month", example_part "d"]))
          [.BOUND_COLUMN_REF ⟨⟨0, 0⟩, ⟨"DATE", none⟩⟩]
        = (.ok ⟨.STRUCT ((example_EvaluateScalar (.BOUND_CONSTANT (.mk .LIST false ""
              [example_part "year", example_part "Month", example_part "d"]))).list_value.map
                (fun part => (part.ToString, LogicalType.BIGINT))), part_codes⟩,
            { name := example_date_part.name
              arguments := example_date_part.arguments.tail
              return_type := .STRUCT ((example_EvaluateScalar (.BOUND_CONSTANT
                (.mk .LIST false ""
                  [example_part "year", example_part "Month", example_part "d"]))).list_value.map
                    (fun part => (part.ToString, LogicalType.BIGINT))) },
            [.BOUND_COLUMN_REF ⟨⟨0, 0⟩, ⟨"DATE", none⟩⟩])
        ∧ part_codes.map some = (example_EvaluateScalar (.BOUND_CONSTANT (.mk .LIST false ""
            [example_part "year", example_part "Month", example_part "d"]))).list_value.map
              (fun part => TryGetDatePartSpecifier part.ToString)
        ∧ part_codes.length = (example_EvaluateScalar (.BOUND_CONSTANT (.mk .LIST false ""
            [example_part "year", example_part "Month", example_part "d"]))).list_value.length)
    ∧ StructDatePart.Bind example_IsFoldable example_EvaluateScalar example_date_part
        (.BOUND_CONSTANT (.mk .LIST false "" [example_part "year", example_part "YEAR"]))
        [.BOUND_COLUMN_REF ⟨⟨0, 0⟩, ⟨"DATE", none⟩⟩]
      = (.error (.BinderException
            ("Duplicate struct entry name \"" ++ "YEAR" ++ "\" in " ++ "date_part")),
          example_date_part,
          [.BOUND_CONSTANT (.mk .LIST false "" [example_part "year", example_part "YEAR"]),
            .BOUND_COLUMN_REF ⟨⟨0, 0⟩, ⟨"DATE", none⟩⟩]) :=
  ⟨⟨rfl, rfl, List.cons_ne_nil _ _, by decide, by decide, by decide⟩,
    rfl,
    ((StructDatePart_Bind_spec example_IsFoldable example_EvaluateScalar example_date_part
      (.BOUND_CONSTANT (.mk .LIST false ""
        [example_part "year", example_part "Month", example_part "d"]))
      [.BOUND_COLUMN_REF ⟨⟨0, 0⟩, ⟨"DATE", none⟩⟩]).1 rfl rfl).1
      ⟨List.cons_ne_nil _ _, by decide, by decide, by decide⟩,
    rfl⟩

/-! ## Column binding replacer: theorems -/

/-- When the callback leaves the reference alone, the loop over the rules is the left fold of
`replace_rule`. -/
theorem ColumnBindingReplacer.VisitExpression.loop_eq_foldl
    (callback : Option (BoundColumnRefExpression → ReplaceBinding → BoundColumnRefExpression))
    (hcallback : ∀ f, callback = some f → ∀ ref rule, f ref rule = ref)
    (rules : List ReplaceBinding) :
    ∀ ref, ColumnBindingReplacer.VisitExpression.loop callback rules ref
      = rules.foldl replace_rule ref := by
  induction rules with
  | nil => intro ref; rfl
  | cons rule rest ih =>
    intro ref
    cases hc : callback with
    | none =>
      subst hc
      simp only [ColumnBindingReplacer.VisitExpression.loop, List.foldl_cons, ih]
      rfl
    | some f =>
      have hf := hcallback f hc
      subst hc
      simp only [ColumnBindingReplacer.VisitExpression.loop, List.foldl_cons, ih, hf]
      rfl

/-- The binding after the fold is the fold of the rules over the binding alone. -/
theorem replace_rule_foldl_binding (rules : List ReplaceBinding) :
    ∀ ref : BoundColumnRefExpression,
      (rules.foldl replace_rule ref).binding
        = rules.foldl
            (fun binding rule => if binding = rule.old_binding then rule.new_binding
              else binding)
            ref.binding := by
  induction rules with
  | nil => intro ref; rfl
  | cons rule rest ih =>
    intro ref
    simp only [List.foldl_cons, ih]
    congr 1
    unfold replace_rule
    split <;> rfl

/-- The return type after the fold is the new type of the last rule that fired with
`replace_type` set, and the old return type when there is no such rule. -/
theorem replace_rule_foldl_return_type (rules : List ReplaceBinding) :
    ∀ ref : BoundColumnRefExpression,
      (rules.foldl replace_rule ref).return_type
        = match ((fired_rules rules ref.binding).filter
              (fun rule => rule.replace_type)).getLast? with
          | some rule => rule.new_type
          | none => ref.return_type := by
  induction rules with
  | nil => intro ref; rfl
  | cons rule rest ih =>
    intro ref
    simp only [List.foldl_cons, ih, fired_rules]
    by_cases hfire : ref.binding = rule.old_binding
    · have hb : (replace_rule ref rule).binding = rule.new_binding := by
        simp [replace_rule, hfire]
      rw [hb, if_pos hfire]
      by_cases htype : rule.replace_type = true
      · have ht : (replace_rule ref rule).return_type = rule.new_type := by
          simp [replace_rule, hfire, htype]
        rw [ht, List.filter_cons_of_pos htype, List.getLast?_cons]
        cases ((fired_rules rest rule.new_binding).filter
          (fun rule => rule.replace_type)).getLast? <;> rfl
      · have ht : (replace_rule ref rule).return_type = ref.return_type := by
          simp [replace_rule, hfire, htype]
        rw [ht, List.filter_cons_of_neg htype]
    · have hr : replace_rule ref rule = ref := by
        simp [replace_rule, hfire]
      rw [hr, if_neg hfire]

/-- The visit of a list of expressions visits each of them. -/
theorem ColumnBindingReplacer.VisitExpressions_eq_map (replacer : ColumnBindingReplacer)
    (expressions : List Expression) :
    ColumnBindingReplacer.VisitExpressions replacer expressions
      = expressions.map (ColumnBindingReplacer.VisitExpression replacer) := by
  induction expressions with
  | nil => simp [ColumnBindingReplacer.VisitExpressions]
  | cons e es ih => simp [ColumnBindingReplacer.VisitExpressions, ih]

/-- The visit of a list of operators visits each of them. -/
theorem ColumnBindingReplacer.VisitOperators_eq_map (replacer : ColumnBindingReplacer)
    (ops : List LogicalOperator) :
    ColumnBindingReplacer.VisitOperators replacer ops
      = ops.map (ColumnBindingReplacer.VisitOperator replacer) := by
  induction ops with
  | nil => simp [ColumnBindingReplacer.VisitOperators]
  | cons op rest ih => simp [ColumnBindingReplacer.VisitOperators, ih]

/-- C37, as stated, fails: the loop hands the reference to `column_binding_callback` after every
rule, and a callback that writes to it takes part in the result. With the rule `0.0 to 1.0` and a
callback that writes the binding `9.9`, a reference to `0.0` ends at `9.9`, while the left fold
of the rules over it ends at `1.0`. -/
theorem VisitExpression_fold_counterexample :
    ColumnBindingReplacer.VisitExpression example_rebinding_replacer
        (.BOUND_COLUMN_REF ⟨⟨0, 0⟩, ⟨"INTEGER", none⟩⟩)
      = .BOUND_COLUMN_REF ⟨⟨9, 9⟩, ⟨"INTEGER", none⟩⟩
    ∧ example_rebinding_replacer.replace_bindings.foldl replace_rule
        ⟨⟨0, 0⟩, ⟨"INTEGER", none⟩⟩
      = ⟨⟨1, 0⟩, ⟨"INTEGER", none⟩⟩
    ∧ ColumnBindingReplacer.VisitExpression example_rebinding_replacer
        (.BOUND_COLUMN_REF ⟨⟨0, 0⟩, ⟨"INTEGER", none⟩⟩)
      ≠ .BOUND_COLUMN_REF (example_rebinding_replacer.replace_bindings.foldl replace_rule
          ⟨⟨0, 0⟩, ⟨"INTEGER", none⟩⟩) :=
  ⟨rfl, by decide,
    (fun h => absurd (Expression.BOUND_COLUMN_REF.inj h) (by decide))⟩

/-- C37, amended: when no callback is set, or the callback leaves the reference as it is,
`VisitExpression` rewrites a bound column reference to the left fold of the rules over it, each rule in list order replacing
the current binding by its new binding when the current binding is its old binding, so that
rules chain: with the rules `a to b`, `b to c` a reference to `a` ends at `c`. The return type
becomes the new type of the last rule that fired with `replace_type` set and is otherwise
unchanged. An expression that is not a bound column reference keeps its class and type, and its
children are visited. -/
theorem VisitExpression_fold (replacer : ColumnBindingReplacer)
    (hcallback : replacer.callback_observes) :
    (∀ ref, ColumnBindingReplacer.VisitExpression replacer (.BOUND_COLUMN_REF ref)
        = .BOUND_COLUMN_REF (replacer.replace_bindings.foldl replace_rule ref))
    ∧ (∀ ref : BoundColumnRefExpression,
        (replacer.replace_bindings.foldl replace_rule ref).binding
          = replacer.replace_bindings.foldl
              (fun binding rule => if binding = rule.old_binding then rule.new_binding
                else binding)
              ref.binding)
    ∧ (∀ ref : BoundColumnRefExpression,
        (replacer.replace_bindings.foldl replace_rule ref).return_type
          = match ((fired_rules replacer.replace_bindings ref.binding).filter
                (fun rule => rule.replace_type)).getLast? with
            | some rule => rule.new_type
            | none => ref.return_type)
    ∧ (∀ (a b c : ColumnBinding) (type : LogicalType),
        replacer.replace_bindings
          = [ReplaceBinding.ofBindings a b, ReplaceBinding.ofBindings b c] →
        ColumnBindingReplacer.VisitExpression replacer (.BOUND_COLUMN_REF ⟨a, type⟩)
          = .BOUND_COLUMN_REF ⟨c, type⟩)
    ∧ (∀ value, ColumnBindingReplacer.VisitExpression replacer (.BOUND_CONSTANT value)
        = .BOUND_CONSTANT value)
    ∧ (∀ expression_class return_type children,
        ColumnBindingReplacer.VisitExpression replacer
            (.other expression_class return_type children)
          = .other expression_class return_type
              (children.map (ColumnBindingReplacer.VisitExpression replacer))) := by
  have hfold : ∀ ref, ColumnBindingReplacer.VisitExpression replacer (.BOUND_COLUMN_REF ref)
      = .BOUND_COLUMN_REF (replacer.replace_bindings.foldl replace_rule ref) := by
    intro ref
    simp only [ColumnBindingReplacer.VisitExpression]
    rw [ColumnBindingReplacer.VisitExpression.loop_eq_foldl _ hcallback]
  refine ⟨hfold, replace_rule_foldl_binding _, replace_rule_foldl_return_type _, ?_, ?_, ?_⟩
  · intro a b c type hrules
    rw [hfold, hrules]
    simp [replace_rule, ReplaceBinding.ofBindings]
  · intro value
    simp only [ColumnBindingReplacer.VisitExpression]
  · intro expression_class return_type children
    simp only [ColumnBindingReplacer.VisitExpression,
      ColumnBindingReplacer.VisitExpressions_eq_map]

/-- C37, amended, for the chained rules `0.0 to 1.0` and `1.0 to 2.0` (the second with the new type
`VARCHAR`): a reference to `0.0` of type `INTEGER` ends at `2.0` with the type `VARCHAR`. -/
theorem VisitExpression_fold_witness :
    example_replacer.callback_observes
    ∧ ColumnBindingReplacer.VisitExpression example_replacer
        (.BOUND_COLUMN_REF ⟨⟨0, 0⟩, ⟨"INTEGER", none⟩⟩)
      = .BOUND_COLUMN_REF ⟨⟨2, 0⟩, ⟨"VARCHAR", none⟩⟩
    ∧ ColumnBindingReplacer.VisitExpression example_replacer
        (.BOUND_COLUMN_REF ⟨⟨0, 0⟩, ⟨"INTEGER", none⟩⟩)
      = .BOUND_COLUMN_REF (example_replacer.replace_bindings.foldl replace_rule
          ⟨⟨0, 0⟩, ⟨"INTEGER", none⟩⟩) :=
  ⟨fun _ h => Option.noConfusion h, rfl,
    (VisitExpression_fold example_replacer (fun _ h => Option.noConfusion h)).1
      ⟨⟨0, 0⟩, ⟨"INTEGER", none⟩⟩⟩

/-- A reference whose binding is the old binding of no rule goes through the rules unchanged. -/
theorem replace_rule_foldl_unbound (rules : List ReplaceBinding)
    (ref : BoundColumnRefExpression)
    (hnone : ∀ rule ∈ rules, ref.binding ≠ rule.old_binding) :
    rules.foldl replace_rule ref = ref := by
  induction rules with
  | nil => rfl
  | cons rule rest ih =>
    have hr : replace_rule ref rule = ref := by
      simp [replace_rule, hnone rule (List.mem_cons_self _ _)]
    rw [List.foldl_cons, hr]
    exact ih (fun r hr => hnone r (List.mem_cons_of_mem _ hr))

/-- With pairwise distinct old bindings and no new binding among the old ones, a reference bound
to the old binding of a rule ends at the new binding of that rule, with its new type if the rule
replaces the type. -/
theorem replace_rule_foldl_bound (rules : List ReplaceBinding) (rule : ReplaceBinding)
    (type : LogicalType) (hmem : rule ∈ rules)
    (hdistinct : (rules.map (fun r => r.old_binding)).Nodup)
    (hfresh : ∀ r ∈ rules, rule.new_binding ≠ r.old_binding) :
    rules.foldl replace_rule ⟨rule.old_binding, type⟩
      = ⟨rule.new_binding, if rule.replace_type then rule.new_type else type⟩ := by
  induction rules with
  | nil => exact absurd hmem (List.not_mem_nil _)
  | cons r rest ih =>
    rw [List.map_cons, List.nodup_cons] at hdistinct
    rw [List.foldl_cons]
    by_cases hold : rule.old_binding = r.old_binding
    · have hr : r = rule := by
        rcases List.mem_cons.mp hmem with h | h
        · exact h.symm
        · exact absurd (hold ▸ List.mem_map_of_mem (fun r => r.old_binding) h) hdistinct.1
      subst hr
      have hstep : replace_rule ⟨r.old_binding, type⟩ r
          = ⟨r.new_binding, if r.replace_type then r.new_type else type⟩ := by
        simp [replace_rule]
      rw [hstep]
      exact replace_rule_foldl_unbound rest _
        (fun r2 h2 => hfresh r2 (List.mem_cons_of_mem _ h2))
    · have hstep : replace_rule ⟨rule.old_binding, type⟩ r = ⟨rule.old_binding, type⟩ := by
        simp [replace_rule, hold]
      rw [hstep]
      have hrest : rule ∈ rest := by
        rcases List.mem_cons.mp hmem with h | h
        · exact absurd (by rw [h]) hold
        · exact h
      exact ih hrest hdistinct.2 (fun r2 h2 => hfresh r2 (List.mem_cons_of_mem _ h2))

/-- With pairwise distinct old bindings and no new binding among the old ones, running the rules
twice over a reference is running them once. -/
theorem replace_rule_foldl_idem (rules : List ReplaceBinding)
    (hdistinct : (rules.map (fun r => r.old_binding)).Nodup)
    (hfresh : ∀ r1 ∈ rules, ∀ r2 ∈ rules, r1.new_binding ≠ r2.old_binding)
    (ref : BoundColumnRefExpression) :
    rules.foldl replace_rule (rules.foldl replace_rule ref) = rules.foldl replace_rule ref := by
  by_cases h : ∃ rule ∈ rules, ref.binding = rule.old_binding
  · obtain ⟨rule, hmem, hbound⟩ := h
    have href : ref = ⟨rule.old_binding, ref.return_type⟩ := by
      cases ref
      simp only at hbound
      rw [hbound]
    rw [href, replace_rule_foldl_bound rules rule _ hmem hdistinct (hfresh rule hmem)]
    exact replace_rule_foldl_unbound rules _ (fun r2 h2 => hfresh rule hmem r2 h2)
  · have hnone : ∀ rule ∈ rules, ref.binding ≠ rule.old_binding :=
      fun rule hmem hbound => h ⟨rule, hmem, hbound⟩
    rw [replace_rule_foldl_unbound rules ref hnone, replace_rule_foldl_unbound rules ref hnone]

/-- When a visit of single expressions is idempotent, so is the visit of every expression tree
and of every operator tree. -/
theorem ColumnBindingReplacer.VisitExpression_idem (replacer : ColumnBindingReplacer)
    (href : ∀ ref,
      ColumnBindingReplacer.VisitExpression.loop replacer.column_binding_callback
          replacer.replace_bindings
          (ColumnBindingReplacer.VisitExpression.loop replacer.column_binding_callback
            replacer.replace_bindings ref)
        = ColumnBindingReplacer.VisitExpression.loop replacer.column_binding_callback
            replacer.replace_bindings ref)
    (expression : Expression) :
    ColumnBindingReplacer.VisitExpression replacer
        (ColumnBindingReplacer.VisitExpression replacer expression)
      = ColumnBindingReplacer.VisitExpression replacer expression :=
  @Expression.rec
    (fun e => ColumnBindingReplacer.VisitExpression replacer
        (ColumnBindingReplacer.VisitExpression replacer e)
      = ColumnBindingReplacer.VisitExpression replacer e)
    (fun es => ColumnBindingReplacer.VisitExpressions replacer
        (ColumnBindingReplacer.VisitExpressions replacer es)
      = ColumnBindingReplacer.VisitExpressions replacer es)
    (fun ref => by simp only [ColumnBindingReplacer.VisitExpression, href])
    (fun value => by simp only [ColumnBindingReplacer.VisitExpression])
    (fun expression_class return_type children ih => by
      simp only [ColumnBindingReplacer.VisitExpression, ih])
    (by simp only [ColumnBindingReplacer.VisitExpressions])
    (fun head tail ih1 ih2 => by
      simp only [ColumnBindingReplacer.VisitExpressions, ih1, ih2])
    expression

/-- When the visit of every expression is idempotent, so is the visit of every operator tree. -/
theorem ColumnBindingReplacer.VisitOperator_idem (replacer : ColumnBindingReplacer)
    (hexpr : ∀ e, ColumnBindingReplacer.VisitExpression replacer
        (ColumnBindingReplacer.VisitExpression replacer e)
      = ColumnBindingReplacer.VisitExpression replacer e)
    (op : LogicalOperator) :
    ColumnBindingReplacer.VisitOperator replacer
        (ColumnBindingReplacer.VisitOperator replacer op)
      = ColumnBindingReplacer.VisitOperator replacer op :=
  @LogicalOperator.rec
    (fun op => ColumnBindingReplacer.VisitOperator replacer
        (ColumnBindingReplacer.VisitOperator replacer op)
      = ColumnBindingReplacer.VisitOperator replacer op)
    (fun ops => ColumnBindingReplacer.VisitOperators replacer
        (ColumnBindingReplacer.VisitOperators replacer ops)
      = ColumnBindingReplacer.VisitOperators replacer ops)
    (fun address expressions children ih => by
      by_cases hstop : replacer.stop_operator = some address
      · simp only [ColumnBindingReplacer.VisitOperator, hstop, if_true]
      · simp only [ColumnBindingReplacer.VisitOperator, hstop, if_false, ih,
          ColumnBindingReplacer.VisitExpressions_eq_map, List.map_map]
        congr 1
        apply List.map_congr_left
        intro e _
        exact hexpr e)
    (by simp only [ColumnBindingReplacer.VisitOperators])
    (fun head tail ih1 ih2 => by
      simp only [ColumnBindingReplacer.VisitOperators, ih1, ih2])
    op

/-- C38, as stated, fails: the rule `0.0 to 1.0` meets both conditions of the claim, yet with a
callback that adds 10 to the table index of the reference a reference to `0.0` ends at `11.0`,
not at `1.0`, and a second run moves it on to `21.0`: the run is neither the substitution nor
idempotent. -/
theorem replacer_simultaneous_counterexample :
    ((example_writing_replacer.replace_bindings.map (fun r => r.old_binding)).Nodup
      ∧ (∀ r1 ∈ example_writing_replacer.replace_bindings,
          ∀ r2 ∈ example_writing_replacer.replace_bindings,
            r1.new_binding ≠ r2.old_binding))
    ∧ ColumnBindingReplacer.VisitExpression example_writing_replacer
        (.BOUND_COLUMN_REF ⟨⟨0, 0⟩, ⟨"INTEGER", none⟩⟩)
      = .BOUND_COLUMN_REF ⟨⟨11, 0⟩, ⟨"INTEGER", none⟩⟩
    ∧ ColumnBindingReplacer.VisitExpression example_writing_replacer
        (.BOUND_COLUMN_REF ⟨⟨0, 0⟩, ⟨"INTEGER", none⟩⟩)
      ≠ .BOUND_COLUMN_REF ⟨⟨1, 0⟩, ⟨"INTEGER", none⟩⟩
    ∧ ColumnBindingReplacer.VisitExpression example_writing_replacer
        (ColumnBindingReplacer.VisitExpression example_writing_replacer
          (.BOUND_COLUMN_REF ⟨⟨0, 0⟩, ⟨"INTEGER", none⟩⟩))
      = .BOUND_COLUMN_REF ⟨⟨21, 0⟩, ⟨"INTEGER", none⟩⟩
    ∧ ColumnBindingReplacer.VisitExpression example_writing_replacer
        (ColumnBindingReplacer.VisitExpression example_writing_replacer
          (.BOUND_COLUMN_REF ⟨⟨0, 0⟩, ⟨"INTEGER", none⟩⟩))
      ≠ ColumnBindingReplacer.VisitExpression example_writing_replacer
          (.BOUND_COLUMN_REF ⟨⟨0, 0⟩, ⟨"INTEGER", none⟩⟩) :=
  ⟨⟨by decide, by decide⟩, rfl,
    (fun h => absurd (Expression.BOUND_COLUMN_REF.inj h) (by decide)), rfl,
    (fun h => absurd (Expression.BOUND_COLUMN_REF.inj h) (by decide))⟩

/-- C38, amended: when no callback is set, or the callback leaves the reference as it is, and
the old bindings of the rules are pairwise distinct and no new binding is an old binding, the
replacer substitutes simultaneously: a reference bound to the old binding of a rule ends bound to its new binding, a
reference bound to none of the old bindings keeps its binding and its return type, and a second
run changes nothing, on every expression and every operator tree. The operator `stop_operator`
is returned as it is, with everything below it; any other operator has its expressions and its
children visited. -/
theorem replacer_simultaneous (replacer : ColumnBindingReplacer)
    (hcallback : replacer.callback_observes)
    (hdistinct : (replacer.replace_bindings.map (fun r => r.old_binding)).Nodup)
    (hfresh : ∀ r1 ∈ replacer.replace_bindings, ∀ r2 ∈ replacer.replace_bindings,
      r1.new_binding ≠ r2.old_binding) :
    (∀ rule ∈ replacer.replace_bindings, ∀ type : LogicalType,
      ColumnBindingReplacer.VisitExpression replacer
          (.BOUND_COLUMN_REF ⟨rule.old_binding, type⟩)
        = .BOUND_COLUMN_REF
            ⟨rule.new_binding, if rule.replace_type then rule.new_type else type⟩)
    ∧ (∀ ref : BoundColumnRefExpression,
      (∀ rule ∈ replacer.replace_bindings, ref.binding ≠ rule.old_binding) →
      ColumnBindingReplacer.VisitExpression replacer (.BOUND_COLUMN_REF ref)
        = .BOUND_COLUMN_REF ref)
    ∧ (∀ expression,
      ColumnBindingReplacer.VisitExpression replacer
          (ColumnBindingReplacer.VisitExpression replacer expression)
        = ColumnBindingReplacer.VisitExpression replacer expression)
    ∧ (∀ op,
      ColumnBindingReplacer.VisitOperator replacer
          (ColumnBindingReplacer.VisitOperator replacer op)
        = ColumnBindingReplacer.VisitOperator replacer op)
    ∧ (∀ op, replacer.stop_operator = some op.address →
      ColumnBindingReplacer.VisitOperator replacer op = op)
    ∧ (∀ address expressions children, replacer.stop_operator ≠ some address →
      ColumnBindingReplacer.VisitOperator replacer (.mk address expressions children)
        = .mk address (expressions.map (ColumnBindingReplacer.VisitExpression replacer))
            (children.map (ColumnBindingReplacer.VisitOperator replacer))) := by
  have hloop := ColumnBindingReplacer.VisitExpression.loop_eq_foldl
    replacer.column_binding_callback hcallback replacer.replace_bindings
  have hexpr : ∀ expression,
      ColumnBindingReplacer.VisitExpression replacer
          (ColumnBindingReplacer.VisitExpression replacer expression)
        = ColumnBindingReplacer.VisitExpression replacer expression := by
    intro expression
    apply ColumnBindingReplacer.VisitExpression_idem
    intro ref
    rw [hloop, hloop]
    exact replace_rule_foldl_idem _ hdistinct hfresh ref
  refine ⟨?_, ?_, hexpr, ?_, ?_, ?_⟩
  · intro rule hmem type
    simp only [ColumnBindingReplacer.VisitExpression, hloop]
    rw [replace_rule_foldl_bound _ rule type hmem hdistinct (hfresh rule hmem)]
  · intro ref hnone
    simp only [ColumnBindingReplacer.VisitExpression, hloop]
    rw [replace_rule_foldl_unbound _ ref hnone]
  · intro op
    exact ColumnBindingReplacer.VisitOperator_idem replacer hexpr op
  · intro op hstop
    cases op with
    | mk address expressions children =>
      simp only [LogicalOperator.address] at hstop
      simp only [ColumnBindingReplacer.VisitOperator, hstop, if_true]
  · intro address expressions children hstop
    simp only [ColumnBindingReplacer.VisitOperator, hstop, if_false,
      ColumnBindingReplacer.VisitExpressions_eq_map,
      ColumnBindingReplacer.VisitOperators_eq_map]

/-- C38, amended, on the example plan with the rules `0.0 to 5.0` and `0.1 to 5.1` (the second with the
new type `VARCHAR`): the references to `0.0` and `0.1` above the filter are rebound, the
reference to `3.0` stays, the filter at the stop address keeps its reference to `0.0`, and a
second run gives the same plan. -/
theorem replacer_simultaneous_witness :
    (example_simultaneous_replacer.callback_observes
      ∧ (example_simultaneous_replacer.replace_bindings.map (fun r => r.old_binding)).Nodup
      ∧ (∀ r1 ∈ example_simultaneous_replacer.replace_bindings,
          ∀ r2 ∈ example_simultaneous_replacer.replace_bindings,
            r1.new_binding ≠ r2.old_binding))
    ∧ ColumnBindingReplacer.VisitOperator example_simultaneous_replacer example_plan
      = .mk 1
          [.other .BOUND_FUNCTION ⟨"BIGINT", none⟩
            [.BOUND_COLUMN_REF ⟨⟨5, 0⟩, ⟨"INTEGER", none⟩⟩,
              .BOUND_COLUMN_REF ⟨⟨5, 1⟩, ⟨"VARCHAR", none⟩⟩,
              .BOUND_COLUMN_REF ⟨⟨3, 0⟩, ⟨"INTEGER", none⟩⟩]]
          [.mk 7 [.BOUND_COLUMN_REF ⟨⟨0, 0⟩, ⟨"INTEGER", none⟩⟩] []]
    ∧ ColumnBindingReplacer.VisitOperator example_simultaneous_replacer
        (ColumnBindingReplacer.VisitOperator example_simultaneous_replacer example_plan)
      = ColumnBindingReplacer.VisitOperator example_simultaneous_replacer example_plan :=
  ⟨⟨fun _ h => Option.noConfusion h, by decide, by decide⟩, rfl,
    (replacer_simultaneous example_simultaneous_replacer (fun _ h => Option.noConfusion h)
      (by decide) (by decide)).2.2.2.1 example_plan⟩

end duckdb
